import Mathlib

/-!
Verification development for the o3-time-master time-tracking extension.

The TypeScript sources are embedded shallowly:
* timestamps are integer milliseconds (`Int`), as returned by `Date.getTime()`;
* one calendar abstraction is fixed (UTC, `msPerDay` milliseconds per day):
  `toLocaleDateString` day keys and `setHours(0,0,0,0)` midnights both become
  the floor-division day index of the timestamp;
* the single-threaded event loop is modelled as a sequence of atomic
  operations (editor activity callbacks, the 1-second tick, the heartbeat
  check, user commands), each supplied with the wall-clock time `now` at
  which it runs; time is monotone along a run;
* the JavaScript aliasing between `trackingData.currentSession` and the
  session object inside the owning project's `sessions` array is modelled
  with a `Slot` type: `Slot.live` marks the array entry that is the very
  object `currentSession` points to, while `Slot.stored s` is an ordinary
  entry.  Deserialised data contains no `live` slot, which reproduces the
  fact that loading breaks the aliasing.
-/

namespace O3

/-- Milliseconds per calendar day. -/
def msPerDay : Int := 86400000

/-- Day index of a timestamp (models both `toLocaleDateString` day keys and
`toISOString().split('T')[0]` under the fixed-timezone abstraction). -/
def dayIdx (t : Int) : Int := t / msPerDay

/-- Local midnight at the start of the day containing `t`
(models `setHours(0,0,0,0)`). -/
def dayStart (t : Int) : Int := msPerDay * dayIdx t

/-- 23:59:59.999 of the day containing `t`. -/
def dayEndOf (t : Int) : Int := dayStart t + msPerDay - 1

/-- `TimeSession` from `types.ts`. -/
structure TimeSession where
  id : Nat
  projectName : String
  projectPath : String
  startTime : Int
  endTime : Option Int
  totalTime : Int
  isActive : Bool
  lastActivity : Int
  lastActiveTime : Int
  textChanges : Nat
  cursorMovements : Nat
deriving DecidableEq

/-- Placeholder session used only to totalise the resolution of a dangling
`live` slot; no reachable state ever resolves it. -/
def dummySession : TimeSession :=
  { id := 0, projectName := "", projectPath := "", startTime := 0,
    endTime := none, totalTime := 0, isActive := false, lastActivity := 0,
    lastActiveTime := 0, textChanges := 0, cursorMovements := 0 }

/-- One entry of a project's `sessions` array.  `live` is the entry that is
the same JavaScript object as `trackingData.currentSession`; `stored s` is
any other entry (its value is `s`). -/
inductive Slot where
  | live : Slot
  | stored : TimeSession → Slot
deriving DecidableEq

/-- Resolve a slot to its session value, given the current session. -/
def resolveSlot (cur : Option TimeSession) : Slot → TimeSession
  | Slot.live => cur.getD dummySession
  | Slot.stored s => s

/-- `ProjectStats` from `types.ts`. -/
structure ProjectStats where
  projectName : String
  projectPath : String
  totalTime : Int
  sessions : List Slot
  lastActivity : Int
  firstSession : Int
  averageSessionDuration : Rat
  activeDays : Nat
deriving DecidableEq

/-- `TrackingData` from `types.ts`; `projects` keeps the `Map` as an
association list in insertion order. -/
structure TrackingData where
  projects : List (String × ProjectStats)
  currentSession : Option TimeSession
  lastActivity : Int
  totalTimeTracked : Int
  version : String
  lastSaved : Int
  workspacePath : Option String
  workspaceName : Option String
deriving DecidableEq

/-- `ExtensionConfig` with the options read by `loadConfiguration`. -/
structure ExtensionConfig where
  idleThreshold : Int
  autoStart : Bool
  showInStatusBar : Bool
  saveInterval : Int
  trackBackground : Bool
  autoEndSessionAfterIdle : Bool
  autoEndIdleThreshold : Int
  autoEndSessionOnProjectChange : Bool
deriving DecidableEq

/-- The mutable fields of `ActivityMonitor` (sleep-aware version). -/
structure MonitorState where
  lastActivity : Int
  lastHeartbeat : Int
  isWindowFocused : Bool
deriving DecidableEq

/-- `ActivityState` from `types.ts`. -/
inductive ActivityState where
  | active_foreground
  | active_background
  | idle_foreground
  | inactive
deriving DecidableEq

/-- `HEARTBEAT_INTERVAL` of `ActivityMonitor`. -/
def HEARTBEAT_INTERVAL : Int := 10000

/-- `SLEEP_THRESHOLD` of `ActivityMonitor`. -/
def SLEEP_THRESHOLD : Int := 30000

/-- `ActivityMonitor.getCurrentState`, sleep-aware version. -/
def getCurrentState (cfg : ExtensionConfig) (m : MonitorState) (now : Int) :
    ActivityState :=
  let idleThresholdMs := cfg.idleThreshold * 60 * 1000
  let timeSinceLastActivity := now - m.lastActivity
  let timeSinceLastHeartbeat := now - m.lastHeartbeat
  let hasSleepGap := timeSinceLastHeartbeat > SLEEP_THRESHOLD
  let isIdle := timeSinceLastActivity > idleThresholdMs || hasSleepGap
  if m.isWindowFocused then
    if isIdle then ActivityState.idle_foreground
    else ActivityState.active_foreground
  else
    if cfg.trackBackground && !isIdle && !hasSleepGap then
      ActivityState.active_background
    else ActivityState.inactive

/-- `ActivityMonitor.isActive`. -/
def monitorIsActive (cfg : ExtensionConfig) (m : MonitorState) (now : Int) :
    Bool :=
  let state := getCurrentState cfg m now
  state = ActivityState.active_foreground ||
    state = ActivityState.active_background

/-- The reference classifier, written exactly after the specification text
(section 4.1) for comparison with `getCurrentState`. -/
def specClassifier (cfg : ExtensionConfig) (m : MonitorState) (now : Int) :
    ActivityState :=
  let sleepDetected := now - m.lastHeartbeat > 30000
  let isIdle := now - m.lastActivity > cfg.idleThreshold * 60000 ∨ sleepDetected
  if m.isWindowFocused ∧ ¬ isIdle then ActivityState.active_foreground
  else if m.isWindowFocused ∧ isIdle then ActivityState.idle_foreground
  else if ¬ m.isWindowFocused ∧ cfg.trackBackground ∧ ¬ isIdle ∧
      ¬ sleepDetected then ActivityState.active_background
  else ActivityState.inactive

/-- Event kinds of `ActivityEvent` (`types.ts`), plus the synthesized
`sleep`/`wake` kinds emitted by the sleep-aware monitor. -/
inductive EventType where
  | text_change
  | cursor_change
  | window_focus
  | window_blur
  | sleep
  | wake
deriving DecidableEq

/-- `ActivityEvent`: kind and timestamp. -/
structure ActivityEvent where
  type : EventType
  timestamp : Int
deriving DecidableEq

/-- Whole-process state: configuration, monitor, tracking data and the
`TimeTracker` instance fields; `nextId` renders `generateSessionId`
abstractly as a counter (the source draws a fresh random string), and
`clock` is the wall-clock time of the last processed callback. -/
structure TrackerState where
  config : ExtensionConfig
  monitor : MonitorState
  data : TrackingData
  isRunning : Bool
  isPaused : Bool
  lastSessionDay : Option Int
  nextId : Nat
  clock : Int
deriving DecidableEq

/-- `Map.get` on the projects map. -/
def lookupProject (d : TrackingData) (path : String) : Option ProjectStats :=
  (d.projects.find? (fun e => e.1 = path)).map (fun e => e.2)

/-- `Map.set` on the projects map: replace the entry when the key is
present, append it otherwise. -/
def setProject (d : TrackingData) (path : String) (ps : ProjectStats) :
    TrackingData :=
  if d.projects.any (fun e => e.1 = path) then
    { d with projects :=
        d.projects.map (fun e => if e.1 = path then (path, ps) else e) }
  else
    { d with projects := d.projects ++ [(path, ps)] }

/-- Materialise a slot: a `live` entry keeps the current object's value. -/
def freezeSlot (cur : Option TimeSession) (sl : Slot) : Slot :=
  match sl with
  | Slot.live => Slot.stored (resolveSlot cur Slot.live)
  | Slot.stored s => Slot.stored s

/-- Drop the `currentSession` pointer: the `live` array entry keeps the
object's final value (this models `delete this.trackingData.currentSession`,
after which the object survives only inside the sessions array). -/
def freezeCurrent (d : TrackingData) : TrackingData :=
  { d with
    currentSession := none,
    projects := d.projects.map (fun e =>
      (e.1, { e.2 with
        sessions := e.2.sessions.map (freezeSlot d.currentSession) })) }

/-- One comparison step of the stable descending sort selection below. -/
def fmStep (f : TimeSession → Int) (acc : Option TimeSession)
    (x : TimeSession) : Option TimeSession :=
  match acc with
  | none => some x
  | some y => if f x > f y then some x else some y

/-- First element attaining the maximum of `f`, i.e. element `[0]` of a
stable descending JavaScript sort by `f`. -/
def firstMaxBy (l : List TimeSession) (f : TimeSession → Int) :
    Option TimeSession :=
  l.foldl (fmStep f) none

/-- `Modelled from the spec:` `safeTimeDifference` is imported from
`timeUtils` but its definition is not part of the sources; per the
error-handling design, accumulation deltas are clamped to non-negative
(a warning is logged for the rejected ones).  The third argument (a
threshold in minutes passed by the callers) does not affect the clamp. -/
def safeTimeDifference (endT startT maxMinutes : Int) : Int :=
  max 0 (endT - startT)

/-- `TimeTracker.recalculateProjectStats`. -/
def recalculateProjectStats (cur : Option TimeSession) (ps : ProjectStats) :
    ProjectStats :=
  let sessions := (ps.sessions.map (resolveSlot cur)).filter
    (fun s => s.endTime.isSome)
  let total : Int := sessions.foldl (fun acc s => acc + s.totalTime) 0
  let avg : Rat :=
    if sessions.length > 0 then (total : Rat) / (sessions.length : Rat) else 0
  let uniqueDays := (sessions.map (fun s => dayIdx s.startTime)).dedup
  let lastSession := firstMaxBy sessions (fun s => s.lastActivity)
  { ps with
    totalTime := total,
    averageSessionDuration := avg,
    activeDays := uniqueDays.length,
    lastActivity :=
      match lastSession with
      | some s => s.lastActivity
      | none => ps.lastActivity }

/-- The fresh `ProjectStats` record `addSessionToProject` creates lazily
for a project without one. -/
def newProjectStats (session : TimeSession) : ProjectStats :=
  { projectName := session.projectName,
    projectPath := session.projectPath,
    totalTime := 0,
    sessions := [],
    lastActivity := session.startTime,
    firstSession := session.startTime,
    averageSessionDuration := 0,
    activeDays := 1 }

/-- The stats record `addSessionToProject` pushes onto. -/
def baseStats (d : TrackingData) (session : TimeSession) : ProjectStats :=
  match lookupProject d session.projectPath with
  | some ps => ps
  | none => newProjectStats session

/-- `TimeTracker.addSessionToProject` (the pushed entry is the object the
tracker just made current, hence a `live` slot). -/
def addSessionToProject (d : TrackingData) (session : TimeSession) :
    TrackingData :=
  let ps := baseStats d session
  let ps1 := { ps with sessions := ps.sessions ++ [Slot.live] }
  setProject d session.projectPath
    (recalculateProjectStats d.currentSession ps1)

/-- `TimeTracker.findRecentSession`: most recent not-ended session of the
project. -/
def findRecentSession (d : TrackingData) (projectPath : String) :
    Option TimeSession :=
  match lookupProject d projectPath with
  | none => none
  | some ps =>
    firstMaxBy
      ((ps.sessions.map (resolveSlot d.currentSession)).filter
        (fun s => s.endTime.isNone))
      (fun s => s.lastActivity)

/-- `TimeTracker.shouldResumeSession` (30-minute resume window). -/
def shouldResumeSession (now : Int) (session : TimeSession) : Bool :=
  now - session.lastActivity < 30 * 60 * 1000

/-- Mark the first array entry holding the session with id `i` as the live
(current) one; models re-pointing `currentSession` at that object. -/
def markLiveById (i : Nat) : List Slot → List Slot
  | [] => []
  | Slot.live :: rest => Slot.live :: markLiveById i rest
  | Slot.stored s :: rest =>
    if s.id = i then Slot.live :: rest
    else Slot.stored s :: markLiveById i rest

/-- The fresh session `startOrResumeSession` creates in its else-branch. -/
def freshSession (st : TrackerState) (now : Int) (pname ppath : String) :
    TimeSession :=
  { id := st.nextId, projectName := pname, projectPath := ppath,
    startTime := now, endTime := none, totalTime := 0,
    isActive := true, lastActivity := now, lastActiveTime := now,
    textChanges := 0, cursorMovements := 0 }

/-- The "start new session" block of `startOrResumeSession`. -/
def startNewSession (st : TrackerState) (now : Int) (pname ppath : String) :
    TrackerState :=
  let ns := freshSession st now pname ppath
  let d0 := freezeCurrent st.data
  let d1 := { d0 with currentSession := some ns }
  { st with data := addSessionToProject d1 ns, nextId := st.nextId + 1 }

/-- `TimeTracker.startOrResumeSession`; `proj` is the result of
`getCurrentProject` (name, path). -/
def startOrResumeSession (st : TrackerState) (now : Int)
    (proj : Option (String × String)) : TrackerState :=
  match proj with
  | none => st
  | some (pname, ppath) =>
    let existing := findRecentSession st.data ppath
    let st1 :=
      match existing with
      | some ex =>
        if shouldResumeSession now ex then
          let ex1 := { ex with
            isActive := true, lastActivity := now, lastActiveTime := now }
          let d0 := freezeCurrent st.data
          let d1 := { d0 with
            currentSession := some ex1,
            projects := d0.projects.map
              (fun (e : String × ProjectStats) =>
                if e.1 = ppath then
                  (e.1,
                   { e.2 with sessions := markLiveById ex.id e.2.sessions })
                else e) }
          { st with data := d1 }
        else startNewSession st now pname ppath
      | none => startNewSession st now pname ppath
    match st1.data.currentSession with
    | some c => { st1 with lastSessionDay := some (dayIdx c.startTime) }
    | none => st1

/-- The re-aggregation step shared by `endCurrentSession` and
`splitSessionAtMidnight`: recalculate the owning project's stats when the
project exists. -/
def updateProjectStats (d : TrackingData) (path : String) : TrackingData :=
  match lookupProject d path with
  | some ps => setProject d path (recalculateProjectStats d.currentSession ps)
  | none => d

/-- The closed value `endCurrentSession` writes into the session object. -/
def endedWith (st : TrackerState) (now : Int) (endTime : Option Int)
    (session : TimeSession) : TimeSession :=
  let finalEndTime := endTime.getD (session.endTime.getD now)
  let s1 := { session with endTime := some finalEndTime, isActive := false }
  if monitorIsActive st.config st.monitor now then
    let remainingActiveTime :=
      safeTimeDifference finalEndTime s1.lastActiveTime
        st.config.idleThreshold
    if remainingActiveTime > 0 then
      { s1 with totalTime := s1.totalTime + remainingActiveTime }
    else s1
  else s1

/-- `TimeTracker.endCurrentSession` (optional explicit end time). -/
def endCurrentSession (st : TrackerState) (now : Int) (endTime : Option Int) :
    TrackerState :=
  match st.data.currentSession with
  | none => st
  | some session =>
    let s2 := endedWith st now endTime session
    let d1 := { st.data with currentSession := some s2 }
    let d2 := updateProjectStats d1 session.projectPath
    let d3 := freezeCurrent d2
    let d4 := { d3 with lastSaved := now }
    { st with data := d4, lastSessionDay := none }

/-- The session value the current session is closed with by
`endCurrentSession` (the object the aliased array entry retains). -/
def endedSessionValue (st : TrackerState) (now : Int)
    (endTime : Option Int) : Option TimeSession :=
  st.data.currentSession.map (endedWith st now endTime)

/-- The closed value the midnight split writes into the old session. -/
def splitClosedWith (st : TrackerState) (now : Int)
    (currentSession : TimeSession) : TimeSession :=
  let endOfYesterday := dayStart now - 1
  let c1 := { currentSession with
    endTime := some endOfYesterday, isActive := false }
  if monitorIsActive st.config st.monitor now &&
      decide (c1.lastActiveTime < endOfYesterday) then
    { c1 with totalTime :=
        c1.totalTime + (endOfYesterday - c1.lastActiveTime) }
  else c1

/-- `TimeTracker.splitSessionAtMidnight`. -/
def splitSessionAtMidnight (st : TrackerState) (now : Int) : TrackerState :=
  match st.data.currentSession with
  | none => st
  | some currentSession =>
    let c2 := splitClosedWith st now currentSession
    let d1 := { st.data with currentSession := some c2 }
    let d2 := updateProjectStats d1 currentSession.projectPath
    let ns := freshSession st now currentSession.projectName
      currentSession.projectPath
    let d3 := freezeCurrent d2
    let d4 := { d3 with currentSession := some ns }
    let d5 := addSessionToProject d4 ns
    let d6 := { d5 with lastSaved := now }
    { st with data := d6, nextId := st.nextId + 1 }

/-- The value the split closes the pre-midnight session with. -/
def splitEndedValue (st : TrackerState) (now : Int) : Option TimeSession :=
  st.data.currentSession.map (splitClosedWith st now)

/-- `TimeTracker.checkAndHandleMidnightCrossing`. -/
def checkAndHandleMidnightCrossing (st : TrackerState) (now : Int) :
    TrackerState :=
  match st.data.currentSession with
  | none => st
  | some _ =>
    let currentDay := dayIdx now
    match st.lastSessionDay with
    | some d =>
      if d ≠ currentDay then
        { splitSessionAtMidnight st now with lastSessionDay := some currentDay }
      else st
    | none => st

/-- `TimeTracker.checkAndHandleIdleSessionEnd`. -/
def checkAndHandleIdleSessionEnd (st : TrackerState) (now : Int) :
    TrackerState :=
  match st.data.currentSession with
  | none => st
  | some c =>
    let idleThreshold := st.config.autoEndIdleThreshold * 60 * 1000
    if now - c.lastActiveTime > idleThreshold then
      endCurrentSession st now none
    else st

/-- `TimeTracker.checkAndHandleProjectChange`. -/
def checkAndHandleProjectChange (st : TrackerState) (now : Int)
    (proj : Option (String × String)) : TrackerState :=
  match st.data.currentSession with
  | none => st
  | some c =>
    match proj with
    | none => endCurrentSession st now none
    | some (_, ppath) =>
      if c.projectPath ≠ ppath then
        startOrResumeSession (endCurrentSession st now none) now proj
      else st

/-- `TimeTracker.tick` (the 1-second timer callback). -/
def tick (st : TrackerState) (now : Int) (proj : Option (String × String)) :
    TrackerState :=
  let st1 :=
    if st.data.currentSession.isSome && !st.isPaused then
      checkAndHandleMidnightCrossing st now
    else st
  let st2 :=
    if st1.config.autoEndSessionOnProjectChange &&
        st1.data.currentSession.isSome && !st1.isPaused then
      checkAndHandleProjectChange st1 now proj
    else st1
  let st3 :=
    if st2.config.autoEndSessionAfterIdle && st2.data.currentSession.isSome &&
        !st2.isPaused then
      checkAndHandleIdleSessionEnd st2 now
    else st2
  let st4 :=
    match st3.data.currentSession with
    | some c =>
      if !st3.isPaused then
        if monitorIsActive st3.config st3.monitor now then
          let timeSinceLastActive := safeTimeDifference now c.lastActiveTime 1
          let c1 :=
            if timeSinceLastActive > 0 then
              { c with totalTime := c.totalTime + timeSinceLastActive }
            else c
          { st3 with data := { st3.data with
              currentSession := some { c1 with
                lastActiveTime := now, lastActivity := now },
              lastActivity := now } }
        else st3
      else st3
    | none => st3
  if st4.config.autoStart && st4.data.currentSession.isNone &&
      !st4.isPaused && monitorIsActive st4.config st4.monitor now then
    startOrResumeSession st4 now proj
  else st4

/-- `TimeTracker.onActivity`. -/
def onActivity (st : TrackerState) (event : ActivityEvent) (now : Int)
    (proj : Option (String × String)) : TrackerState :=
  if !st.isRunning then st
  else
    match event.type with
    | EventType.sleep =>
      match st.data.currentSession with
      | some c =>
        if !st.isPaused then
          if st.config.autoEndSessionAfterIdle then
            endCurrentSession st now (some event.timestamp)
          else
            let c1 := { c with
              isActive := false, lastActivity := event.timestamp }
            { st with
              data := { st.data with currentSession := some c1 },
              isPaused := true }
        else st
      | none => st
    | EventType.wake =>
      match st.data.currentSession with
      | some c =>
        if st.isPaused then
          let c1 := { c with
            isActive := true, lastActivity := event.timestamp,
            lastActiveTime := event.timestamp }
          { st with
            isPaused := false,
            data := { st.data with currentSession := some c1 } }
        else st
      | none =>
        if st.config.autoStart then startOrResumeSession st now proj
        else st
    | _ =>
      if st.isPaused then st
      else
        let st1 :=
          match st.data.currentSession with
          | some c =>
            let c1 :=
              match event.type with
              | EventType.text_change =>
                { c with textChanges := c.textChanges + 1 }
              | EventType.cursor_change =>
                { c with cursorMovements := c.cursorMovements + 1 }
              | _ => c
            let c2 := { c1 with lastActiveTime := now, lastActivity := now }
            { st with data := { st.data with currentSession := some c2 } }
          | none => st
        if st1.config.autoStart && st1.data.currentSession.isNone then
          startOrResumeSession st1 now proj
        else st1

/-- `ActivityMonitor.recordActivity`: refresh the monitor's last-activity
stamp, then run the registered callback (`TimeTracker.onActivity`). -/
def recordActivity (st : TrackerState) (event : ActivityEvent) (now : Int)
    (proj : Option (String × String)) : TrackerState :=
  let st1 := { st with monitor :=
    { st.monitor with lastActivity := event.timestamp } }
  onActivity st1 event now proj

/-- The events `ActivityMonitor.checkSleepWake` synthesizes at time `now`. -/
def heartbeatEvents (m : MonitorState) (now : Int) : List ActivityEvent :=
  if now - m.lastHeartbeat > SLEEP_THRESHOLD then
    [{ type := EventType.sleep, timestamp := m.lastHeartbeat +
        HEARTBEAT_INTERVAL },
     { type := EventType.wake, timestamp := now }]
  else []

/-- `ActivityMonitor.checkSleepWake` (the 10-second heartbeat callback). -/
def checkSleepWake (st : TrackerState) (now : Int)
    (proj : Option (String × String)) : TrackerState :=
  let evs := heartbeatEvents st.monitor now
  let st1 := evs.foldl (fun s ev => recordActivity s ev now proj) st
  { st1 with monitor := { st1.monitor with lastHeartbeat := now } }

/-- `ActivityMonitor.onWindowStateChangeEnhanced`. -/
def onWindowStateChange (st : TrackerState) (focused : Bool) (now : Int)
    (proj : Option (String × String)) : TrackerState :=
  let wasFocused := st.monitor.isWindowFocused
  let st0 := { st with monitor :=
    { st.monitor with isWindowFocused := focused } }
  if wasFocused ≠ focused then
    let st1 :=
      if focused && !wasFocused &&
          (decide (now - st0.monitor.lastActivity > SLEEP_THRESHOLD) ||
           decide (now - st0.monitor.lastHeartbeat > SLEEP_THRESHOLD)) then
        recordActivity st0 { type := EventType.wake, timestamp := now } now proj
      else st0
    recordActivity st1
      { type := if focused then EventType.window_focus else
          EventType.window_blur, timestamp := now } now proj
  else st0

/-- `TimeTracker.pause`. -/
def pauseTracker (st : TrackerState) : TrackerState :=
  if !st.isRunning then st
  else
    let st1 := { st with isPaused := true }
    match st1.data.currentSession with
    | some c =>
      { st1 with data :=
          { st1.data with currentSession := some { c with isActive := false } } }
    | none => st1

/-- `TimeTracker.resume`. -/
def resumeTracker (st : TrackerState) (now : Int) : TrackerState :=
  if !st.isRunning then st
  else
    let st1 := { st with isPaused := false }
    match st1.data.currentSession with
    | some c =>
      let c1 := { c with isActive := true, lastActivity := now }
      { st1 with data := { st1.data with currentSession := some c1 } }
    | none => st1

/-- `TimeTracker.stop`. -/
def stopTracker (st : TrackerState) (now : Int) : TrackerState :=
  if !st.isRunning then st
  else
    let st1 := endCurrentSession st now none
    let st2 := { st1 with data := { st1.data with lastSaved := now } }
    { st2 with isRunning := false, isPaused := false }

/-- `TimeTracker.reset`. -/
def resetTracker (st : TrackerState) (now : Int) : TrackerState :=
  match st.data.currentSession with
  | none => st
  | some c =>
    let d1 :=
      match lookupProject st.data c.projectPath with
      | some ps =>
        let ps1 := { ps with sessions := ps.sessions.filter (fun sl =>
          (resolveSlot st.data.currentSession sl).id ≠ c.id) }
        setProject st.data c.projectPath
          (recalculateProjectStats st.data.currentSession ps1)
      | none => st.data
    let d2 := { d1 with currentSession := none }
    let d3 := { d2 with lastSaved := now }
    { st with data := d3, lastSessionDay := none }

/-- `TimeTracker.autoSave` (only refreshes the save stamp). -/
def autoSave (st : TrackerState) (now : Int) : TrackerState :=
  { st with data := { st.data with lastSaved := now } }

/-- One scheduled callback of the event loop. -/
inductive Op where
  | textChange (now : Int) (proj : Option (String × String))
  | cursorChange (now : Int) (proj : Option (String × String))
  | windowState (focused : Bool) (now : Int) (proj : Option (String × String))
  | heartbeat (now : Int) (proj : Option (String × String))
  | tickOp (now : Int) (proj : Option (String × String))
  | pauseCmd (now : Int)
  | resumeCmd (now : Int)
  | stopCmd (now : Int)
  | resetCmd (now : Int)
  | autoSaveOp (now : Int)
deriving DecidableEq

/-- The wall-clock time at which an operation runs. -/
def Op.now : Op → Int
  | Op.textChange n _ => n
  | Op.cursorChange n _ => n
  | Op.windowState _ n _ => n
  | Op.heartbeat n _ => n
  | Op.tickOp n _ => n
  | Op.pauseCmd n => n
  | Op.resumeCmd n => n
  | Op.stopCmd n => n
  | Op.resetCmd n => n
  | Op.autoSaveOp n => n

/-- Run one callback (the clock advances to the callback's time). -/
def applyOp (st : TrackerState) (op : Op) : TrackerState :=
  let st := { st with clock := op.now }
  match op with
  | Op.textChange n proj =>
    recordActivity st { type := EventType.text_change, timestamp := n } n proj
  | Op.cursorChange n proj =>
    recordActivity st { type := EventType.cursor_change, timestamp := n } n proj
  | Op.windowState f n proj => onWindowStateChange st f n proj
  | Op.heartbeat n proj => checkSleepWake st n proj
  | Op.tickOp n proj => tick st n proj
  | Op.pauseCmd _ => pauseTracker st
  | Op.resumeCmd n => resumeTracker st n
  | Op.stopCmd n => stopTracker st n
  | Op.resetCmd n => resetTracker st n
  | Op.autoSaveOp n => autoSave st n

/-- `FileStorageManager.createDefaultData`. -/
def createDefaultData (now : Int) (workspace : Option (String × String)) :
    TrackingData :=
  { projects := [],
    currentSession := none,
    lastActivity := now,
    totalTimeTracked := 0,
    version := "1.0.0",
    lastSaved := now,
    workspacePath := workspace.map (fun w => w.1),
    workspaceName := workspace.map (fun w => w.2) }

/-- Process state right after `TimeTracker.start()` on a fresh workspace
(no stored data): default data, timers armed, clock at `t0`. -/
def initState (cfg : ExtensionConfig) (t0 : Int) (focused : Bool)
    (workspace : Option (String × String)) : TrackerState :=
  { config := cfg,
    monitor :=
      { lastActivity := t0, lastHeartbeat := t0, isWindowFocused := focused },
    data := createDefaultData t0 workspace,
    isRunning := true,
    isPaused := false,
    lastSessionDay := none,
    nextId := 0,
    clock := t0 }

/-- States reachable by the event loop from a fresh start, with monotone
wall-clock time and no load of previously persisted data. -/
inductive ReachableNoLoad : TrackerState → Prop where
  | init (cfg : ExtensionConfig) (t0 : Int) (focused : Bool)
      (workspace : Option (String × String)) :
      ReachableNoLoad (initState cfg t0 focused workspace)
  | step {st : TrackerState} (op : Op) (h : ReachableNoLoad st)
      (hmono : st.clock ≤ op.now) : ReachableNoLoad (applyOp st op)

/-- `TimeTracker.exportData` snapshot (`exportDate`, `version`, all
projects, grand total). -/
structure ExportSnapshot where
  exportDate : Int
  version : String
  projects : List ProjectStats
  totalTimeTracked : Int
deriving DecidableEq

/-- The object `TimeTracker.exportData` writes. -/
def exportData (d : TrackingData) (now : Int) : ExportSnapshot :=
  { exportDate := now,
    version := d.version,
    projects := d.projects.map (fun e => e.2),
    totalTimeTracked := d.totalTimeTracked }

/-- Specification-side quantity for the export claim: the sum over all
projects of the `totalTime` of their completed sessions. -/
def completedSessionsTotal (d : TrackingData) : Int :=
  (d.projects.map (fun e =>
    ((e.2.sessions.map (resolveSlot d.currentSession)).filter
      (fun s => s.endTime.isSome)).foldl
      (fun acc s => acc + s.totalTime) 0)).sum

/-- Resolved sessions of a project that have no `endTime`. -/
def openSessions (d : TrackingData) (path : String) : List TimeSession :=
  match lookupProject d path with
  | none => []
  | some ps =>
    (ps.sessions.map (resolveSlot d.currentSession)).filter
      (fun s => s.endTime.isNone)

/-- All session values in the state (the current one first, then every
array entry, resolved). -/
def allSessions (st : TrackerState) : List TimeSession :=
  (match st.data.currentSession with
   | some c => [c]
   | none => []) ++
  st.data.projects.flatMap (fun e =>
    e.2.sessions.map (resolveSlot st.data.currentSession))

/-- Find a session value by id. -/
def sessionById (st : TrackerState) (i : Nat) : Option TimeSession :=
  (allSessions st).find? (fun s => s.id = i)

/-- Round trip through `serializeData`/`deserializeData`: all dates survive,
but the identity of the `currentSession` object is lost — each array entry
comes back as a plain `stored` value. -/
def serializeData (d : TrackingData) : TrackingData :=
  { d with projects := d.projects.map (fun e =>
      (e.1, { e.2 with sessions := e.2.sessions.map (fun sl =>
        Slot.stored (resolveSlot d.currentSession sl)) })) }

/-- Outcome of reading and parsing the primary data file. -/
inductive ReadResult where
  | missing
  | unreadable
  | ok (d : TrackingData)
deriving DecidableEq

/-- `FileStorageManager.load`: absent file gives the default; a parsed file
is workspace-validated (mismatch gives the default, a missing recorded
workspace is back-filled); a read/parse failure falls back to the backup
file without validation, and to the default when the backup fails too. -/
def loadData (workspace : Option (String × String)) (now : Int)
    (primary : ReadResult) (backup : Option TrackingData) : TrackingData :=
  match primary with
  | ReadResult.missing => createDefaultData now workspace
  | ReadResult.ok d =>
    match workspace with
    | some (wpath, wname) =>
      match d.workspacePath with
      | some p =>
        if p ≠ wpath then createDefaultData now workspace else d
      | none =>
        { d with workspacePath := some wpath, workspaceName := some wname }
    | none => d
  | ReadResult.unreadable =>
    match backup with
    | some b => b
    | none => createDefaultData now workspace

/-- `TimeTracker.start()` of a fresh process over possibly persisted data:
load, then `startOrResumeSession` when `autoStart` is set.  `startNextId`
seeds the id counter of the new process. -/
def startProcess (cfg : ExtensionConfig) (workspace : Option (String × String))
    (focused : Bool) (t0 : Int) (primary : ReadResult)
    (backup : Option TrackingData) (proj : Option (String × String))
    (startNextId : Nat) : TrackerState :=
  let d := loadData workspace t0 primary backup
  let st : TrackerState :=
    { config := cfg,
      monitor :=
        { lastActivity := t0, lastHeartbeat := t0, isWindowFocused := focused },
      data := d,
      isRunning := true,
      isPaused := false,
      lastSessionDay := none,
      nextId := startNextId,
      clock := t0 }
  if cfg.autoStart then startOrResumeSession st t0 proj else st

/-- The default configuration of `loadConfiguration`. -/
def cfgDefault : ExtensionConfig :=
  { idleThreshold := 5, autoStart := true, showInStatusBar := true,
    saveInterval := 30, trackBackground := true,
    autoEndSessionAfterIdle := true, autoEndIdleThreshold := 30,
    autoEndSessionOnProjectChange := true }

/-- A fixed resolvable project used by the concrete runs. -/
def projP : Option (String × String) := some ("proj", "/p")

/-- A fixed workspace identity used by the concrete runs. -/
def wsW : Option (String × String) := some ("/w", "w")

/-- Sleep-end run: activity at 0 opens a session; a tick at 25 s credits
25 s of active time; a heartbeat check at 31 s detects a sleep gap and ends
the session with the synthesized sleep timestamp 10 s. -/
def sleepEndRun : TrackerState :=
  applyOp
    (applyOp
      (applyOp (initState cfgDefault 0 true wsW) (Op.textChange 0 projP))
      (Op.tickOp 25000 projP))
    (Op.heartbeat 31000 projP)

/-- Two-midnights run: a session opened at 23:00 of day 0 is split by the
first tick at 01:00 of day 2. -/
def twoMidnightsRun : TrackerState :=
  applyOp
    (applyOp (initState cfgDefault 82800000 true wsW)
      (Op.textChange 82800000 projP))
    (Op.tickOp 176400000 projP)

/-- Export run: a session accrues 6 s of active time and is stopped; the
data is then exported. -/
def exportRun : TrackerState :=
  applyOp
    (applyOp
      (applyOp (initState cfgDefault 0 true wsW) (Op.textChange 0 projP))
      (Op.tickOp 5000 projP))
    (Op.stopCmd 6000)

/-- A previous process leaves an open session and saves; the stored payload
for the reload run. -/
def reloadPayload : TrackingData :=
  serializeData
    (applyOp (initState cfgDefault 0 true wsW) (Op.textChange 0 projP)).data

/-- Reload run: a new process starts 30 minutes later over the stored
payload; the resume window has closed, so a second session is created. -/
def reloadRun : TrackerState :=
  startProcess cfgDefault wsW true 1800000 (ReadResult.ok reloadPayload)
    none projP 1000

/-- A backup payload recorded under a different workspace. -/
def mismatchedBackup : TrackingData :=
  { projects := [], currentSession := none, lastActivity := 0,
    totalTimeTracked := 0, version := "1.0.0", lastSaved := 0,
    workspacePath := some "B", workspaceName := some "B" }

/-- Invariant of the in-process state machine, established below for every
state reachable without loading persisted data:
1. the current session is open, its anchors are ordered, its `totalTime`
   stays below both its `lastActiveTime` and the end of its start day
   (relative to `startTime`), and `lastSessionDay` tracks its start day;
2. every `stored` array entry is a completed session with non-negative
   `totalTime`;
3. the `live` array entry (the object aliased with `currentSession`) exists
   exactly once in the owning project and nowhere else, and not at all when
   no session is current;
4. project keys are unique;
5. `totalTimeTracked` is never written by any operation, so it stays 0. -/
def Inv (st : TrackerState) : Prop :=
  (∀ c, st.data.currentSession = some c →
      c.endTime = none ∧
      c.startTime ≤ c.lastActiveTime ∧
      c.lastActiveTime ≤ st.clock ∧
      c.totalTime ≤ min c.lastActiveTime (dayEndOf c.startTime) - c.startTime ∧
      0 ≤ c.totalTime ∧
      st.lastSessionDay = some (dayIdx c.startTime)) ∧
  (∀ e ∈ st.data.projects, ∀ s, Slot.stored s ∈ e.2.sessions →
      s.endTime.isSome = true ∧ 0 ≤ s.totalTime) ∧
  (match st.data.currentSession with
   | none => ∀ e ∈ st.data.projects, Slot.live ∉ e.2.sessions
   | some c =>
      (∀ e ∈ st.data.projects,
        (e.1 = c.projectPath → e.2.sessions.count Slot.live = 1) ∧
        (e.1 ≠ c.projectPath → Slot.live ∉ e.2.sessions)) ∧
      st.data.projects.any (fun e => e.1 = c.projectPath) = true) ∧
  (st.data.projects.map (fun e => e.1)).Nodup ∧
  st.data.totalTimeTracked = 0

/-- A session value with id `i` and at least `t` accumulated milliseconds
is held either by the current session or by a stored array entry. -/
def Tracked (st : TrackerState) (i : Nat) (t : Int) : Prop :=
  (∃ c, st.data.currentSession = some c ∧ c.id = i ∧ t ≤ c.totalTime) ∨
  (∃ s, (∃ e ∈ st.data.projects, Slot.stored s ∈ e.2.sessions) ∧
    s.id = i ∧ t ≤ s.totalTime)

/-- A concrete stats record with one completed session, for evaluating the
recompute. -/
def psW : ProjectStats :=
  { projectName := "proj", projectPath := "/p", totalTime := 0,
    sessions := [Slot.stored { dummySession with
      id := 1, endTime := some 5, totalTime := 5, lastActivity := 5 }],
    lastActivity := 0, firstSession := 0, averageSessionDuration := 0,
    activeDays := 0 }

/-- A step preserves the open session: some session with the same id and at
least the same accumulated time survives into the next state. -/
def trackProp (pre post : TrackerState) : Prop :=
  ∀ c, pre.data.currentSession = some c →
    ∃ s' ∈ allSessions post, s'.id = c.id ∧ c.totalTime ≤ s'.totalTime

/-! ### Arithmetic of day boundaries -/

theorem msPerDay_pos : (0 : Int) < msPerDay := by decide

theorem dayStart_le (t : Int) : dayStart t ≤ t := by
  unfold dayStart dayIdx msPerDay
  omega

theorem le_dayEndOf (t : Int) : t ≤ dayEndOf t := by
  unfold dayEndOf dayStart dayIdx msPerDay
  omega

theorem dayIdx_mono {a b : Int} (h : a ≤ b) : dayIdx a ≤ dayIdx b := by
  unfold dayIdx msPerDay
  omega

theorem dayStart_eq_of_dayIdx_eq {a b : Int} (h : dayIdx a = dayIdx b) :
    dayStart a = dayStart b := by
  unfold dayStart
  rw [h]

/-- If `b` is on a strictly later day than `a`, the end of `a`'s day is at
most one millisecond before the midnight starting `b`'s day. -/
theorem dayEndOf_le_dayStart_sub_one {a b : Int} (hab : a ≤ b)
    (hne : dayIdx a ≠ dayIdx b) : dayEndOf a ≤ dayStart b - 1 := by
  have h1 : dayIdx a ≤ dayIdx b := dayIdx_mono hab
  simp only [dayEndOf, dayStart, dayIdx, msPerDay] at h1 hne ⊢
  omega

/-! ### C6: the idle/focus classifier -/

/-- C6.  For all inputs, `getCurrentState` agrees with the reference
classifier of the specification (sleep gap detected at a heartbeat gap over
30 s; idle at an activity gap over the threshold or a sleep gap; the four
states assigned by focus, idleness, background tracking and sleep), and
`isActive` holds exactly in the two ACTIVE states. -/
theorem c6_classifier_matches_spec (cfg : ExtensionConfig) (m : MonitorState)
    (now : Int) :
    getCurrentState cfg m now = specClassifier cfg m now ∧
    (monitorIsActive cfg m now = true ↔
      (getCurrentState cfg m now = ActivityState.active_foreground ∨
       getCurrentState cfg m now = ActivityState.active_background)) := by
  have h60 : cfg.idleThreshold * 60 * 1000 = cfg.idleThreshold * 60000 := by
    ring
  constructor
  · unfold getCurrentState specClassifier SLEEP_THRESHOLD
    rw [h60]
    by_cases hf : m.isWindowFocused <;>
      by_cases hi : now - m.lastActivity > cfg.idleThreshold * 60000 <;>
      by_cases hs : now - m.lastHeartbeat > 30000 <;>
      by_cases hb : cfg.trackBackground <;>
      simp [hf, hi, hs, hb]
  · unfold monitorIsActive
    rcases getCurrentState cfg m now <;> simp

/-! ### Helper lemmas on folds -/

theorem foldl_add_totalTime (l : List TimeSession) (a : Int) :
    l.foldl (fun acc s => acc + s.totalTime) a =
      a + (l.map (fun s => s.totalTime)).sum := by
  induction l generalizing a with
  | nil => simp
  | cons x xs ih =>
    simp only [List.foldl_cons, List.map_cons, List.sum_cons]
    rw [ih]
    ring

theorem firstMaxBy_go_mem (f : TimeSession → Int) (l : List TimeSession) :
    ∀ (acc : Option TimeSession) (s : TimeSession),
      l.foldl (fmStep f) acc = some s → acc = some s ∨ s ∈ l := by
  induction l with
  | nil =>
    intro acc s h
    exact Or.inl h
  | cons x xs ih =>
    intro acc s h
    rw [List.foldl_cons] at h
    rcases ih _ s h with h2 | h2
    · cases acc with
      | none =>
        simp only [fmStep, Option.some.injEq] at h2
        exact Or.inr (by simp [h2])
      | some y =>
        by_cases hxy : f x > f y
        · simp only [fmStep, if_pos hxy, Option.some.injEq] at h2
          exact Or.inr (by simp [h2])
        · simp only [fmStep, if_neg hxy, Option.some.injEq] at h2
          exact Or.inl (by simp [h2])
    · exact Or.inr (List.mem_cons_of_mem _ h2)

theorem firstMaxBy_go_le (f : TimeSession → Int) (l : List TimeSession) :
    ∀ (acc : Option TimeSession) (s : TimeSession),
      l.foldl (fmStep f) acc = some s →
      (∀ y, acc = some y → f y ≤ f s) ∧ (∀ x ∈ l, f x ≤ f s) := by
  induction l with
  | nil =>
    intro acc s h
    refine ⟨fun y hy => ?_, fun x hx => absurd hx (List.not_mem_nil x)⟩
    rw [hy] at h
    simp only [List.foldl_nil, Option.some.injEq] at h
    rw [h]
  | cons x xs ih =>
    intro acc s h
    rw [List.foldl_cons] at h
    obtain ⟨hacc, hmem⟩ := ih _ s h
    constructor
    · intro y hy
      subst hy
      by_cases hxy : f x > f y
      · have := hacc x (by simp [fmStep, if_pos hxy])
        omega
      · exact hacc y (by simp [fmStep, if_neg hxy])
    · intro z hz
      rcases List.mem_cons.mp hz with hz | hz
      · subst hz
        cases acc with
        | none => exact hacc z rfl
        | some y =>
          by_cases hxy : f z > f y
          · exact hacc z (by simp [fmStep, if_pos hxy])
          · have := hacc y (by simp [fmStep, if_neg hxy])
            omega
      · exact hmem z hz

theorem firstMaxBy_go_isSome (f : TimeSession → Int) (l : List TimeSession) :
    ∀ (acc : TimeSession), (l.foldl (fmStep f) (some acc)).isSome := by
  induction l with
  | nil => intro acc; rfl
  | cons x xs ih =>
    intro acc
    rw [List.foldl_cons]
    by_cases hxy : f x > f acc
    · simpa [fmStep, if_pos hxy] using ih x
    · simpa [fmStep, if_neg hxy] using ih acc

theorem firstMaxBy_isSome (f : TimeSession → Int) (x : TimeSession)
    (xs : List TimeSession) : (firstMaxBy (x :: xs) f).isSome := by
  unfold firstMaxBy
  rw [List.foldl_cons]
  exact firstMaxBy_go_isSome f xs x

/-! ### C9: the project aggregate recompute -/

/-- C9.  `recalculateProjectStats` is a full recompute over completed
sessions only: the total is the sum of completed sessions' `totalTime`, the
average is the total divided by the number of completed sessions (0 when
there are none), `activeDays` counts the distinct calendar start days of
completed sessions, and `lastActivity` becomes the `lastActivity` of the
most recently active completed session (it is an attained upper bound). -/
theorem c9_recalculate_is_full_recompute (cur : Option TimeSession)
    (ps : ProjectStats) :
    (recalculateProjectStats cur ps).totalTime =
      (((ps.sessions.map (resolveSlot cur)).filter
        (fun s => s.endTime.isSome)).map (fun s => s.totalTime)).sum ∧
    (((ps.sessions.map (resolveSlot cur)).filter
        (fun s => s.endTime.isSome)).length = 0 →
      (recalculateProjectStats cur ps).averageSessionDuration = 0) ∧
    (0 < ((ps.sessions.map (resolveSlot cur)).filter
        (fun s => s.endTime.isSome)).length →
      (recalculateProjectStats cur ps).averageSessionDuration =
        ((recalculateProjectStats cur ps).totalTime : Rat) /
          (((ps.sessions.map (resolveSlot cur)).filter
            (fun s => s.endTime.isSome)).length : Rat)) ∧
    (recalculateProjectStats cur ps).activeDays =
      (((ps.sessions.map (resolveSlot cur)).filter
        (fun s => s.endTime.isSome)).map
          (fun s => dayIdx s.startTime)).toFinset.card ∧
    (∀ s ∈ (ps.sessions.map (resolveSlot cur)).filter
        (fun s => s.endTime.isSome),
      s.lastActivity ≤ (recalculateProjectStats cur ps).lastActivity) ∧
    (0 < ((ps.sessions.map (resolveSlot cur)).filter
        (fun s => s.endTime.isSome)).length →
      ∃ s ∈ (ps.sessions.map (resolveSlot cur)).filter
          (fun s => s.endTime.isSome),
        (recalculateProjectStats cur ps).lastActivity = s.lastActivity) := by
  set completed := (ps.sessions.map (resolveSlot cur)).filter
    (fun s => s.endTime.isSome) with hcompleted
  have htotal : (recalculateProjectStats cur ps).totalTime =
      (completed.map (fun s => s.totalTime)).sum := by
    unfold recalculateProjectStats
    rw [← hcompleted]
    simpa using foldl_add_totalTime completed 0
  refine ⟨htotal, ?_, ?_, ?_, ?_, ?_⟩
  · intro h0
    unfold recalculateProjectStats
    rw [← hcompleted]
    simp [h0]
  · intro hpos
    unfold recalculateProjectStats
    rw [← hcompleted]
    simp only [hpos, if_pos]
  · unfold recalculateProjectStats
    rw [← hcompleted]
    simp [List.card_toFinset]
  · intro s hs
    unfold recalculateProjectStats
    rw [← hcompleted]
    simp only
    cases hmax : firstMaxBy completed (fun s => s.lastActivity) with
    | none =>
      rcases completed with _ | ⟨x, xs⟩
      · exact absurd hs (List.not_mem_nil s)
      · have := firstMaxBy_isSome (fun s => s.lastActivity) x xs
        rw [hmax] at this
        exact absurd this (by simp)
    | some m =>
      unfold firstMaxBy at hmax
      exact (firstMaxBy_go_le _ _ _ _ hmax).2 s hs
  · intro hpos
    cases hmax : firstMaxBy completed (fun s => s.lastActivity) with
    | none =>
      rcases hcompl : completed with _ | ⟨x, xs⟩
      · rw [hcompl] at hpos; simp at hpos
      · have := firstMaxBy_isSome (fun s => s.lastActivity) x xs
        rw [hcompl] at hmax
        rw [hmax] at this
        exact absurd this (by simp)
    | some m =>
      refine ⟨m, ?_, ?_⟩
      · unfold firstMaxBy at hmax
        rcases firstMaxBy_go_mem _ _ _ _ hmax with h | h
        · exact absurd h (by simp)
        · exact h
      · unfold recalculateProjectStats
        rw [← hcompleted]
        simp only [hmax]

/-! ### Toolkit: lookup, set, freeze -/

theorem resolveSlot_freezeSlot (cur cur2 : Option TimeSession) (sl : Slot) :
    resolveSlot cur2 (freezeSlot cur sl) = resolveSlot cur sl := by
  cases sl <;> rfl

theorem recalculateProjectStats_sessions (cur : Option TimeSession)
    (ps : ProjectStats) :
    (recalculateProjectStats cur ps).sessions = ps.sessions := rfl

theorem find?_map_keys (g : String × ProjectStats → ProjectStats)
    (l : List (String × ProjectStats)) (p : String) :
    (l.map (fun e => (e.1, g e))).find? (fun e => e.1 = p) =
      (l.find? (fun e => e.1 = p)).map (fun e => (e.1, g e)) := by
  induction l with
  | nil => rfl
  | cons x xs ih =>
    by_cases hx : x.1 = p
    · simp [List.find?, hx]
    · simp [List.find?, hx, ih]

theorem lookupProject_freeze (d : TrackingData) (p : String) :
    lookupProject (freezeCurrent d) p =
      (lookupProject d p).map (fun ps =>
        { ps with sessions := ps.sessions.map (freezeSlot d.currentSession) }) := by
  unfold lookupProject freezeCurrent
  rw [find?_map_keys (fun e =>
    { e.2 with sessions := e.2.sessions.map (freezeSlot d.currentSession) })]
  cases d.projects.find? (fun e => e.1 = p) <;> rfl

theorem find?_isSome_of_any (l : List (String × ProjectStats)) (p : String)
    (h : l.any (fun e => e.1 = p) = true) :
    (l.find? (fun e => e.1 = p)).isSome := by
  induction l with
  | nil => simp at h
  | cons x xs ih =>
    by_cases hx : x.1 = p
    · simp [List.find?, hx]
    · simp only [List.any_cons, hx] at h
      simp only [List.find?, hx]
      simpa using ih (by simpa using h)

theorem find?_replace_self (l : List (String × ProjectStats)) (p : String)
    (ps : ProjectStats) (h : (l.find? (fun e => e.1 = p)).isSome) :
    (l.map (fun e => if e.1 = p then (p, ps) else e)).find?
      (fun e => e.1 = p) = some (p, ps) := by
  induction l with
  | nil => simp [List.find?] at h
  | cons x xs ih =>
    by_cases hx : x.1 = p
    · simp [List.find?, hx]
    · simp only [List.find?, hx] at h
      simp only [List.map_cons, if_neg hx, List.find?, hx]
      simpa [List.find?, hx] using ih (by simpa [List.find?, hx] using h)

theorem find?_replace_ne (l : List (String × ProjectStats)) (p q : String)
    (ps : ProjectStats) (hne : q ≠ p) :
    (l.map (fun e => if e.1 = p then (p, ps) else e)).find?
      (fun e => e.1 = q) = l.find? (fun e => e.1 = q) := by
  induction l with
  | nil => rfl
  | cons x xs ih =>
    by_cases hx : x.1 = p
    · have hq : ¬ (x.1 = q) := by
        rw [hx]
        exact fun hc => hne hc.symm
      have hq2 : ¬ ((p : String) = q) := fun hc => hne hc.symm
      simp [List.find?, hx, hq, hq2, ih]
    · by_cases hxq : x.1 = q
      · simp [List.find?, hx, hxq, hne]
      · simp [List.find?, hx, hxq, ih]

theorem find?_append_one (l : List (String × ProjectStats)) (p : String)
    (ps : ProjectStats) (h : ¬ l.any (fun e => e.1 = p) = true) :
    (l ++ [(p, ps)]).find? (fun e => e.1 = p) = some (p, ps) := by
  induction l with
  | nil => simp [List.find?]
  | cons x xs ih =>
    simp only [List.any_cons, Bool.or_eq_true, not_or] at h
    have hx : ¬ (x.1 = p) := by
      intro hc
      exact h.1 (by simpa using hc)
    simp only [List.cons_append, List.find?, hx]
    simpa [List.find?, hx] using ih (by simpa using h.2)

theorem find?_append_one_ne (l : List (String × ProjectStats)) (p q : String)
    (ps : ProjectStats) (hne : q ≠ p) :
    (l ++ [(p, ps)]).find? (fun e => e.1 = q) =
      l.find? (fun e => e.1 = q) := by
  induction l with
  | nil =>
    have hq2 : ¬ ((p : String) = q) := fun hc => hne hc.symm
    simp [List.find?, hq2]
  | cons x xs ih =>
    by_cases hxq : x.1 = q
    · simp [List.find?, hxq]
    · simp only [List.cons_append, List.find?, hxq]
      simpa [List.find?, hxq] using ih

theorem lookupProject_setProject_self (d : TrackingData) (p : String)
    (ps : ProjectStats) :
    lookupProject (setProject d p ps) p = some ps := by
  unfold lookupProject setProject
  by_cases h : d.projects.any (fun e => e.1 = p)
  · simp only [h, if_pos]
    rw [find?_replace_self d.projects p ps (find?_isSome_of_any d.projects p h)]
    rfl
  · simp only [h, if_neg, Bool.false_eq_true, not_false_iff]
    rw [find?_append_one d.projects p ps h]
    rfl

theorem lookupProject_setProject_ne (d : TrackingData) (p q : String)
    (ps : ProjectStats) (hne : q ≠ p) :
    lookupProject (setProject d p ps) q = lookupProject d q := by
  unfold lookupProject setProject
  by_cases h : d.projects.any (fun e => e.1 = p)
  · simp only [h, if_pos]
    rw [find?_replace_ne d.projects p q ps hne]
  · simp only [h, if_neg, Bool.false_eq_true, not_false_iff]
    rw [find?_append_one_ne d.projects p q ps hne]

theorem setProject_currentSession (d : TrackingData) (p : String)
    (ps : ProjectStats) :
    (setProject d p ps).currentSession = d.currentSession := by
  unfold setProject
  split <;> rfl

theorem setProject_totalTimeTracked (d : TrackingData) (p : String)
    (ps : ProjectStats) :
    (setProject d p ps).totalTimeTracked = d.totalTimeTracked := by
  unfold setProject
  split <;> rfl

theorem mem_setProject (d : TrackingData) (p : String) (ps : ProjectStats) :
    ∀ e ∈ (setProject d p ps).projects, e = (p, ps) ∨ e ∈ d.projects := by
  unfold setProject
  by_cases h : d.projects.any (fun e => e.1 = p)
  · simp only [h, if_pos]
    intro e he
    rcases List.mem_map.mp he with ⟨e0, he0, heq⟩
    by_cases hx : e0.1 = p
    · simp only [hx, if_pos] at heq
      exact Or.inl heq.symm
    · simp only [hx, if_neg, Bool.false_eq_true, not_false_iff] at heq
      exact Or.inr (heq ▸ he0)
  · simp only [h, if_neg, Bool.false_eq_true, not_false_iff]
    intro e he
    rcases List.mem_append.mp he with he | he
    · exact Or.inr he
    · simp only [List.mem_singleton] at he
      exact Or.inl he

theorem addSession_append (d : TrackingData) (ns : TimeSession)
    (hcur : d.currentSession = some ns) :
    ∃ ps1, lookupProject (addSessionToProject d ns) ns.projectPath =
        some ps1 ∧
      ps1.sessions.map (resolveSlot (some ns)) =
        (match lookupProject d ns.projectPath with
         | some ps0 => ps0.sessions.map (resolveSlot d.currentSession)
         | none => []) ++ [ns] := by
  unfold addSessionToProject
  cases h : lookupProject d ns.projectPath with
  | none =>
    have hb : baseStats d ns = newProjectStats ns := by
      unfold baseStats
      rw [h]
    refine ⟨_, lookupProject_setProject_self _ _ _, ?_⟩
    rw [recalculateProjectStats_sessions, hb]
    simp [newProjectStats, resolveSlot]
  | some ps0 =>
    have hb : baseStats d ns = ps0 := by
      unfold baseStats
      rw [h]
    refine ⟨_, lookupProject_setProject_self _ _ _, ?_⟩
    rw [recalculateProjectStats_sessions, hb]
    simp only [List.map_append, hcur]
    rfl

theorem addSession_currentSession (d : TrackingData) (ns : TimeSession) :
    (addSessionToProject d ns).currentSession = d.currentSession := by
  simp only [addSessionToProject]
  exact setProject_currentSession _ _ _

/-! ### C5: resume window -/

/-- C5.  `startOrResumeSession` on a resolvable project: when the project
has a not-ended session whose `lastActivity` is within 30 minutes of `now`,
that very session (same `id`, counters preserved) becomes the current
session again with `isActive = true` and `lastActiveTime` reset to `now`;
otherwise a new session with a fresh id, `startTime = now`, zero
`totalTime` and zero counters is created and appended to the project's
session list. -/
theorem c5_resume_window (st : TrackerState) (now : Int)
    (pname ppath : String)
    (hfresh : ∀ s ∈ allSessions st, s.id < st.nextId) :
    (∀ ex, findRecentSession st.data ppath = some ex →
      shouldResumeSession now ex = true →
      (startOrResumeSession st now (some (pname, ppath))).data.currentSession
        = some { ex with
            isActive := true, lastActivity := now, lastActiveTime := now }) ∧
    ((findRecentSession st.data ppath = none ∨
      (∃ ex, findRecentSession st.data ppath = some ex ∧
        shouldResumeSession now ex = false)) →
      ∃ ns,
        (startOrResumeSession st now
          (some (pname, ppath))).data.currentSession = some ns ∧
        ns.id = st.nextId ∧ ns.projectName = pname ∧ ns.projectPath = ppath ∧
        ns.startTime = now ∧ ns.totalTime = 0 ∧ ns.endTime = none ∧
        ns.textChanges = 0 ∧ ns.cursorMovements = 0 ∧
        (∀ s ∈ allSessions st, s.id ≠ ns.id) ∧
        (∃ ps1,
          lookupProject
            (startOrResumeSession st now (some (pname, ppath))).data ppath =
              some ps1 ∧
          ps1.sessions.map (resolveSlot (some ns)) =
            (match lookupProject st.data ppath with
             | some ps0 =>
               ps0.sessions.map (resolveSlot st.data.currentSession)
             | none => []) ++ [ns])) := by
  constructor
  · intro ex hfind hshould
    simp only [startOrResumeSession, startNewSession, freshSession]
    rw [hfind]
    simp only [hshould, if_pos]
  · intro hcase
    set ns : TimeSession :=
      { id := st.nextId, projectName := pname, projectPath := ppath,
        startTime := now, endTime := none, totalTime := 0,
        isActive := true, lastActivity := now, lastActiveTime := now,
        textChanges := 0, cursorMovements := 0 } with hns
    have hmain :
        (startOrResumeSession st now (some (pname, ppath))).data =
          addSessionToProject
            { freezeCurrent st.data with currentSession := some ns } ns := by
      rcases hcase with hnone | ⟨ex, hfind, hshould⟩
      · simp only [startOrResumeSession, startNewSession, freshSession]
        rw [hnone]
        cases hcur : (addSessionToProject
            { freezeCurrent st.data with currentSession := some ns }
            ns).currentSession <;> simp [hcur]
      · simp only [startOrResumeSession, startNewSession, freshSession]
        rw [hfind]
        simp only [hshould, Bool.false_eq_true, if_neg, not_false_iff]
        cases hcur : (addSessionToProject
            { freezeCurrent st.data with currentSession := some ns }
            ns).currentSession <;> simp [hcur]
    have hlookup1 :
        lookupProject
          { freezeCurrent st.data with currentSession := some ns } ppath =
        (lookupProject st.data ppath).map (fun ps =>
          { ps with
            sessions := ps.sessions.map
              (freezeSlot st.data.currentSession) }) := by
      have : lookupProject
          { freezeCurrent st.data with currentSession := some ns } ppath =
          lookupProject (freezeCurrent st.data) ppath := rfl
      rw [this, lookupProject_freeze]
    have haddcur :
        (addSessionToProject
          { freezeCurrent st.data with currentSession := some ns }
          ns).currentSession = some ns := by
      rw [addSession_currentSession]
    refine ⟨ns, ?_, rfl, rfl, rfl, rfl, rfl, rfl, rfl, rfl, ?_, ?_⟩
    · rw [hmain, haddcur]
    · intro s hs
      have h1 := hfresh s hs
      have h2 : ns.id = st.nextId := rfl
      omega
    · rw [hmain]
      have hd1cur :
          ({ freezeCurrent st.data with
            currentSession := some ns } : TrackingData).currentSession =
            some ns := rfl
      obtain ⟨ps1, hlk, hsess⟩ := addSession_append _ ns hd1cur
      have hpp : ns.projectPath = ppath := rfl
      refine ⟨ps1, hpp ▸ hlk, ?_⟩
      rw [hsess]
      cases hlk0 : lookupProject st.data ppath with
      | none =>
        have h2 : lookupProject
            { freezeCurrent st.data with currentSession := some ns }
            ns.projectPath = none := by
          rw [hpp, hlookup1, hlk0]
          rfl
        rw [h2]
      | some ps0 =>
        have h2 : lookupProject
            { freezeCurrent st.data with currentSession := some ns }
            ns.projectPath = some
              { ps0 with sessions :=
                ps0.sessions.map (freezeSlot st.data.currentSession) } := by
          rw [hpp, hlookup1, hlk0]
          rfl
        rw [h2]
        simp only [hd1cur, List.map_map]
        congr 1
        exact List.map_congr_left (fun sl _ =>
          resolveSlot_freezeSlot st.data.currentSession (some ns) sl)

/-- Closed witness for C5 at a concrete input: starting on a fresh tracker
creates a brand-new session for the project. -/
theorem c5_resume_window_witness :
    ∃ ns,
      (startOrResumeSession (initState cfgDefault 0 true wsW) 0
        (some ("proj", "/p"))).data.currentSession = some ns ∧
      ns.id = (initState cfgDefault 0 true wsW).nextId ∧
      ns.projectName = "proj" ∧ ns.projectPath = "/p" ∧
      ns.startTime = 0 ∧ ns.totalTime = 0 ∧ ns.endTime = none ∧
      ns.textChanges = 0 ∧ ns.cursorMovements = 0 ∧
      (∀ s ∈ allSessions (initState cfgDefault 0 true wsW), s.id ≠ ns.id) ∧
      (∃ ps1,
        lookupProject
          (startOrResumeSession (initState cfgDefault 0 true wsW) 0
            (some ("proj", "/p"))).data "/p" = some ps1 ∧
        ps1.sessions.map (resolveSlot (some ns)) =
          (match lookupProject (initState cfgDefault 0 true wsW).data "/p" with
           | some ps0 =>
             ps0.sessions.map
               (resolveSlot (initState cfgDefault 0 true wsW).data.currentSession)
           | none => []) ++ [ns]) :=
  (c5_resume_window (initState cfgDefault 0 true wsW) 0 "proj" "/p"
    (by decide)).2 (Or.inl (by decide))

/-! ### Counterexamples found on concrete runs -/

/-- C1 counterexample.  In the sleep-end run the tracker creates a session
at time 0, a tick credits active time up to 25 s, and the heartbeat check
at 31 s ends the session with the synthesized sleep timestamp 10 s: the
completed session has `totalTime = 25000 > endTime − startTime = 10000`,
so `totalTime` exceeds the session's wall-clock span. -/
theorem c1_totaltime_bound_counterexample :
    ∃ s, sessionById sleepEndRun 0 = some s ∧ s.endTime = some 10000 ∧
      s.startTime = 0 ∧ ¬ (s.totalTime ≤ 10000 - 0) :=
  ⟨{ id := 0, projectName := "proj", projectPath := "/p", startTime := 0,
     endTime := some 10000, totalTime := 25000, isActive := false,
     lastActivity := 25000, lastActiveTime := 25000, textChanges := 0,
     cursorMovements := 0 },
   by decide, by decide, by decide, by decide⟩

/-- C2 counterexample.  In the two-midnights run a session starts at 23:00
of day 0 and the next tick happens at 01:00 of day 2: the split sets
`endTime` to 23:59:59.999 of day 1 (one millisecond before the midnight of
the detection day), not 23:59:59.999 of the session's start day (day 0). -/
theorem c2_midnight_split_counterexample :
    ∃ s, sessionById twoMidnightsRun 0 = some s ∧
      s.startTime = 82800000 ∧ dayEndOf s.startTime = 86399999 ∧
      s.endTime = some 172799999 ∧
      s.endTime ≠ some (dayEndOf s.startTime) :=
  ⟨{ id := 0, projectName := "proj", projectPath := "/p",
     startTime := 82800000, endTime := some 172799999, totalTime := 0,
     isActive := false, lastActivity := 82800000,
     lastActiveTime := 82800000, textChanges := 0, cursorMovements := 0 },
   by decide, by decide, by decide, by decide, by decide⟩

/-- C3 counterexample.  A process leaves an open session in the saved
payload; a new process loads it (which severs the object identity between
`currentSession` and the array entry) and, 30 minutes later, starting the
tracker finds the stale open session outside the resume window and appends
a second open session: the project then has two sessions without
`endTime`. -/
theorem c3_single_open_counterexample :
    1 < (openSessions reloadRun.data "/p").length := by decide

/-- C8 counterexample.  After a completed session with 6 s of active time,
`exportData` writes `totalTimeTracked`, a field no tracker operation ever
updates: the exported grand total is 0 while the sum over projects of
completed sessions' `totalTime` is 6000. -/
theorem c8_export_total_counterexample :
    (exportData exportRun.data 7000).totalTimeTracked = 0 ∧
    completedSessionsTotal exportRun.data = 6000 ∧
    (exportData exportRun.data 7000).totalTimeTracked ≠
      completedSessionsTotal exportRun.data := by decide

/-- C10 counterexample.  When the primary file is unreadable, `load`
returns the backup payload without workspace validation: with active
workspace `A` it returns data recorded under workspace `B`. -/
theorem c10_load_mismatch_counterexample :
    loadData (some ("A", "A")) 99 ReadResult.unreadable
      (some mismatchedBackup) = mismatchedBackup ∧
    mismatchedBackup.workspacePath = some "B" ∧
    ("B" : String) ≠ "A" ∧
    mismatchedBackup ≠ createDefaultData 99 (some ("A", "A")) := by
  refine ⟨rfl, rfl, by decide, by decide⟩

/-- C10 amended.  Workspace validation applies to the primary-file path:
parsed primary data recorded under a different workspace is replaced by the
fresh default; an unreadable primary file falls back to the backup payload
unvalidated (the default when the backup fails too), and a missing primary
file yields the default. -/
theorem c10_load_validation_amended (wpath wname : String) (now : Int)
    (d : TrackingData) (backup : Option TrackingData) (p : String)
    (hp : d.workspacePath = some p) (hne : p ≠ wpath) :
    loadData (some (wpath, wname)) now (ReadResult.ok d) backup =
      createDefaultData now (some (wpath, wname)) ∧
    loadData (some (wpath, wname)) now ReadResult.unreadable backup =
      backup.getD (createDefaultData now (some (wpath, wname))) ∧
    loadData (some (wpath, wname)) now ReadResult.missing backup =
      createDefaultData now (some (wpath, wname)) := by
  refine ⟨?_, ?_, rfl⟩
  · simp only [loadData]
    rw [hp]
    simp [hne]
  · simp only [loadData]
    cases backup <;> rfl

/-- Closed witness for the amended C10 at a concrete input. -/
theorem c10_load_validation_amended_witness :
    loadData (some ("A", "A")) 7 (ReadResult.ok mismatchedBackup) none =
      createDefaultData 7 (some ("A", "A")) ∧
    loadData (some ("A", "A")) 7 ReadResult.unreadable none =
      Option.getD none (createDefaultData 7 (some ("A", "A"))) ∧
    loadData (some ("A", "A")) 7 ReadResult.missing none =
      createDefaultData 7 (some ("A", "A")) :=
  c10_load_validation_amended "A" "A" 7 mismatchedBackup none "B" rfl
    (by decide)

/-! ### Toolkit: slots, freezing, membership -/

theorem freezeSlot_ne_live (cur : Option TimeSession) (sl : Slot) :
    freezeSlot cur sl ≠ Slot.live := by
  cases sl <;> simp [freezeSlot]

theorem not_live_mem_map_freezeSlot (cur : Option TimeSession)
    (l : List Slot) : Slot.live ∉ l.map (freezeSlot cur) := by
  intro h
  rcases List.mem_map.mp h with ⟨sl, _, heq⟩
  exact freezeSlot_ne_live cur sl heq

theorem map_freezeSlot_of_not_live (cur : Option TimeSession) (l : List Slot)
    (h : Slot.live ∉ l) : l.map (freezeSlot cur) = l := by
  induction l with
  | nil => rfl
  | cons sl rest ih =>
    simp only [List.mem_cons, not_or] at h
    cases sl with
    | live => exact absurd rfl h.1
    | stored s => simp [freezeSlot, ih h.2]

theorem stored_mem_map_freezeSlot (cur : Option TimeSession) (l : List Slot)
    (s : TimeSession) (h : Slot.stored s ∈ l.map (freezeSlot cur)) :
    Slot.stored s ∈ l ∨ (Slot.live ∈ l ∧ s = resolveSlot cur Slot.live) := by
  rcases List.mem_map.mp h with ⟨sl, hmem, heq⟩
  cases sl with
  | live =>
    right
    refine ⟨hmem, ?_⟩
    simpa [freezeSlot] using heq.symm
  | stored s0 =>
    left
    have : s0 = s := by simpa [freezeSlot] using heq
    exact this ▸ hmem

theorem live_mem_map_freezeSlot (cur : Option TimeSession) (l : List Slot)
    (h : Slot.live ∈ l) :
    Slot.stored (resolveSlot cur Slot.live) ∈ l.map (freezeSlot cur) := by
  have : freezeSlot cur Slot.live = Slot.stored (resolveSlot cur Slot.live) :=
    rfl
  exact this ▸ List.mem_map_of_mem (freezeSlot cur) h

theorem live_mem_of_count_one (l : List Slot)
    (h : l.count Slot.live = 1) : Slot.live ∈ l := by
  have : 0 < l.count Slot.live := by omega
  exact List.count_pos_iff.mp this

theorem freeze_eq_of_noLive (d : TrackingData)
    (h : ∀ e ∈ d.projects, Slot.live ∉ e.2.sessions) :
    freezeCurrent d = { d with currentSession := none } := by
  unfold freezeCurrent
  have hmap : d.projects.map (fun e =>
      (e.1, { e.2 with
        sessions := e.2.sessions.map (freezeSlot d.currentSession) })) =
      d.projects := by
    conv_rhs => rw [← List.map_id d.projects]
    apply List.map_congr_left
    intro e he
    rw [map_freezeSlot_of_not_live _ _ (h e he)]
    rfl
  rw [hmap]

theorem mem_setProject_key (d : TrackingData) (p : String)
    (ps : ProjectStats) :
    ∀ e ∈ (setProject d p ps).projects,
      (e.1 = p → e = (p, ps)) ∧ (e.1 ≠ p → e ∈ d.projects) := by
  unfold setProject
  by_cases h : d.projects.any (fun e => e.1 = p)
  · simp only [h, if_pos]
    intro e he
    rcases List.mem_map.mp he with ⟨e0, he0, heq⟩
    by_cases hx : e0.1 = p
    · simp only [hx, if_pos] at heq
      constructor
      · intro _
        exact heq.symm
      · intro hne
        exact absurd (heq ▸ rfl : e.1 = p) hne
    · simp only [hx, if_neg, Bool.false_eq_true, not_false_iff] at heq
      subst heq
      exact ⟨fun hc => absurd hc hx, fun _ => he0⟩
  · simp only [h, if_neg, Bool.false_eq_true, not_false_iff]
    intro e he
    rcases List.mem_append.mp he with he | he
    · refine ⟨fun hc => ?_, fun _ => he⟩
      exfalso
      exact h (List.any_eq_true.mpr ⟨e, he, by simpa using hc⟩)
    · simp only [List.mem_singleton] at he
      subst he
      exact ⟨fun _ => rfl, fun hne => absurd rfl hne⟩

theorem any_setProject_self (d : TrackingData) (p : String)
    (ps : ProjectStats) :
    (setProject d p ps).projects.any (fun e => e.1 = p) = true := by
  have h := lookupProject_setProject_self d p ps
  unfold lookupProject at h
  rcases hf : (setProject d p ps).projects.find? (fun e => e.1 = p) with _ | e
  · rw [hf] at h
    simp at h
  · have := List.find?_some hf
    have hmem := List.mem_of_find?_eq_some hf
    exact List.any_eq_true.mpr ⟨e, hmem, this⟩

theorem keys_setProject (d : TrackingData) (p : String) (ps : ProjectStats) :
    ((setProject d p ps).projects.map (fun e => e.1)).Nodup ↔
      (d.projects.map (fun e => e.1)).Nodup := by
  unfold setProject
  by_cases h : d.projects.any (fun e => e.1 = p)
  · simp only [h, if_pos]
    have : (d.projects.map (fun e => if e.1 = p then (p, ps) else e)).map
        (fun e => e.1) = d.projects.map (fun e => e.1) := by
      rw [List.map_map]
      apply List.map_congr_left
      intro e _
      by_cases hx : e.1 = p
      · simp [hx]
      · simp [hx]
    rw [this]
  · simp only [h, if_neg, Bool.false_eq_true, not_false_iff]
    constructor
    · intro hn
      rw [List.map_append] at hn
      exact (List.nodup_append.mp hn).1
    · intro hn
      have h1 : (List.map (fun (e : String × ProjectStats) => e.1)
          [(p, ps)]) = [p] := rfl
      rw [List.map_append, h1]
      refine List.nodup_append.mpr ⟨hn, List.nodup_singleton p, ?_⟩
      intro a ha hb
      simp only [List.mem_singleton] at hb
      subst hb
      rcases List.mem_map.mp ha with ⟨e, he, hkey⟩
      exact h (List.any_eq_true.mpr ⟨e, he, by simpa using hkey⟩)

theorem lookup_mem (d : TrackingData) (p : String) (ps : ProjectStats)
    (h : lookupProject d p = some ps) :
    ∃ e ∈ d.projects, e.1 = p ∧ e.2 = ps := by
  unfold lookupProject at h
  rcases hf : d.projects.find? (fun e => e.1 = p) with _ | e
  · rw [hf] at h
    simp at h
  · rw [hf] at h
    have h2 : e.2 = ps := by
      simpa using h
    exact ⟨e, List.mem_of_find?_eq_some hf,
      by simpa using List.find?_some hf, h2⟩

theorem lookup_isSome_of_any (d : TrackingData) (p : String)
    (h : d.projects.any (fun e => e.1 = p) = true) :
    (lookupProject d p).isSome := by
  unfold lookupProject
  have := find?_isSome_of_any d.projects p h
  rcases hf : d.projects.find? (fun e => e.1 = p) with _ | e
  · rw [hf] at this
    simp at this
  · rw [hf]
    rfl

/-! ### Invariant: basic consequences and preservation -/

theorem inv_clock_mono {st : TrackerState} (hInv : Inv st) {t : Int}
    (h : st.clock ≤ t) : Inv { st with clock := t } := by
  obtain ⟨h1, h2, h3, h4, h5⟩ := hInv
  refine ⟨?_, h2, h3, h4, h5⟩
  intro c hc
  obtain ⟨a1, a2, a3, a4, a5, a6⟩ := h1 c hc
  exact ⟨a1, a2, le_trans a3 h, a4, a5, a6⟩

theorem noLive_of_inv_none {st : TrackerState} (hInv : Inv st)
    (hcur : st.data.currentSession = none) :
    ∀ e ∈ st.data.projects, Slot.live ∉ e.2.sessions := by
  have h3 := hInv.2.2.1
  rw [hcur] at h3
  exact h3

theorem findRecent_none_of_inv (st : TrackerState) (hInv : Inv st)
    (hcur : st.data.currentSession = none) (p : String) :
    findRecentSession st.data p = none := by
  unfold findRecentSession
  cases hlk : lookupProject st.data p with
  | none => rfl
  | some ps =>
    obtain ⟨e, hmem, _, hps⟩ := lookup_mem st.data p ps hlk
    have hnl : Slot.live ∉ ps.sessions := by
      rw [← hps]
      exact noLive_of_inv_none hInv hcur e hmem
    have hstored : ∀ s, Slot.stored s ∈ ps.sessions →
        s.endTime.isSome = true := by
      intro s hs
      rw [← hps] at hs
      exact (hInv.2.1 e hmem s hs).1
    have hfilter : (ps.sessions.map
        (resolveSlot st.data.currentSession)).filter
          (fun s => s.endTime.isNone) = [] := by
      rw [List.filter_eq_nil_iff]
      intro a ha
      rcases List.mem_map.mp ha with ⟨sl, hsl, heq⟩
      cases sl with
      | live => exact absurd hsl hnl
      | stored s =>
        have hsome := hstored s hsl
        subst heq
        simp only [resolveSlot]
        rcases hs : s.endTime with _ | v
        · rw [hs] at hsome
          simp at hsome
        · simp [Option.isNone]
    show firstMaxBy ((ps.sessions.map
        (resolveSlot st.data.currentSession)).filter
          (fun s => s.endTime.isNone)) (fun s => s.lastActivity) = none
    rw [hfilter]
    rfl

theorem baseStats_no_live (d : TrackingData) (ns : TimeSession)
    (h : ∀ e ∈ d.projects, Slot.live ∉ e.2.sessions) :
    Slot.live ∉ (baseStats d ns).sessions := by
  unfold baseStats
  cases hlk : lookupProject d ns.projectPath with
  | none => simp [newProjectStats]
  | some ps =>
    obtain ⟨e, hmem, _, hps⟩ := lookup_mem d ns.projectPath ps hlk
    rw [← hps]
    exact h e hmem

theorem baseStats_stored (d : TrackingData) (ns : TimeSession)
    (s : TimeSession) (h : Slot.stored s ∈ (baseStats d ns).sessions) :
    ∃ e ∈ d.projects, Slot.stored s ∈ e.2.sessions := by
  unfold baseStats at h
  cases hlk : lookupProject d ns.projectPath with
  | none =>
    rw [hlk] at h
    simp [newProjectStats] at h
  | some ps =>
    rw [hlk] at h
    obtain ⟨e, hmem, _, hps⟩ := lookup_mem d ns.projectPath ps hlk
    exact ⟨e, hmem, hps ▸ h⟩

theorem inv_startNewSession (st : TrackerState) (now : Int)
    (pname ppath : String) (hInv : Inv st)
    (hcur : st.data.currentSession = none) (hnow : st.clock = now) :
    Inv { startNewSession st now pname ppath with
      lastSessionDay := some (dayIdx now) } := by
  have hnl := noLive_of_inv_none hInv hcur
  have hfz : freezeCurrent st.data =
      { st.data with currentSession := none } :=
    freeze_eq_of_noLive st.data hnl
  set ns := freshSession st now pname ppath with hns
  set d1 : TrackingData := { st.data with currentSession := some ns }
    with hd1
  have hdata : (startNewSession st now pname ppath).data =
      addSessionToProject d1 ns := by
    simp only [startNewSession]
    rw [hfz]
  have hppath : ns.projectPath = ppath := rfl
  set NS := recalculateProjectStats d1.currentSession
    { baseStats d1 ns with
      sessions := (baseStats d1 ns).sessions ++ [Slot.live] } with hNS
  have hD : addSessionToProject d1 ns = setProject d1 ppath NS := by
    rw [← hppath]
    rfl
  have hScur : (startNewSession st now pname ppath).data.currentSession =
      some ns := by
    rw [hdata, addSession_currentSession]
  have hbase_nl : Slot.live ∉ (baseStats d1 ns).sessions :=
    baseStats_no_live d1 ns hnl
  have hNSsess : NS.sessions = (baseStats d1 ns).sessions ++ [Slot.live] := by
    rw [hNS, recalculateProjectStats_sessions]
  refine ⟨?_, ?_, ?_, ?_, ?_⟩
  · intro c hc
    rw [show ({ startNewSession st now pname ppath with
        lastSessionDay := some (dayIdx now) } :
          TrackerState).data.currentSession = some ns from hScur] at hc
    have hcns : c = ns := by
      simpa using hc.symm
    subst hcns
    refine ⟨rfl, le_refl now, ?_, ?_, le_refl 0, rfl⟩
    · show now ≤ st.clock
      omega
    · show (0 : Int) ≤ min now (dayEndOf now) - now
      have := le_dayEndOf now
      omega
  · intro e he s hs
    rw [show ({ startNewSession st now pname ppath with
        lastSessionDay := some (dayIdx now) } :
          TrackerState).data.projects =
        (setProject d1 ppath NS).projects from by rw [hdata, hD]] at he
    have hkey := mem_setProject_key d1 ppath NS e he
    by_cases hcasekey : e.1 = ppath
    · have he2 : e = (ppath, NS) := hkey.1 hcasekey
      rw [he2] at hs
      simp only [hNSsess] at hs
      rcases List.mem_append.mp hs with hs | hs
      · obtain ⟨e0, he0, hs0⟩ := baseStats_stored d1 ns s hs
        exact hInv.2.1 e0 he0 s hs0
      · simp at hs
    · have he2 : e ∈ st.data.projects := hkey.2 hcasekey
      exact hInv.2.1 e he2 s hs
  · rw [show ({ startNewSession st now pname ppath with
        lastSessionDay := some (dayIdx now) } :
          TrackerState).data.currentSession = some ns from hScur]
    constructor
    · intro e he
      rw [show ({ startNewSession st now pname ppath with
          lastSessionDay := some (dayIdx now) } :
            TrackerState).data.projects =
          (setProject d1 ppath NS).projects from by rw [hdata, hD]] at he
      have hkey := mem_setProject_key d1 ppath NS e he
      constructor
      · intro hcasekey
        rw [hppath] at hcasekey
        have he2 : e = (ppath, NS) := hkey.1 hcasekey
        rw [he2]
        show NS.sessions.count Slot.live = 1
        rw [hNSsess, List.count_append]
        rw [List.count_eq_zero.mpr hbase_nl]
        rfl
      · intro hcasekey
        rw [hppath] at hcasekey
        have he2 : e ∈ st.data.projects := hkey.2 hcasekey
        exact hnl e he2
    · rw [show ({ startNewSession st now pname ppath with
        lastSessionDay := some (dayIdx now) } :
          TrackerState).data.projects =
        (setProject d1 ppath NS).projects from by rw [hdata, hD]]
      rw [hppath]
      exact any_setProject_self d1 ppath NS
  · rw [show ({ startNewSession st now pname ppath with
        lastSessionDay := some (dayIdx now) } :
          TrackerState).data.projects =
        (setProject d1 ppath NS).projects from by rw [hdata, hD]]
    exact (keys_setProject d1 ppath NS).mpr hInv.2.2.2.1
  · have h6 : ({ startNewSession st now pname ppath with
        lastSessionDay := some (dayIdx now) } :
          TrackerState).data = setProject d1 ppath NS := by
      show (startNewSession st now pname ppath).data = _
      rw [hdata, hD]
    show ({ startNewSession st now pname ppath with
        lastSessionDay := some (dayIdx now) } :
          TrackerState).data.totalTimeTracked = 0
    rw [h6, setProject_totalTimeTracked]
    exact hInv.2.2.2.2

theorem inv_startOrResume (st : TrackerState) (now : Int)
    (proj : Option (String × String)) (hInv : Inv st)
    (hcur : st.data.currentSession = none) (hnow : st.clock = now) :
    Inv (startOrResumeSession st now proj) := by
  cases proj with
  | none => simpa [startOrResumeSession] using hInv
  | some pp =>
    obtain ⟨pname, ppath⟩ := pp
    have hfr := findRecent_none_of_inv st hInv hcur ppath
    have hcur1 : (startNewSession st now pname ppath).data.currentSession =
        some (freshSession st now pname ppath) := by
      simp only [startNewSession]
      rw [addSession_currentSession]
    have hres : startOrResumeSession st now (some (pname, ppath)) =
        { startNewSession st now pname ppath with
          lastSessionDay := some (dayIdx now) } := by
      simp only [startOrResumeSession]
      rw [hfr, hcur1]
      rfl
    rw [hres]
    exact inv_startNewSession st now pname ppath hInv hcur hnow

theorem keys_freeze (d : TrackingData) :
    (freezeCurrent d).projects.map (fun e => e.1) =
      d.projects.map (fun e => e.1) := by
  unfold freezeCurrent
  rw [List.map_map]
  rfl

theorem freeze_totalTimeTracked (d : TrackingData) :
    (freezeCurrent d).totalTimeTracked = d.totalTimeTracked := rfl

theorem find?_key_of_mem_nodup (l : List (String × ProjectStats))
    (p : String) (ps : ProjectStats)
    (hnd : (l.map (fun e => e.1)).Nodup) (hmem : (p, ps) ∈ l) :
    l.find? (fun e => e.1 = p) = some (p, ps) := by
  induction l with
  | nil => simp at hmem
  | cons x xs ih =>
    rcases List.mem_cons.mp hmem with hx | hx
    · subst hx
      simp [List.find?]
    · have hnd2 : (xs.map (fun e => e.1)).Nodup := by
        rw [List.map_cons] at hnd
        exact (List.nodup_cons.mp hnd).2
      have hxp : ¬ (x.1 = p) := by
        intro hc
        rw [List.map_cons] at hnd
        have h1 := (List.nodup_cons.mp hnd).1
        exact h1 (hc ▸ List.mem_map_of_mem (fun e => e.1) hx)
      simp only [List.find?, hxp]
      simpa [List.find?, hxp] using ih hnd2 hx

theorem lookup_eq_of_mem_nodup (d : TrackingData) (p : String)
    (ps : ProjectStats) (hnd : (d.projects.map (fun e => e.1)).Nodup)
    (hmem : (p, ps) ∈ d.projects) : lookupProject d p = some ps := by
  unfold lookupProject
  rw [find?_key_of_mem_nodup d.projects p ps hnd hmem]
  rfl

theorem updateProjectStats_currentSession (d : TrackingData) (path : String) :
    (updateProjectStats d path).currentSession = d.currentSession := by
  unfold updateProjectStats
  cases lookupProject d path with
  | none => rfl
  | some ps => exact setProject_currentSession d path _

theorem updateProjectStats_totalTimeTracked (d : TrackingData)
    (path : String) :
    (updateProjectStats d path).totalTimeTracked = d.totalTimeTracked := by
  unfold updateProjectStats
  cases lookupProject d path with
  | none => rfl
  | some ps => exact setProject_totalTimeTracked d path _

theorem updateProjectStats_keys (d : TrackingData) (path : String)
    (h : (d.projects.map (fun e => e.1)).Nodup) :
    ((updateProjectStats d path).projects.map (fun e => e.1)).Nodup := by
  unfold updateProjectStats
  cases lookupProject d path with
  | none => exact h
  | some ps => exact (keys_setProject d path _).mpr h

/-- Every entry of the re-aggregated map keeps the key and the sessions
array of an entry of the original map. -/
theorem updateProjectStats_entries (d : TrackingData) (path : String) :
    ∀ e2 ∈ (updateProjectStats d path).projects,
      ∃ e0 ∈ d.projects, e2.1 = e0.1 ∧ e2.2.sessions = e0.2.sessions := by
  unfold updateProjectStats
  cases hlk : lookupProject d path with
  | none =>
    intro e2 he2
    exact ⟨e2, he2, rfl, rfl⟩
  | some ps =>
    intro e2 he2
    have hkey := mem_setProject_key d path
      (recalculateProjectStats d.currentSession ps) e2 he2
    by_cases hck : e2.1 = path
    · obtain ⟨e0, he0, hk0, hps⟩ := lookup_mem d path ps hlk
      have he3 := hkey.1 hck
      refine ⟨e0, he0, by rw [he3, hk0], ?_⟩
      rw [he3]
      show (recalculateProjectStats d.currentSession ps).sessions =
        e0.2.sessions
      rw [recalculateProjectStats_sessions, hps]
    · exact ⟨e2, hkey.2 hck, rfl, rfl⟩

theorem endedWith_endTime (st : TrackerState) (now : Int) (e : Option Int)
    (session : TimeSession) :
    (endedWith st now e session).endTime =
      some (e.getD (session.endTime.getD now)) := by
  unfold endedWith
  dsimp only
  split
  · split <;> rfl
  · rfl

theorem endedWith_id (st : TrackerState) (now : Int) (e : Option Int)
    (session : TimeSession) :
    (endedWith st now e session).id = session.id := by
  unfold endedWith
  dsimp only
  split
  · split <;> rfl
  · rfl

theorem endedWith_startTime (st : TrackerState) (now : Int) (e : Option Int)
    (session : TimeSession) :
    (endedWith st now e session).startTime = session.startTime := by
  unfold endedWith
  dsimp only
  split
  · split <;> rfl
  · rfl

theorem endedWith_total_ge (st : TrackerState) (now : Int) (e : Option Int)
    (session : TimeSession) :
    session.totalTime ≤ (endedWith st now e session).totalTime := by
  unfold endedWith
  dsimp only
  split
  · split
    · show session.totalTime ≤ session.totalTime + _
      have h0 : (0 : Int) ≤ safeTimeDifference (e.getD (session.endTime.getD now))
          session.lastActiveTime st.config.idleThreshold := le_max_left 0 _
      omega
    · exact le_refl _
  · exact le_refl _

/-- The final credit never exceeds the clamp of `finalEnd − lastActiveTime`:
the closed value's total is bounded by the old total plus that clamp. -/
theorem endedWith_total_le (st : TrackerState) (now : Int) (e : Option Int)
    (session : TimeSession) :
    (endedWith st now e session).totalTime ≤
      session.totalTime +
        max 0 ((e.getD (session.endTime.getD now)) -
          session.lastActiveTime) := by
  unfold endedWith safeTimeDifference
  dsimp only
  have h : (0 : Int) ≤ max 0 ((e.getD (session.endTime.getD now)) -
      session.lastActiveTime) := le_max_left 0 _
  split
  · split
    · exact le_refl _
    · show session.totalTime ≤ _
      omega
  · show session.totalTime ≤ _
    omega

theorem endCurrent_currentSession_none (st : TrackerState) (now : Int)
    (e : Option Int) (session : TimeSession)
    (hc : st.data.currentSession = some session) :
    (endCurrentSession st now e).data.currentSession = none := by
  simp only [endCurrentSession, hc]
  rfl

/-- Invariant preservation for `endCurrentSession` with any end time. -/
theorem inv_endCurrentSession (st : TrackerState) (now : Int)
    (e : Option Int) (hInv : Inv st) :
    Inv (endCurrentSession st now e) := by
  cases hc : st.data.currentSession with
  | none =>
    simp only [endCurrentSession, hc]
    exact hInv
  | some session =>
    obtain ⟨b1, b2, b3, b4, b5, b6⟩ := hInv.1 session hc
    simp only [endCurrentSession, hc]
    set s2 := endedWith st now e session with hs2
    set d1 : TrackingData := { st.data with currentSession := some s2 }
      with hd1
    set d2 := updateProjectStats d1 session.projectPath with hd2
    have hd2cur : d2.currentSession = some s2 := by
      rw [hd2, updateProjectStats_currentSession]
    refine ⟨?_, ?_, ?_, ?_, ?_⟩
    · intro c hcc
      exact absurd hcc (by simp [freezeCurrent])
    · intro e2 he2 s hs
      have he2m : e2 ∈ (freezeCurrent d2).projects := he2
      unfold freezeCurrent at he2m
      rcases List.mem_map.mp he2m with ⟨e0, he0, heq⟩
      rw [← heq] at hs
      simp only at hs
      rcases stored_mem_map_freezeSlot d2.currentSession e0.2.sessions s hs
        with hs | ⟨_, hres⟩
      · obtain ⟨e3, he3, _, hsess⟩ :=
          updateProjectStats_entries d1 session.projectPath e0 he0
        rw [hsess] at hs
        exact hInv.2.1 e3 he3 s hs
      · have hval : s = s2 := by
          rw [hres, hd2cur]
          rfl
        subst hval
        constructor
        · rw [hs2, endedWith_endTime]
          rfl
        · rw [hs2]
          have := endedWith_total_ge st now e session
          omega
    · show ∀ e2 ∈ (freezeCurrent d2).projects, Slot.live ∉ e2.2.sessions
      intro e2 he2
      unfold freezeCurrent at he2
      rcases List.mem_map.mp he2 with ⟨e0, _, heq⟩
      rw [← heq]
      exact not_live_mem_map_freezeSlot _ _
    · show ((freezeCurrent d2).projects.map (fun e2 => e2.1)).Nodup
      rw [keys_freeze]
      exact updateProjectStats_keys d1 session.projectPath hInv.2.2.2.1
    · show (freezeCurrent d2).totalTimeTracked = 0
      rw [freeze_totalTimeTracked, updateProjectStats_totalTimeTracked]
      exact hInv.2.2.2.2

theorem freeze_entries (d : TrackingData) :
    ∀ e ∈ (freezeCurrent d).projects, ∃ e0 ∈ d.projects,
      e.1 = e0.1 ∧
      e.2.sessions = e0.2.sessions.map (freezeSlot d.currentSession) := by
  unfold freezeCurrent
  intro e he
  rcases List.mem_map.mp he with ⟨e0, he0, heq⟩
  exact ⟨e0, he0, by rw [← heq], by rw [← heq]⟩

theorem lookup_updateProjectStats_self (d : TrackingData) (path : String) :
    lookupProject (updateProjectStats d path) path =
      (lookupProject d path).map
        (recalculateProjectStats d.currentSession) := by
  unfold updateProjectStats
  cases hlk : lookupProject d path with
  | none =>
    rw [hlk]
    rfl
  | some ps =>
    rw [lookupProject_setProject_self]
    rfl

theorem inv_set_lastSaved {st : TrackerState} (hInv : Inv st) (t : Int) :
    Inv { st with data := { st.data with lastSaved := t } } := by
  obtain ⟨h1, h2, h3, h4, h5⟩ := hInv
  exact ⟨h1, h2, h3, h4, h5⟩

/-- General invariant lemma for the "start new session" block: freezing
drops any live entry (whose value must be a completed session), and the
pushed session re-establishes the invariant. -/
theorem inv_startNewSession_general (st : TrackerState) (now : Int)
    (pname ppath : String) (hclk : st.clock = now)
    (hstored : ∀ e ∈ st.data.projects, ∀ s, Slot.stored s ∈ e.2.sessions →
      s.endTime.isSome = true ∧ 0 ≤ s.totalTime)
    (hcurclosed : ∀ c, st.data.currentSession = some c →
      c.endTime.isSome = true ∧ 0 ≤ c.totalTime)
    (hliveok : st.data.currentSession = none →
      ∀ e ∈ st.data.projects, Slot.live ∉ e.2.sessions)
    (hkeys : (st.data.projects.map (fun e => e.1)).Nodup)
    (htt : st.data.totalTimeTracked = 0) :
    Inv { startNewSession st now pname ppath with
      lastSessionDay := some (dayIdx now) } := by
  set ns := freshSession st now pname ppath with hns
  set d0 := freezeCurrent st.data with hd0
  set d1 : TrackingData := { d0 with currentSession := some ns } with hd1
  have hdata : (startNewSession st now pname ppath).data =
      addSessionToProject d1 ns := rfl
  have hppath : ns.projectPath = ppath := rfl
  set NS := recalculateProjectStats d1.currentSession
    { baseStats d1 ns with
      sessions := (baseStats d1 ns).sessions ++ [Slot.live] } with hNS
  have hD : addSessionToProject d1 ns = setProject d1 ppath NS := by
    rw [← hppath]
    rfl
  have hScur : (startNewSession st now pname ppath).data.currentSession =
      some ns := by
    rw [hdata, addSession_currentSession]
  have hfrozen_stored : ∀ e ∈ d1.projects, ∀ s,
      Slot.stored s ∈ e.2.sessions →
      s.endTime.isSome = true ∧ 0 ≤ s.totalTime := by
    intro e he s hs
    obtain ⟨e0, he0, _, hsess⟩ := freeze_entries st.data e he
    rw [hsess] at hs
    rcases stored_mem_map_freezeSlot st.data.currentSession e0.2.sessions s hs
      with hs | ⟨hl, hres⟩
    · exact hstored e0 he0 s hs
    · cases hcc : st.data.currentSession with
      | none => exact absurd hl (hliveok hcc e0 he0)
      | some c =>
        have hsc : s = c := by
          rw [hres, hcc]
          rfl
        subst hsc
        exact hcurclosed _ hcc
  have hfrozen_nolive : ∀ e ∈ d1.projects, Slot.live ∉ e.2.sessions := by
    intro e he
    obtain ⟨e0, _, _, hsess⟩ := freeze_entries st.data e he
    rw [hsess]
    exact not_live_mem_map_freezeSlot _ _
  have hbase_nl : Slot.live ∉ (baseStats d1 ns).sessions :=
    baseStats_no_live d1 ns hfrozen_nolive
  have hNSsess : NS.sessions = (baseStats d1 ns).sessions ++ [Slot.live] := by
    rw [hNS, recalculateProjectStats_sessions]
  have hkeys1 : (d1.projects.map (fun e => e.1)).Nodup := by
    show ((freezeCurrent st.data).projects.map (fun e => e.1)).Nodup
    rw [keys_freeze]
    exact hkeys
  have hproj : ({ startNewSession st now pname ppath with
      lastSessionDay := some (dayIdx now) } :
        TrackerState).data.projects = (setProject d1 ppath NS).projects := by
    show (startNewSession st now pname ppath).data.projects = _
    rw [hdata, hD]
  refine ⟨?_, ?_, ?_, ?_, ?_⟩
  · intro c hc
    rw [show ({ startNewSession st now pname ppath with
        lastSessionDay := some (dayIdx now) } :
          TrackerState).data.currentSession = some ns from hScur] at hc
    have hcns : c = ns := by
      simpa using hc.symm
    subst hcns
    refine ⟨rfl, le_refl now, ?_, ?_, le_refl 0, rfl⟩
    · show now ≤ st.clock
      omega
    · show (0 : Int) ≤ min now (dayEndOf now) - now
      have := le_dayEndOf now
      omega
  · intro e he s hs
    rw [hproj] at he
    have hkey := mem_setProject_key d1 ppath NS e he
    by_cases hcasekey : e.1 = ppath
    · have he2 : e = (ppath, NS) := hkey.1 hcasekey
      rw [he2] at hs
      simp only [hNSsess] at hs
      rcases List.mem_append.mp hs with hs | hs
      · obtain ⟨e0, he0, hs0⟩ := baseStats_stored d1 ns s hs
        exact hfrozen_stored e0 he0 s hs0
      · simp at hs
    · exact hfrozen_stored e (hkey.2 hcasekey) s hs
  · rw [show ({ startNewSession st now pname ppath with
        lastSessionDay := some (dayIdx now) } :
          TrackerState).data.currentSession = some ns from hScur]
    constructor
    · intro e he
      rw [hproj] at he
      have hkey := mem_setProject_key d1 ppath NS e he
      constructor
      · intro hcasekey
        rw [hppath] at hcasekey
        have he2 : e = (ppath, NS) := hkey.1 hcasekey
        rw [he2]
        show NS.sessions.count Slot.live = 1
        rw [hNSsess, List.count_append]
        rw [List.count_eq_zero.mpr hbase_nl]
        rfl
      · intro hcasekey
        rw [hppath] at hcasekey
        exact hfrozen_nolive e (hkey.2 hcasekey)
    · rw [hproj, hppath]
      exact any_setProject_self d1 ppath NS
  · rw [hproj]
    exact (keys_setProject d1 ppath NS).mpr hkeys1
  · show (setProject d1 ppath NS).totalTimeTracked = 0
    rw [setProject_totalTimeTracked]
    show (freezeCurrent st.data).totalTimeTracked = 0
    rw [freeze_totalTimeTracked]
    exact htt

theorem splitClosedWith_endTime (st : TrackerState) (now : Int)
    (cs : TimeSession) :
    (splitClosedWith st now cs).endTime = some (dayStart now - 1) := by
  unfold splitClosedWith
  dsimp only
  split <;> rfl

theorem splitClosedWith_id (st : TrackerState) (now : Int)
    (cs : TimeSession) : (splitClosedWith st now cs).id = cs.id := by
  unfold splitClosedWith
  dsimp only
  split <;> rfl

theorem splitClosedWith_startTime (st : TrackerState) (now : Int)
    (cs : TimeSession) :
    (splitClosedWith st now cs).startTime = cs.startTime := by
  unfold splitClosedWith
  dsimp only
  split <;> rfl

theorem splitClosedWith_isActive (st : TrackerState) (now : Int)
    (cs : TimeSession) :
    (splitClosedWith st now cs).isActive = false := by
  unfold splitClosedWith
  dsimp only
  split <;> rfl

theorem splitClosedWith_total_eq (st : TrackerState) (now : Int)
    (cs : TimeSession) :
    (splitClosedWith st now cs).totalTime = cs.totalTime +
      (if monitorIsActive st.config st.monitor now = true ∧
          cs.lastActiveTime < dayStart now - 1 then
        (dayStart now - 1) - cs.lastActiveTime
      else 0) := by
  unfold splitClosedWith
  dsimp only
  by_cases h1 : monitorIsActive st.config st.monitor now = true
  · by_cases h2 : cs.lastActiveTime < dayStart now - 1
    · rw [if_pos (by simp [h1, h2]), if_pos ⟨h1, h2⟩]
    · rw [if_neg (by simp [h2]), if_neg (by simp [h2])]
      show cs.totalTime = cs.totalTime + 0
      omega
  · rw [if_neg (by simp [h1]), if_neg (by simp [h1])]
    show cs.totalTime = cs.totalTime + 0
    omega

theorem splitClosedWith_total_ge (st : TrackerState) (now : Int)
    (cs : TimeSession) :
    cs.totalTime ≤ (splitClosedWith st now cs).totalTime := by
  rw [splitClosedWith_total_eq]
  split
  · next h => omega
  · omega

/-- Invariant preservation for `checkAndHandleMidnightCrossing`. -/
theorem inv_checkMidnight (st : TrackerState) (now : Int) (hInv : Inv st)
    (hnow : st.clock = now) :
    Inv (checkAndHandleMidnightCrossing st now) := by
  cases hc : st.data.currentSession with
  | none =>
    simp only [checkAndHandleMidnightCrossing, hc]
    exact hInv
  | some cs =>
    obtain ⟨b1, b2, b3, b4, b5, b6⟩ := hInv.1 cs hc
    simp only [checkAndHandleMidnightCrossing, hc]
    cases hd : st.lastSessionDay with
    | none => exact hInv
    | some d =>
      by_cases hne : d ≠ dayIdx now
      · simp only [hne, if_pos, ne_eq, not_false_iff]
        set c2 := splitClosedWith st now cs with hc2
        set d1 : TrackingData := { st.data with currentSession := some c2 }
          with hd1
        set d2 := updateProjectStats d1 cs.projectPath with hd2
        set st2 : TrackerState := { st with data := d2 } with hst2
        have hsplit_eq : ({ splitSessionAtMidnight st now with
            lastSessionDay := some (dayIdx now) } : TrackerState) =
            { { startNewSession st2 now cs.projectName cs.projectPath with
                lastSessionDay := some (dayIdx now) } with
              data := { (startNewSession st2 now cs.projectName
                cs.projectPath).data with lastSaved := now } } := by
          simp only [splitSessionAtMidnight, hc, startNewSession]
          rfl
        rw [hsplit_eq]
        have hd2cur : d2.currentSession = some c2 := by
          rw [hd2, updateProjectStats_currentSession]
        refine inv_set_lastSaved (inv_startNewSession_general st2 now
          cs.projectName cs.projectPath hnow ?_ ?_ ?_ ?_ ?_) now
        · intro e he s hs
          obtain ⟨e0, he0, _, hsess⟩ :=
            updateProjectStats_entries d1 cs.projectPath e he
          rw [hsess] at hs
          exact hInv.2.1 e0 he0 s hs
        · intro c hcc
          rw [show st2.data.currentSession = some c2 from hd2cur] at hcc
          have hcc2 : c = c2 := by
            simpa using hcc.symm
          subst hcc2
          constructor
          · rw [hc2, splitClosedWith_endTime]
            rfl
          · rw [hc2, splitClosedWith_total_eq]
            split
            · next h => omega
            · omega
        · intro hcc
          rw [show st2.data.currentSession = some c2 from hd2cur] at hcc
          simp at hcc
        · show (d2.projects.map (fun e => e.1)).Nodup
          exact updateProjectStats_keys d1 cs.projectPath hInv.2.2.2.1
        · show d2.totalTimeTracked = 0
          rw [hd2, updateProjectStats_totalTimeTracked]
          exact hInv.2.2.2.2
      · simp only [hne, if_neg, ne_eq, not_false_iff, not_not]
        exact hInv

/-- The invariant depends only on `data`, `clock` and `lastSessionDay`, and
raising the clock is harmless. -/
theorem inv_of_eq_parts (st st' : TrackerState) (hInv : Inv st)
    (hd : st'.data = st.data) (hclk : st.clock ≤ st'.clock)
    (hlsd : st'.lastSessionDay = st.lastSessionDay) : Inv st' := by
  obtain ⟨h1, h2, h3, h4, h5⟩ := hInv
  refine ⟨?_, ?_, ?_, ?_, ?_⟩
  · intro c hc
    rw [hd] at hc
    obtain ⟨a1, a2, a3, a4, a5, a6⟩ := h1 c hc
    exact ⟨a1, a2, le_trans a3 hclk, a4, a5, hlsd ▸ a6⟩
  · rw [hd]
    exact h2
  · rw [hd]
    exact h3
  · rw [hd]
    exact h4
  · rw [hd]
    exact h5

/-- Replacing the current session with a value that keeps its path, start
time and openness, and whose activity anchor and total stay inside the
invariant's bounds, preserves the invariant. -/
theorem inv_update_current (st st' : TrackerState) (c c' : TimeSession)
    (hInv : Inv st) (hc : st.data.currentSession = some c)
    (hproj : st'.data.projects = st.data.projects)
    (hcur : st'.data.currentSession = some c')
    (htt : st'.data.totalTimeTracked = st.data.totalTimeTracked)
    (hclk : st.clock ≤ st'.clock)
    (hlsd : st'.lastSessionDay = st.lastSessionDay)
    (hpath : c'.projectPath = c.projectPath)
    (hend : c'.endTime = none)
    (hstart : c'.startTime = c.startTime)
    (hso : c'.startTime ≤ c'.lastActiveTime)
    (hlatc : c'.lastActiveTime ≤ st'.clock)
    (htot : c'.totalTime ≤
      min c'.lastActiveTime (dayEndOf c'.startTime) - c'.startTime)
    (htotn : 0 ≤ c'.totalTime) : Inv st' := by
  obtain ⟨h1, h2, h3, h4, h5⟩ := hInv
  obtain ⟨a1, a2, a3, a4, a5, a6⟩ := h1 c hc
  refine ⟨?_, ?_, ?_, ?_, ?_⟩
  · intro c0 hc0
    rw [hcur] at hc0
    have hcc : c0 = c' := by
      simpa using hc0.symm
    subst hcc
    refine ⟨hend, hso, hlatc, htot, htotn, ?_⟩
    rw [hlsd, a6, hstart]
  · rw [hproj]
    exact h2
  · rw [hcur]
    have h3' := h3
    rw [hc] at h3'
    obtain ⟨h3a, h3b⟩ := h3'
    constructor
    · intro e he
      rw [hproj] at he
      have := h3a e he
      rw [hpath]
      exact this
    · rw [hproj, hpath]
      exact h3b
  · rw [hproj]
    exact h4
  · rw [htt]
    exact h5

/-! ### Frame facts: which callbacks leave clock and flags unchanged -/

theorem frame_endCurrent (st : TrackerState) (now : Int) (e : Option Int) :
    (endCurrentSession st now e).clock = st.clock ∧
    (endCurrentSession st now e).isPaused = st.isPaused ∧
    (endCurrentSession st now e).isRunning = st.isRunning := by
  unfold endCurrentSession
  split
  · exact ⟨rfl, rfl, rfl⟩
  · exact ⟨rfl, rfl, rfl⟩

theorem frame_split (st : TrackerState) (now : Int) :
    (splitSessionAtMidnight st now).clock = st.clock ∧
    (splitSessionAtMidnight st now).isPaused = st.isPaused ∧
    (splitSessionAtMidnight st now).isRunning = st.isRunning := by
  unfold splitSessionAtMidnight
  split
  · exact ⟨rfl, rfl, rfl⟩
  · exact ⟨rfl, rfl, rfl⟩

theorem frame_checkMidnight (st : TrackerState) (now : Int) :
    (checkAndHandleMidnightCrossing st now).clock = st.clock ∧
    (checkAndHandleMidnightCrossing st now).isPaused = st.isPaused ∧
    (checkAndHandleMidnightCrossing st now).isRunning = st.isRunning := by
  cases hc : st.data.currentSession with
  | none =>
    simp only [checkAndHandleMidnightCrossing, hc]
    exact ⟨by trivial, by trivial, by trivial⟩
  | some c =>
    simp only [checkAndHandleMidnightCrossing, hc]
    cases hd : st.lastSessionDay with
    | none => exact ⟨by trivial, by trivial, by trivial⟩
    | some d =>
      by_cases hne : d ≠ dayIdx now
      · simp only [hne, if_pos, ne_eq, not_false_iff]
        exact frame_split st now
      · simp only [hne, if_neg, ne_eq, not_false_iff, not_not]
        exact ⟨by trivial, by trivial, by trivial⟩

theorem frame_startOrResume (st : TrackerState) (now : Int)
    (proj : Option (String × String)) :
    (startOrResumeSession st now proj).clock = st.clock ∧
    (startOrResumeSession st now proj).isPaused = st.isPaused ∧
    (startOrResumeSession st now proj).isRunning = st.isRunning := by
  cases proj with
  | none => exact ⟨rfl, rfl, rfl⟩
  | some pp =>
    obtain ⟨pname, ppath⟩ := pp
    simp only [startOrResumeSession]
    cases hf : findRecentSession st.data ppath with
    | none =>
      dsimp only
      cases hcur : (startNewSession st now pname ppath).data.currentSession with
      | none => exact ⟨rfl, rfl, rfl⟩
      | some c => exact ⟨rfl, rfl, rfl⟩
    | some ex =>
      dsimp only
      by_cases hr : shouldResumeSession now ex = true
      · rw [if_pos hr]
        exact ⟨rfl, rfl, rfl⟩
      · rw [if_neg hr]
        cases hcur : (startNewSession st now pname ppath).data.currentSession with
        | none => exact ⟨rfl, rfl, rfl⟩
        | some c => exact ⟨rfl, rfl, rfl⟩

theorem frame_idleEnd (st : TrackerState) (now : Int) :
    (checkAndHandleIdleSessionEnd st now).clock = st.clock ∧
    (checkAndHandleIdleSessionEnd st now).isPaused = st.isPaused ∧
    (checkAndHandleIdleSessionEnd st now).isRunning = st.isRunning := by
  unfold checkAndHandleIdleSessionEnd
  split
  · exact ⟨rfl, rfl, rfl⟩
  · dsimp only
    split
    · exact frame_endCurrent st now none
    · exact ⟨rfl, rfl, rfl⟩

theorem frame_projectChange (st : TrackerState) (now : Int)
    (proj : Option (String × String)) :
    (checkAndHandleProjectChange st now proj).clock = st.clock ∧
    (checkAndHandleProjectChange st now proj).isPaused = st.isPaused ∧
    (checkAndHandleProjectChange st now proj).isRunning = st.isRunning := by
  cases hc : st.data.currentSession with
  | none =>
    simp only [checkAndHandleProjectChange, hc]
    exact ⟨by trivial, by trivial, by trivial⟩
  | some c =>
    simp only [checkAndHandleProjectChange, hc]
    cases proj with
    | none => exact frame_endCurrent st now none
    | some pp =>
      obtain ⟨pn, ppth⟩ := pp
      dsimp only
      split
      · have h1 := frame_startOrResume (endCurrentSession st now none) now
          (some (pn, ppth))
        have h2 := frame_endCurrent st now none
        exact ⟨h1.1.trans h2.1, h1.2.1.trans h2.2.1, h1.2.2.trans h2.2.2⟩
      · exact ⟨rfl, rfl, rfl⟩

theorem clock_onActivity (st : TrackerState) (event : ActivityEvent)
    (now : Int) (proj : Option (String × String)) :
    (onActivity st event now proj).clock = st.clock := by
  unfold onActivity
  split
  · rfl
  · cases htype : event.type with
    | sleep =>
      cases hc : st.data.currentSession with
      | some c =>
        dsimp only
        split
        · split
          · exact (frame_endCurrent st now (some event.timestamp)).1
          · rfl
        · rfl
      | none => rfl
    | wake =>
      cases hc : st.data.currentSession with
      | some c =>
        dsimp only
        split
        · rfl
        · rfl
      | none =>
        dsimp only
        split
        · exact (frame_startOrResume st now proj).1
        · rfl
    | text_change =>
      dsimp only
      split
      · rfl
      · cases hc : st.data.currentSession with
        | some c =>
          dsimp only
          split
          · exact (frame_startOrResume _ now proj).1
          · rfl
        | none =>
          dsimp only
          split
          · exact (frame_startOrResume st now proj).1
          · rfl
    | cursor_change =>
      dsimp only
      split
      · rfl
      · cases hc : st.data.currentSession with
        | some c =>
          dsimp only
          split
          · exact (frame_startOrResume _ now proj).1
          · rfl
        | none =>
          dsimp only
          split
          · exact (frame_startOrResume st now proj).1
          · rfl
    | window_focus =>
      dsimp only
      split
      · rfl
      · cases hc : st.data.currentSession with
        | some c =>
          dsimp only
          split
          · exact (frame_startOrResume _ now proj).1
          · rfl
        | none =>
          dsimp only
          split
          · exact (frame_startOrResume st now proj).1
          · rfl
    | window_blur =>
      dsimp only
      split
      · rfl
      · cases hc : st.data.currentSession with
        | some c =>
          dsimp only
          split
          · exact (frame_startOrResume _ now proj).1
          · rfl
        | none =>
          dsimp only
          split
          · exact (frame_startOrResume st now proj).1
          · rfl

theorem clock_recordActivity (st : TrackerState) (event : ActivityEvent)
    (now : Int) (proj : Option (String × String)) :
    (recordActivity st event now proj).clock = st.clock := by
  unfold recordActivity
  exact clock_onActivity _ event now proj

/-! ### Invariant preservation for each callback -/

theorem inv_idleEnd (st : TrackerState) (now : Int) (hInv : Inv st) :
    Inv (checkAndHandleIdleSessionEnd st now) := by
  unfold checkAndHandleIdleSessionEnd
  split
  · exact hInv
  · dsimp only
    split
    · exact inv_endCurrentSession st now none hInv
    · exact hInv

theorem inv_projectChange (st : TrackerState) (now : Int)
    (proj : Option (String × String)) (hInv : Inv st)
    (hclk : st.clock = now) :
    Inv (checkAndHandleProjectChange st now proj) := by
  cases hc : st.data.currentSession with
  | none =>
    simp only [checkAndHandleProjectChange, hc]
    exact hInv
  | some c =>
    simp only [checkAndHandleProjectChange, hc]
    cases proj with
    | none => exact inv_endCurrentSession st now none hInv
    | some pp =>
      obtain ⟨pn, ppth⟩ := pp
      dsimp only
      split
      · have h1 := inv_endCurrentSession st now none hInv
        refine inv_startOrResume _ now _ h1 ?_ ?_
        · exact endCurrent_currentSession_none st now none c hc
        · rw [(frame_endCurrent st now none).1]
          exact hclk
      · exact hInv

theorem inv_onActivity (st : TrackerState) (event : ActivityEvent)
    (now : Int) (proj : Option (String × String)) (hInv : Inv st)
    (hclk : st.clock = now)
    (hwake : event.type = EventType.wake → event.timestamp = now) :
    Inv (onActivity st event now proj) := by
  unfold onActivity
  by_cases hrun : (!st.isRunning) = true
  · rw [if_pos hrun]
    exact hInv
  · rw [if_neg hrun]
    cases htype : event.type with
    | sleep =>
      cases hc : st.data.currentSession with
      | none => exact hInv
      | some c =>
        dsimp only
        by_cases hp : (!st.isPaused) = true
        · rw [if_pos hp]
          by_cases hae : st.config.autoEndSessionAfterIdle = true
          · rw [if_pos hae]
            exact inv_endCurrentSession st now (some event.timestamp) hInv
          · rw [if_neg hae]
            obtain ⟨a1, a2, a3, a4, a5, a6⟩ := hInv.1 c hc
            exact inv_update_current st _ c
              { c with isActive := false, lastActivity := event.timestamp }
              hInv hc rfl rfl rfl (le_refl _) rfl rfl a1 rfl a2 a3 a4 a5
        · rw [if_neg hp]
          exact hInv
    | wake =>
      cases hc : st.data.currentSession with
      | some c =>
        dsimp only
        by_cases hp : st.isPaused = true
        · rw [if_pos hp]
          obtain ⟨a1, a2, a3, a4, a5, a6⟩ := hInv.1 c hc
          have hts : event.timestamp = now := hwake htype
          refine inv_update_current st _ c
            { c with
              isActive := true
              lastActivity := event.timestamp
              lastActiveTime := event.timestamp }
            hInv hc rfl rfl rfl (le_refl _) rfl rfl a1 rfl ?_ ?_ ?_ a5
          · show c.startTime ≤ event.timestamp
            rw [hts, ← hclk]
            exact le_trans a2 a3
          · show event.timestamp ≤ st.clock
            rw [hts, ← hclk]
          · show c.totalTime ≤
              min event.timestamp (dayEndOf c.startTime) - c.startTime
            rw [hts, ← hclk]
            omega
        · rw [if_neg hp]
          exact hInv
      | none =>
        dsimp only
        by_cases ha : st.config.autoStart = true
        · rw [if_pos ha]
          exact inv_startOrResume st now proj hInv hc hclk
        · rw [if_neg ha]
          exact hInv
    | text_change =>
      dsimp only
      by_cases hp : st.isPaused = true
      · rw [if_pos hp]
        exact hInv
      · rw [if_neg hp]
        cases hc : st.data.currentSession with
        | some c =>
          dsimp only
          rw [if_neg (by simp)]
          obtain ⟨a1, a2, a3, a4, a5, a6⟩ := hInv.1 c hc
          refine inv_update_current st _ c _
            hInv hc rfl rfl rfl (le_refl _) rfl rfl a1 rfl ?_ ?_ ?_ a5
          · show c.startTime ≤ now
            omega
          · show now ≤ st.clock
            omega
          · show c.totalTime ≤ min now (dayEndOf c.startTime) - c.startTime
            omega
        | none =>
          dsimp only
          by_cases ha : st.config.autoStart = true
          · rw [if_pos (by simp [ha, hc])]
            exact inv_startOrResume st now proj hInv hc hclk
          · rw [if_neg (by simp [ha, hc])]
            exact hInv
    | cursor_change =>
      dsimp only
      by_cases hp : st.isPaused = true
      · rw [if_pos hp]
        exact hInv
      · rw [if_neg hp]
        cases hc : st.data.currentSession with
        | some c =>
          dsimp only
          rw [if_neg (by simp)]
          obtain ⟨a1, a2, a3, a4, a5, a6⟩ := hInv.1 c hc
          refine inv_update_current st _ c _
            hInv hc rfl rfl rfl (le_refl _) rfl rfl a1 rfl ?_ ?_ ?_ a5
          · show c.startTime ≤ now
            omega
          · show now ≤ st.clock
            omega
          · show c.totalTime ≤ min now (dayEndOf c.startTime) - c.startTime
            omega
        | none =>
          dsimp only
          by_cases ha : st.config.autoStart = true
          · rw [if_pos (by simp [ha, hc])]
            exact inv_startOrResume st now proj hInv hc hclk
          · rw [if_neg (by simp [ha, hc])]
            exact hInv
    | window_focus =>
      dsimp only
      by_cases hp : st.isPaused = true
      · rw [if_pos hp]
        exact hInv
      · rw [if_neg hp]
        cases hc : st.data.currentSession with
        | some c =>
          dsimp only
          rw [if_neg (by simp)]
          obtain ⟨a1, a2, a3, a4, a5, a6⟩ := hInv.1 c hc
          refine inv_update_current st _ c _
            hInv hc rfl rfl rfl (le_refl _) rfl rfl a1 rfl ?_ ?_ ?_ a5
          · show c.startTime ≤ now
            omega
          · show now ≤ st.clock
            omega
          · show c.totalTime ≤ min now (dayEndOf c.startTime) - c.startTime
            omega
        | none =>
          dsimp only
          by_cases ha : st.config.autoStart = true
          · rw [if_pos (by simp [ha, hc])]
            exact inv_startOrResume st now proj hInv hc hclk
          · rw [if_neg (by simp [ha, hc])]
            exact hInv
    | window_blur =>
      dsimp only
      by_cases hp : st.isPaused = true
      · rw [if_pos hp]
        exact hInv
      · rw [if_neg hp]
        cases hc : st.data.currentSession with
        | some c =>
          dsimp only
          rw [if_neg (by simp)]
          obtain ⟨a1, a2, a3, a4, a5, a6⟩ := hInv.1 c hc
          refine inv_update_current st _ c _
            hInv hc rfl rfl rfl (le_refl _) rfl rfl a1 rfl ?_ ?_ ?_ a5
          · show c.startTime ≤ now
            omega
          · show now ≤ st.clock
            omega
          · show c.totalTime ≤ min now (dayEndOf c.startTime) - c.startTime
            omega
        | none =>
          dsimp only
          by_cases ha : st.config.autoStart = true
          · rw [if_pos (by simp [ha, hc])]
            exact inv_startOrResume st now proj hInv hc hclk
          · rw [if_neg (by simp [ha, hc])]
            exact hInv

theorem inv_recordActivity (st : TrackerState) (event : ActivityEvent)
    (now : Int) (proj : Option (String × String)) (hInv : Inv st)
    (hclk : st.clock = now)
    (hwake : event.type = EventType.wake → event.timestamp = now) :
    Inv (recordActivity st event now proj) := by
  unfold recordActivity
  dsimp only
  exact inv_onActivity _ event now proj
    (inv_of_eq_parts st _ hInv rfl (le_refl _) rfl) hclk hwake

theorem inv_checkSleepWake (st : TrackerState) (now : Int)
    (proj : Option (String × String)) (hInv : Inv st)
    (hclk : st.clock = now) :
    Inv (checkSleepWake st now proj) := by
  unfold checkSleepWake heartbeatEvents
  dsimp only
  split
  · dsimp only [List.foldl]
    have h1 : Inv (recordActivity st
        { type := EventType.sleep,
          timestamp := st.monitor.lastHeartbeat + HEARTBEAT_INTERVAL }
        now proj) :=
      inv_recordActivity st _ now proj hInv hclk
        (fun h => by simp at h)
    have hclk1 : (recordActivity st
        { type := EventType.sleep,
          timestamp := st.monitor.lastHeartbeat + HEARTBEAT_INTERVAL }
        now proj).clock = now := by
      rw [clock_recordActivity]
      exact hclk
    have h2 := inv_recordActivity _
      { type := EventType.wake, timestamp := now } now proj h1 hclk1
      (fun _ => rfl)
    exact inv_of_eq_parts _ _ h2 rfl (le_refl _) rfl
  · dsimp only [List.foldl]
    exact inv_of_eq_parts st _ hInv rfl (le_refl _) rfl

theorem inv_windowState (st : TrackerState) (focused : Bool) (now : Int)
    (proj : Option (String × String)) (hInv : Inv st)
    (hclk : st.clock = now) :
    Inv (onWindowStateChange st focused now proj) := by
  unfold onWindowStateChange
  dsimp only
  have hInv0 : Inv { st with monitor :=
      { st.monitor with isWindowFocused := focused } } :=
    inv_of_eq_parts st _ hInv rfl (le_refl _) rfl
  split
  · split
    · refine inv_recordActivity _ _ now proj ?_ ?_ ?_
      · exact inv_recordActivity _ _ now proj hInv0 hclk (fun _ => rfl)
      · rw [clock_recordActivity]
        exact hclk
      · intro _
        rfl
    · exact inv_recordActivity _ _ now proj hInv0 hclk (fun _ => rfl)
  · exact hInv0

theorem inv_pauseTracker (st : TrackerState) (hInv : Inv st) :
    Inv (pauseTracker st) := by
  unfold pauseTracker
  split
  · exact hInv
  · dsimp only
    cases hc : st.data.currentSession with
    | some c =>
      obtain ⟨a1, a2, a3, a4, a5, a6⟩ := hInv.1 c hc
      exact inv_update_current st _ c { c with isActive := false }
        hInv hc rfl rfl rfl (le_refl _) rfl rfl a1 rfl a2 a3 a4 a5
    | none => exact inv_of_eq_parts st _ hInv rfl (le_refl _) rfl

theorem inv_resumeTracker (st : TrackerState) (now : Int) (hInv : Inv st) :
    Inv (resumeTracker st now) := by
  unfold resumeTracker
  split
  · exact hInv
  · dsimp only
    cases hc : st.data.currentSession with
    | some c =>
      obtain ⟨a1, a2, a3, a4, a5, a6⟩ := hInv.1 c hc
      exact inv_update_current st _ c
        { c with isActive := true, lastActivity := now }
        hInv hc rfl rfl rfl (le_refl _) rfl rfl a1 rfl a2 a3 a4 a5
    | none => exact inv_of_eq_parts st _ hInv rfl (le_refl _) rfl

theorem inv_stopTracker (st : TrackerState) (now : Int) (hInv : Inv st) :
    Inv (stopTracker st now) := by
  unfold stopTracker
  split
  · exact hInv
  · dsimp only
    have h1 := inv_endCurrentSession st now none hInv
    have h2 := inv_set_lastSaved h1 now
    exact inv_of_eq_parts _ _ h2 rfl (le_refl _) rfl

theorem inv_autoSave (st : TrackerState) (now : Int) (hInv : Inv st) :
    Inv (autoSave st now) := by
  unfold autoSave
  exact inv_set_lastSaved hInv now

theorem inv_resetTracker (st : TrackerState) (now : Int) (hInv : Inv st) :
    Inv (resetTracker st now) := by
  unfold resetTracker
  cases hc : st.data.currentSession with
  | none => exact hInv
  | some c =>
    dsimp only
    have h3 := hInv.2.2.1
    rw [hc] at h3
    obtain ⟨hplace, hany⟩ := h3
    cases hlk : lookupProject st.data c.projectPath with
    | none =>
      exfalso
      have := lookup_isSome_of_any st.data c.projectPath hany
      rw [hlk] at this
      simp at this
    | some ps =>
      dsimp only
      obtain ⟨e0, he0, hk0, hps0⟩ := lookup_mem st.data c.projectPath ps hlk
      refine ⟨?_, ?_, ?_, ?_, ?_⟩
      · intro c0 hc0
        exact absurd hc0 (by simp)
      · intro e he s hs
        dsimp only at he
        obtain ⟨hk1, hk2⟩ := mem_setProject_key st.data c.projectPath _ e he
        by_cases hkey : e.1 = c.projectPath
        · have he2 := hk1 hkey
          rw [he2] at hs
          have hs2 : Slot.stored s ∈ ps.sessions := List.mem_of_mem_filter hs
          apply hInv.2.1 e0 he0 s
          rw [hps0]
          exact hs2
        · exact hInv.2.1 e (hk2 hkey) s hs
      · intro e he
        dsimp only at he
        obtain ⟨hk1, hk2⟩ := mem_setProject_key st.data c.projectPath _ e he
        by_cases hkey : e.1 = c.projectPath
        · have he2 := hk1 hkey
          rw [he2]
          intro hl
          have hmf := List.mem_filter.mp hl
          simp [resolveSlot] at hmf
        · exact (hplace e (hk2 hkey)).2 hkey
      · show ((setProject st.data c.projectPath _).projects.map
          (fun e => e.1)).Nodup
        exact (keys_setProject _ _ _).mpr hInv.2.2.2.1
      · show (setProject st.data c.projectPath _).totalTimeTracked = 0
        rw [setProject_totalTimeTracked]
        exact hInv.2.2.2.2

theorem split_currentSession (st : TrackerState) (now : Int)
    (cs : TimeSession) (hc : st.data.currentSession = some cs) :
    (splitSessionAtMidnight st now).data.currentSession =
      some (freshSession st now cs.projectName cs.projectPath) := by
  simp only [splitSessionAtMidnight, hc]
  rw [addSession_currentSession]

/-- After the midnight check, the current session (when one exists) starts
on the detection day. -/
theorem checkMidnight_day (st : TrackerState) (now : Int) (hInv : Inv st) :
    ∀ c0, (checkAndHandleMidnightCrossing st now).data.currentSession =
      some c0 → dayIdx c0.startTime = dayIdx now := by
  cases hc : st.data.currentSession with
  | none =>
    simp only [checkAndHandleMidnightCrossing, hc]
    intro c0 hc0
    simp at hc0
  | some c =>
    obtain ⟨a1, a2, a3, a4, a5, a6⟩ := hInv.1 c hc
    simp only [checkAndHandleMidnightCrossing, hc]
    rw [a6]
    by_cases hne : dayIdx c.startTime ≠ dayIdx now
    · simp only [hne, if_pos, ne_eq, not_false_iff]
      intro c0 hc0
      rw [show ({ splitSessionAtMidnight st now with
          lastSessionDay := some (dayIdx now) } :
            TrackerState).data.currentSession =
          some (freshSession st now c.projectName c.projectPath) from
        split_currentSession st now c hc] at hc0
      have : c0 = freshSession st now c.projectName c.projectPath := by
        simpa using hc0.symm
      subst this
      rfl
    · simp only [hne, if_neg, ne_eq, not_false_iff, not_not]
      intro c0 hc0
      rw [hc] at hc0
      have : c0 = c := by
        simpa using hc0.symm
      subst this
      omega

/-- Starting from a state with no current session, any session the
start-or-resume step installs begins at `now`. -/
theorem startOrResume_curStart (st : TrackerState) (now : Int)
    (proj : Option (String × String)) (hInv : Inv st)
    (hcur : st.data.currentSession = none) :
    ∀ c0, (startOrResumeSession st now proj).data.currentSession = some c0 →
      c0.startTime = now := by
  cases proj with
  | none =>
    intro c0 hc0
    simp only [startOrResumeSession] at hc0
    rw [hcur] at hc0
    simp at hc0
  | some pp =>
    obtain ⟨pname, ppath⟩ := pp
    have hfr := findRecent_none_of_inv st hInv hcur ppath
    have hcur1 : (startNewSession st now pname ppath).data.currentSession =
        some (freshSession st now pname ppath) := by
      simp only [startNewSession]
      rw [addSession_currentSession]
    have hres : startOrResumeSession st now (some (pname, ppath)) =
        { startNewSession st now pname ppath with
          lastSessionDay := some (dayIdx now) } := by
      simp only [startOrResumeSession]
      rw [hfr, hcur1]
      rfl
    intro c0 hc0
    rw [hres] at hc0
    have h2 := hcur1.symm.trans hc0
    have : c0 = freshSession st now pname ppath := by
      simpa using h2.symm
    subst this
    rfl

/-- The project-change check keeps the current session's start day or
starts a fresh session at `now`. -/
theorem projectChange_day (st : TrackerState) (now : Int)
    (proj : Option (String × String)) (hInv : Inv st) (hclk : st.clock = now)
    (hday : ∀ c0, st.data.currentSession = some c0 →
      dayIdx c0.startTime = dayIdx now) :
    ∀ c0, (checkAndHandleProjectChange st now proj).data.currentSession =
        some c0 → dayIdx c0.startTime = dayIdx now := by
  cases hc : st.data.currentSession with
  | none =>
    simp only [checkAndHandleProjectChange, hc]
    intro c0 hc0
    simp at hc0
  | some c =>
    simp only [checkAndHandleProjectChange, hc]
    cases proj with
    | none =>
      intro c0 hc0
      rw [endCurrent_currentSession_none st now none c hc] at hc0
      simp at hc0
    | some pp =>
      obtain ⟨pn, ppth⟩ := pp
      dsimp only
      by_cases hpp : c.projectPath ≠ ppth
      · rw [if_pos hpp]
        intro c0 hc0
        have h1 := inv_endCurrentSession st now none hInv
        have h2 := endCurrent_currentSession_none st now none c hc
        have := startOrResume_curStart _ now _ h1 h2 c0 hc0
        rw [this]
      · rw [if_neg hpp]
        exact hday

/-- The idle check keeps the current session's start day. -/
theorem idleEnd_day (st : TrackerState) (now : Int)
    (hday : ∀ c0, st.data.currentSession = some c0 →
      dayIdx c0.startTime = dayIdx now) :
    ∀ c0, (checkAndHandleIdleSessionEnd st now).data.currentSession =
        some c0 → dayIdx c0.startTime = dayIdx now := by
  cases hc : st.data.currentSession with
  | none =>
    simp only [checkAndHandleIdleSessionEnd, hc]
    intro c0 hc0
    simp at hc0
  | some c =>
    simp only [checkAndHandleIdleSessionEnd, hc]
    by_cases hidle : now - c.lastActiveTime >
        st.config.autoEndIdleThreshold * 60 * 1000
    · rw [if_pos hidle]
      intro c0 hc0
      rw [endCurrent_currentSession_none st now none c hc] at hc0
      simp at hc0
    · rw [if_neg hidle]
      exact hday

theorem inv_tick (st : TrackerState) (now : Int)
    (proj : Option (String × String)) (hInv : Inv st)
    (hclk : st.clock = now) :
    Inv (tick st now proj) := by
  unfold tick
  dsimp only
  set st1 := (if st.data.currentSession.isSome && !st.isPaused then
    checkAndHandleMidnightCrossing st now else st) with hst1
  have hInv1 : Inv st1 := by
    rw [hst1]
    split
    · exact inv_checkMidnight st now hInv hclk
    · exact hInv
  have hclk1 : st1.clock = now := by
    rw [hst1]
    split
    · rw [(frame_checkMidnight st now).1]
      exact hclk
    · exact hclk
  have hday1 : st1.isPaused = false → ∀ c0,
      st1.data.currentSession = some c0 →
      dayIdx c0.startTime = dayIdx now := by
    by_cases hg : (st.data.currentSession.isSome && !st.isPaused) = true
    · rw [hst1, if_pos hg]
      intro _ c0 hc0
      exact checkMidnight_day st now hInv c0 hc0
    · rw [hst1, if_neg hg]
      intro hp c0 hc0
      exfalso
      simp [hc0, hp] at hg
  set st2 := (if st1.config.autoEndSessionOnProjectChange &&
      st1.data.currentSession.isSome && !st1.isPaused then
    checkAndHandleProjectChange st1 now proj else st1) with hst2
  have hInv2 : Inv st2 := by
    rw [hst2]
    split
    · exact inv_projectChange st1 now proj hInv1 hclk1
    · exact hInv1
  have hclk2 : st2.clock = now := by
    rw [hst2]
    split
    · rw [(frame_projectChange st1 now proj).1]
      exact hclk1
    · exact hclk1
  have hday2 : st2.isPaused = false → ∀ c0,
      st2.data.currentSession = some c0 →
      dayIdx c0.startTime = dayIdx now := by
    by_cases hg : (st1.config.autoEndSessionOnProjectChange &&
        st1.data.currentSession.isSome && !st1.isPaused) = true
    · rw [hst2, if_pos hg]
      intro hp c0 hc0
      have hp1 : st1.isPaused = false := by
        rw [← (frame_projectChange st1 now proj).2.1]
        exact hp
      exact projectChange_day st1 now proj hInv1 hclk1 (hday1 hp1) c0 hc0
    · rw [hst2, if_neg hg]
      exact hday1
  set st3 := (if st2.config.autoEndSessionAfterIdle &&
      st2.data.currentSession.isSome && !st2.isPaused then
    checkAndHandleIdleSessionEnd st2 now else st2) with hst3
  have hInv3 : Inv st3 := by
    rw [hst3]
    split
    · exact inv_idleEnd st2 now hInv2
    · exact hInv2
  have hclk3 : st3.clock = now := by
    rw [hst3]
    split
    · rw [(frame_idleEnd st2 now).1]
      exact hclk2
    · exact hclk2
  have hday3 : st3.isPaused = false → ∀ c0,
      st3.data.currentSession = some c0 →
      dayIdx c0.startTime = dayIdx now := by
    by_cases hg : (st2.config.autoEndSessionAfterIdle &&
        st2.data.currentSession.isSome && !st2.isPaused) = true
    · rw [hst3, if_pos hg]
      intro hp c0 hc0
      have hp2 : st2.isPaused = false := by
        rw [← (frame_idleEnd st2 now).2.1]
        exact hp
      exact idleEnd_day st2 now (hday2 hp2) c0 hc0
    · rw [hst3, if_neg hg]
      exact hday2
  set st4 := (match st3.data.currentSession with
    | some c =>
      if !st3.isPaused then
        if monitorIsActive st3.config st3.monitor now then
          { st3 with data := { st3.data with
              currentSession := some {
                (if safeTimeDifference now c.lastActiveTime 1 > 0 then
                  { c with totalTime :=
                    c.totalTime + safeTimeDifference now c.lastActiveTime 1 }
                else c) with
                lastActiveTime := now, lastActivity := now },
              lastActivity := now } }
        else st3
      else st3
    | none => st3) with hst4
  have hInv4 : Inv st4 := by
    rw [hst4]
    cases hc3 : st3.data.currentSession with
    | none => exact hInv3
    | some c =>
      dsimp only
      by_cases hp3 : (!st3.isPaused) = true
      · rw [if_pos hp3]
        by_cases hm : monitorIsActive st3.config st3.monitor now = true
        · rw [if_pos hm]
          obtain ⟨a1, a2, a3, a4, a5, a6⟩ := hInv3.1 c hc3
          have hdayc : dayIdx c.startTime = dayIdx now :=
            hday3 (by simpa using hp3) c hc3
          have hde : dayEndOf c.startTime = dayEndOf now := by
            unfold dayEndOf
            rw [dayStart_eq_of_dayIdx_eq hdayc]
          have hnle : now ≤ dayEndOf now := le_dayEndOf now
          rw [hclk3] at a3
          by_cases hdelta : safeTimeDifference now c.lastActiveTime 1 > 0
          · rw [if_pos hdelta]
            simp only [safeTimeDifference] at hdelta
            refine inv_update_current st3 _ c _ hInv3 hc3 rfl rfl rfl
              (le_refl _) rfl rfl a1 rfl ?_ ?_ ?_ ?_
            · show c.startTime ≤ now
              omega
            · show now ≤ st3.clock
              omega
            · show c.totalTime + safeTimeDifference now c.lastActiveTime 1 ≤
                min now (dayEndOf c.startTime) - c.startTime
              simp only [safeTimeDifference]
              rw [hde]
              rw [hde] at a4
              omega
            · show (0 : Int) ≤
                c.totalTime + safeTimeDifference now c.lastActiveTime 1
              simp only [safeTimeDifference]
              omega
          · rw [if_neg hdelta]
            refine inv_update_current st3 _ c _ hInv3 hc3 rfl rfl rfl
              (le_refl _) rfl rfl a1 rfl ?_ ?_ ?_ a5
            · show c.startTime ≤ now
              omega
            · show now ≤ st3.clock
              omega
            · show c.totalTime ≤ min now (dayEndOf c.startTime) - c.startTime
              omega
        · rw [if_neg hm]
          exact hInv3
      · rw [if_neg hp3]
        exact hInv3
  have hclk4 : st4.clock = now := by
    rw [hst4]
    cases st3.data.currentSession with
    | none => exact hclk3
    | some c =>
      dsimp only
      split
      · split
        · exact hclk3
        · exact hclk3
      · exact hclk3
  split
  · next hg =>
    have hnone : st4.data.currentSession = none := by
      rcases h4 : st4.data.currentSession with _ | c4
      · rfl
      · rw [h4] at hg
        simp at hg
    exact inv_startOrResume st4 now proj hInv4 hnone hclk4
  · exact hInv4

theorem inv_applyOp (st : TrackerState) (op : Op) (hInv : Inv st)
    (hmono : st.clock ≤ op.now) : Inv (applyOp st op) := by
  cases op with
  | textChange n proj =>
    simp only [applyOp, Op.now]
    exact inv_recordActivity _ _ n proj (inv_clock_mono hInv hmono) rfl
      (fun h => by simp at h)
  | cursorChange n proj =>
    simp only [applyOp, Op.now]
    exact inv_recordActivity _ _ n proj (inv_clock_mono hInv hmono) rfl
      (fun h => by simp at h)
  | windowState f n proj =>
    simp only [applyOp, Op.now]
    exact inv_windowState _ f n proj (inv_clock_mono hInv hmono) rfl
  | heartbeat n proj =>
    simp only [applyOp, Op.now]
    exact inv_checkSleepWake _ n proj (inv_clock_mono hInv hmono) rfl
  | tickOp n proj =>
    simp only [applyOp, Op.now]
    exact inv_tick _ n proj (inv_clock_mono hInv hmono) rfl
  | pauseCmd n =>
    simp only [applyOp, Op.now]
    exact inv_pauseTracker _ (inv_clock_mono hInv hmono)
  | resumeCmd n =>
    simp only [applyOp, Op.now]
    exact inv_resumeTracker _ n (inv_clock_mono hInv hmono)
  | stopCmd n =>
    simp only [applyOp, Op.now]
    exact inv_stopTracker _ n (inv_clock_mono hInv hmono)
  | resetCmd n =>
    simp only [applyOp, Op.now]
    exact inv_resetTracker _ n (inv_clock_mono hInv hmono)
  | autoSaveOp n =>
    simp only [applyOp, Op.now]
    exact inv_autoSave _ n (inv_clock_mono hInv hmono)

theorem inv_init (cfg : ExtensionConfig) (t0 : Int) (focused : Bool)
    (workspace : Option (String × String)) :
    Inv (initState cfg t0 focused workspace) := by
  refine ⟨?_, ?_, ?_, ?_, ?_⟩
  · intro c hc
    simp [initState, createDefaultData] at hc
  · intro e he
    simp [initState, createDefaultData] at he
  · intro e he
    simp [initState, createDefaultData] at he
  · exact List.nodup_nil
  · rfl

/-- Every state reachable by the event loop from a fresh start satisfies
the invariant. -/
theorem inv_reachable (st : TrackerState) (h : ReachableNoLoad st) :
    Inv st := by
  induction h with
  | init cfg t0 focused workspace => exact inv_init cfg t0 focused workspace
  | step op h hmono ih => exact inv_applyOp _ op ih hmono

/-! ### Membership of closed session values in the stored map -/

theorem mem_setProject_of_ne (d : TrackingData) (p : String)
    (ps : ProjectStats) (e : String × ProjectStats) (he : e ∈ d.projects)
    (hne : e.1 ≠ p) : e ∈ (setProject d p ps).projects := by
  unfold setProject
  by_cases h : d.projects.any (fun x => x.1 = p)
  · simp only [h, if_pos]
    have heq : (fun (x : String × ProjectStats) =>
        if x.1 = p then (p, ps) else x) e = e := by
      simp [hne]
    rw [← heq]
    exact List.mem_map_of_mem _ he
  · simp only [h, if_neg, Bool.false_eq_true, not_false_iff]
    exact List.mem_append_left _ he

theorem stored_mem_freeze (d : TrackingData) (s : TimeSession)
    (h : ∃ e ∈ d.projects, Slot.stored s ∈ e.2.sessions) :
    ∃ e2 ∈ (freezeCurrent d).projects, Slot.stored s ∈ e2.2.sessions := by
  obtain ⟨e, he, hs⟩ := h
  refine ⟨(e.1, { e.2 with
    sessions := e.2.sessions.map (freezeSlot d.currentSession) }), ?_, ?_⟩
  · unfold freezeCurrent
    exact List.mem_map_of_mem _ he
  · show Slot.stored s ∈ e.2.sessions.map (freezeSlot d.currentSession)
    have heq : freezeSlot d.currentSession (Slot.stored s) =
        Slot.stored s := rfl
    rw [← heq]
    exact List.mem_map_of_mem _ hs

theorem stored_mem_updateProjectStats (d : TrackingData) (path : String)
    (s : TimeSession) (hnd : (d.projects.map (fun e => e.1)).Nodup)
    (h : ∃ e ∈ d.projects, Slot.stored s ∈ e.2.sessions) :
    ∃ e2 ∈ (updateProjectStats d path).projects,
      Slot.stored s ∈ e2.2.sessions := by
  obtain ⟨e, he, hs⟩ := h
  unfold updateProjectStats
  cases hlk : lookupProject d path with
  | none => exact ⟨e, he, hs⟩
  | some ps =>
    by_cases hkey : e.1 = path
    · have hlk2 : lookupProject d path = some e.2 := by
        rw [← hkey]
        exact lookup_eq_of_mem_nodup d e.1 e.2 hnd he
      have hpse : ps = e.2 := by
        rw [hlk] at hlk2
        simpa using hlk2
      obtain ⟨e2, he2, hk2, hps2⟩ := lookup_mem _ path _
        (lookupProject_setProject_self d path
          (recalculateProjectStats d.currentSession ps))
      refine ⟨e2, he2, ?_⟩
      rw [hps2]
      show Slot.stored s ∈
        (recalculateProjectStats d.currentSession ps).sessions
      rw [recalculateProjectStats_sessions, hpse]
      exact hs
    · exact ⟨e, mem_setProject_of_ne d path _ e he hkey, hs⟩

theorem mem_allSessions_current (st : TrackerState) (c : TimeSession)
    (hc : st.data.currentSession = some c) : c ∈ allSessions st := by
  unfold allSessions
  rw [hc]
  exact List.mem_append_left _ (by simp)

theorem mem_allSessions_stored (st : TrackerState) (s : TimeSession)
    (h : ∃ e2 ∈ st.data.projects, Slot.stored s ∈ e2.2.sessions) :
    s ∈ allSessions st := by
  obtain ⟨e2, he2, hs⟩ := h
  unfold allSessions
  refine List.mem_append_right _ ?_
  refine List.mem_flatMap.mpr ⟨e2, he2, ?_⟩
  have heq : resolveSlot st.data.currentSession (Slot.stored s) = s := rfl
  rw [← heq]
  exact List.mem_map_of_mem _ hs

/-- Ending the current session stores its closed value in the owning
project's entry. -/
theorem end_member (st : TrackerState) (now : Int) (e : Option Int)
    (session : TimeSession) (hInv : Inv st)
    (hc : st.data.currentSession = some session) :
    ∃ e2 ∈ (endCurrentSession st now e).data.projects,
      e2.1 = session.projectPath ∧
      Slot.stored (endedWith st now e session) ∈ e2.2.sessions := by
  have h3 := hInv.2.2.1
  rw [hc] at h3
  obtain ⟨hplace, hany⟩ := h3
  cases hlk : lookupProject st.data session.projectPath with
  | none =>
    exfalso
    have := lookup_isSome_of_any st.data session.projectPath hany
    rw [hlk] at this
    simp at this
  | some ps =>
    obtain ⟨e0, he0, hk0, hps0⟩ :=
      lookup_mem st.data session.projectPath ps hlk
    have hlive : Slot.live ∈ ps.sessions := by
      rw [← hps0]
      exact live_mem_of_count_one _ ((hplace e0 he0).1 hk0)
    simp only [endCurrentSession, hc]
    set s2 := endedWith st now e session with hs2
    set d1 : TrackingData := { st.data with currentSession := some s2 }
      with hd1
    set d2 := updateProjectStats d1 session.projectPath with hd2
    have hlk1 : lookupProject d1 session.projectPath = some ps := hlk
    have hlk2 : lookupProject d2 session.projectPath =
        some (recalculateProjectStats (some s2) ps) := by
      rw [hd2, lookup_updateProjectStats_self, hlk1]
      rfl
    obtain ⟨e1, he1, hk1, hps1⟩ := lookup_mem d2 session.projectPath _ hlk2
    have hcur2 : d2.currentSession = some s2 := by
      rw [hd2, updateProjectStats_currentSession]
    refine ⟨(e1.1, { e1.2 with
      sessions := e1.2.sessions.map (freezeSlot d2.currentSession) }),
      ?_, hk1, ?_⟩
    · show _ ∈ (freezeCurrent d2).projects
      unfold freezeCurrent
      exact List.mem_map_of_mem _ he1
    · show Slot.stored (endedWith st now e session) ∈
        e1.2.sessions.map (freezeSlot d2.currentSession)
      rw [hcur2]
      have hlive1 : Slot.live ∈ e1.2.sessions := by
        rw [hps1]
        show Slot.live ∈ (recalculateProjectStats (some s2) ps).sessions
        rw [recalculateProjectStats_sessions]
        exact hlive
      exact live_mem_map_freezeSlot (some s2) e1.2.sessions hlive1

/-- The midnight split stores the closed pre-midnight value in the owning
project's entry. -/
theorem split_member (st : TrackerState) (now : Int)
    (cs : TimeSession) (hInv : Inv st)
    (hc : st.data.currentSession = some cs) :
    ∃ e2 ∈ (splitSessionAtMidnight st now).data.projects,
      e2.1 = cs.projectPath ∧
      Slot.stored (splitClosedWith st now cs) ∈ e2.2.sessions := by
  have h3 := hInv.2.2.1
  rw [hc] at h3
  obtain ⟨hplace, hany⟩ := h3
  cases hlk : lookupProject st.data cs.projectPath with
  | none =>
    exfalso
    have := lookup_isSome_of_any st.data cs.projectPath hany
    rw [hlk] at this
    simp at this
  | some ps =>
    obtain ⟨e0, he0, hk0, hps0⟩ := lookup_mem st.data cs.projectPath ps hlk
    have hlive : Slot.live ∈ ps.sessions := by
      rw [← hps0]
      exact live_mem_of_count_one _ ((hplace e0 he0).1 hk0)
    simp only [splitSessionAtMidnight, hc]
    set c2 := splitClosedWith st now cs with hc2
    set d1 : TrackingData := { st.data with currentSession := some c2 }
      with hd1
    set d2 := updateProjectStats d1 cs.projectPath with hd2
    set ns := freshSession st now cs.projectName cs.projectPath with hns
    set d3 := freezeCurrent d2 with hd3
    set d4 : TrackingData := { d3 with currentSession := some ns } with hd4
    have hnsp : ns.projectPath = cs.projectPath := rfl
    have hcur2 : d2.currentSession = some c2 := by
      rw [hd2, updateProjectStats_currentSession]
    have hlk2 : lookupProject d2 cs.projectPath =
        some (recalculateProjectStats (some c2) ps) := by
      rw [hd2, lookup_updateProjectStats_self]
      rw [show lookupProject d1 cs.projectPath = some ps from hlk]
      rw [show d1.currentSession = some c2 from rfl]
      rfl
    have hlk3 : lookupProject d4 cs.projectPath =
        some { recalculateProjectStats (some c2) ps with
          sessions := (recalculateProjectStats (some c2) ps).sessions.map
            (freezeSlot (some c2)) } := by
      show lookupProject d3 cs.projectPath = _
      rw [hd3, lookupProject_freeze, hlk2, hcur2]
      rfl
    have hbase : baseStats d4 ns =
        { recalculateProjectStats (some c2) ps with
          sessions := (recalculateProjectStats (some c2) ps).sessions.map
            (freezeSlot (some c2)) } := by
      unfold baseStats
      rw [hnsp, hlk3]
    have hlk5 : lookupProject (addSessionToProject d4 ns) cs.projectPath =
        some (recalculateProjectStats d4.currentSession
          { baseStats d4 ns with
            sessions := (baseStats d4 ns).sessions ++ [Slot.live] }) := by
      unfold addSessionToProject
      rw [← hnsp]
      exact lookupProject_setProject_self d4 ns.projectPath _
    obtain ⟨e1, he1, hk1, hps1⟩ := lookup_mem _ cs.projectPath _ hlk5
    refine ⟨e1, ?_, hk1, ?_⟩
    · show e1 ∈ (addSessionToProject d4 ns).projects
      exact he1
    · rw [hps1]
      show Slot.stored (splitClosedWith st now cs) ∈
        (baseStats d4 ns).sessions ++ [Slot.live]
      refine List.mem_append_left _ ?_
      rw [hbase]
      show Slot.stored (splitClosedWith st now cs) ∈
        (recalculateProjectStats (some c2) ps).sessions.map
          (freezeSlot (some c2))
      rw [recalculateProjectStats_sessions]
      exact live_mem_map_freezeSlot (some c2) ps.sessions hlive

/-! ### Survival of a session value across each callback -/

theorem tracked_of_parts (st st' : TrackerState)
    (hcur : st'.data.currentSession = st.data.currentSession)
    (hproj : st'.data.projects = st.data.projects)
    (i : Nat) (t : Int) (h : Tracked st i t) : Tracked st' i t := by
  rcases h with ⟨c, hc, hid, ht⟩ | ⟨s, hs, hid, ht⟩
  · refine Or.inl ⟨c, ?_, hid, ht⟩
    rw [hcur]
    exact hc
  · refine Or.inr ⟨s, ?_, hid, ht⟩
    rw [hproj]
    exact hs

theorem tracked_replace_current (st st' : TrackerState) (c c' : TimeSession)
    (hc : st.data.currentSession = some c)
    (hcur : st'.data.currentSession = some c')
    (hproj : st'.data.projects = st.data.projects)
    (hid : c'.id = c.id) (hge : c.totalTime ≤ c'.totalTime)
    (i : Nat) (t : Int) (h : Tracked st i t) : Tracked st' i t := by
  rcases h with ⟨c0, hc0, hid0, ht0⟩ | ⟨s, hs, hid0, ht0⟩
  · have hcc : c0 = c := by
      rw [hc0] at hc
      simpa using hc
    subst hcc
    refine Or.inl ⟨c', hcur, ?_, le_trans ht0 hge⟩
    rw [hid]
    exact hid0
  · refine Or.inr ⟨s, ?_, hid0, ht0⟩
    rw [hproj]
    exact hs

theorem stored_mem_addSession (d : TrackingData) (ns : TimeSession)
    (s : TimeSession) (hnd : (d.projects.map (fun e => e.1)).Nodup)
    (h : ∃ e ∈ d.projects, Slot.stored s ∈ e.2.sessions) :
    ∃ e2 ∈ (addSessionToProject d ns).projects,
      Slot.stored s ∈ e2.2.sessions := by
  obtain ⟨e, he, hs⟩ := h
  unfold addSessionToProject
  by_cases hkey : e.1 = ns.projectPath
  · have hlk : lookupProject d ns.projectPath = some e.2 := by
      rw [← hkey]
      exact lookup_eq_of_mem_nodup d e.1 e.2 hnd he
    have hb : baseStats d ns = e.2 := by
      unfold baseStats
      rw [hlk]
    obtain ⟨e2, he2, hk2, hps2⟩ := lookup_mem _ ns.projectPath _
      (lookupProject_setProject_self d ns.projectPath _)
    refine ⟨e2, he2, ?_⟩
    rw [hps2]
    show Slot.stored s ∈ (baseStats d ns).sessions ++ [Slot.live]
    refine List.mem_append_left _ ?_
    rw [hb]
    exact hs
  · exact ⟨e, mem_setProject_of_ne d ns.projectPath _ e he hkey, hs⟩

theorem stored_mem_startOrResume (st : TrackerState) (now : Int)
    (proj : Option (String × String)) (s : TimeSession) (hInv : Inv st)
    (hcur : st.data.currentSession = none)
    (h : ∃ e ∈ st.data.projects, Slot.stored s ∈ e.2.sessions) :
    ∃ e2 ∈ (startOrResumeSession st now proj).data.projects,
      Slot.stored s ∈ e2.2.sessions := by
  cases proj with
  | none => simpa [startOrResumeSession] using h
  | some pp =>
    obtain ⟨pname, ppath⟩ := pp
    have hfr := findRecent_none_of_inv st hInv hcur ppath
    have hcur1 : (startNewSession st now pname ppath).data.currentSession =
        some (freshSession st now pname ppath) := by
      simp only [startNewSession]
      rw [addSession_currentSession]
    have hres : startOrResumeSession st now (some (pname, ppath)) =
        { startNewSession st now pname ppath with
          lastSessionDay := some (dayIdx now) } := by
      simp only [startOrResumeSession]
      rw [hfr, hcur1]
      rfl
    rw [hres]
    show ∃ e2 ∈ (addSessionToProject
      { freezeCurrent st.data with
        currentSession := some (freshSession st now pname ppath) }
      (freshSession st now pname ppath)).projects,
      Slot.stored s ∈ e2.2.sessions
    refine stored_mem_addSession _ _ s ?_ ?_
    · show ((freezeCurrent st.data).projects.map (fun e => e.1)).Nodup
      rw [keys_freeze]
      exact hInv.2.2.2.1
    · show ∃ e ∈ (freezeCurrent st.data).projects,
        Slot.stored s ∈ e.2.sessions
      exact stored_mem_freeze st.data s h

theorem tracked_endCurrent (st : TrackerState) (now : Int) (e : Option Int)
    (i : Nat) (t : Int) (hInv : Inv st) (h : Tracked st i t) :
    Tracked (endCurrentSession st now e) i t := by
  rcases h with ⟨c, hc, hid, ht⟩ | ⟨s, hs, hid, ht⟩
  · right
    refine ⟨endedWith st now e c, ?_, ?_, ?_⟩
    · obtain ⟨e2, he2, _, hmem⟩ := end_member st now e c hInv hc
      exact ⟨e2, he2, hmem⟩
    · rw [endedWith_id]
      exact hid
    · exact le_trans ht (endedWith_total_ge st now e c)
  · cases hcur : st.data.currentSession with
    | none =>
      refine Or.inr ⟨s, ?_, hid, ht⟩
      simp only [endCurrentSession, hcur]
      exact hs
    | some session =>
      have hsurv : ∃ e2 ∈ (endCurrentSession st now e).data.projects,
          Slot.stored s ∈ e2.2.sessions := by
        simp only [endCurrentSession, hcur]
        show ∃ e2 ∈ (freezeCurrent (updateProjectStats
          { st.data with currentSession := some (endedWith st now e session) }
          session.projectPath)).projects, Slot.stored s ∈ e2.2.sessions
        apply stored_mem_freeze
        refine stored_mem_updateProjectStats _ _ s ?_ hs
        exact hInv.2.2.2.1
      exact Or.inr ⟨s, hsurv, hid, ht⟩

theorem tracked_startOrResume (st : TrackerState) (now : Int)
    (proj : Option (String × String)) (i : Nat) (t : Int) (hInv : Inv st)
    (hcur : st.data.currentSession = none) (h : Tracked st i t) :
    Tracked (startOrResumeSession st now proj) i t := by
  rcases h with ⟨c, hc, _, _⟩ | ⟨s, hs, hid, ht⟩
  · rw [hcur] at hc
    simp at hc
  · exact Or.inr ⟨s, stored_mem_startOrResume st now proj s hInv hcur hs,
      hid, ht⟩

theorem tracked_split (st : TrackerState) (now : Int) (i : Nat) (t : Int)
    (hInv : Inv st) (h : Tracked st i t) :
    Tracked (splitSessionAtMidnight st now) i t := by
  rcases h with ⟨c, hc, hid, ht⟩ | ⟨s, hs, hid, ht⟩
  · right
    refine ⟨splitClosedWith st now c, ?_, ?_, ?_⟩
    · obtain ⟨e2, he2, _, hmem⟩ := split_member st now c hInv hc
      exact ⟨e2, he2, hmem⟩
    · rw [splitClosedWith_id]
      exact hid
    · exact le_trans ht (splitClosedWith_total_ge st now c)
  · cases hcur : st.data.currentSession with
    | none =>
      refine Or.inr ⟨s, ?_, hid, ht⟩
      simp only [splitSessionAtMidnight, hcur]
      exact hs
    | some cs =>
      have hsurv : ∃ e2 ∈ (splitSessionAtMidnight st now).data.projects,
          Slot.stored s ∈ e2.2.sessions := by
        simp only [splitSessionAtMidnight, hcur]
        show ∃ e2 ∈ (addSessionToProject
          { freezeCurrent (updateProjectStats
              { st.data with
                currentSession := some (splitClosedWith st now cs) }
              cs.projectPath) with
            currentSession := some (freshSession st now cs.projectName
              cs.projectPath) }
          (freshSession st now cs.projectName cs.projectPath)).projects,
          Slot.stored s ∈ e2.2.sessions
        refine stored_mem_addSession _ _ s ?_ ?_
        · show ((freezeCurrent (updateProjectStats
            { st.data with
              currentSession := some (splitClosedWith st now cs) }
            cs.projectPath)).projects.map (fun e => e.1)).Nodup
          rw [keys_freeze]
          exact updateProjectStats_keys _ _ hInv.2.2.2.1
        · show ∃ e ∈ (freezeCurrent (updateProjectStats
            { st.data with
              currentSession := some (splitClosedWith st now cs) }
            cs.projectPath)).projects, Slot.stored s ∈ e.2.sessions
          apply stored_mem_freeze
          refine stored_mem_updateProjectStats _ _ s ?_ hs
          exact hInv.2.2.2.1
      exact Or.inr ⟨s, hsurv, hid, ht⟩

theorem tracked_checkMidnight (st : TrackerState) (now : Int) (i : Nat)
    (t : Int) (hInv : Inv st) (h : Tracked st i t) :
    Tracked (checkAndHandleMidnightCrossing st now) i t := by
  cases hc : st.data.currentSession with
  | none =>
    simp only [checkAndHandleMidnightCrossing, hc]
    exact h
  | some cs =>
    simp only [checkAndHandleMidnightCrossing, hc]
    cases hd : st.lastSessionDay with
    | none => exact h
    | some d =>
      by_cases hne : d ≠ dayIdx now
      · simp only [hne, if_pos, ne_eq, not_false_iff]
        exact tracked_of_parts _ _ rfl rfl i t (tracked_split st now i t hInv h)
      · simp only [hne, if_neg, ne_eq, not_false_iff, not_not]
        exact h

theorem tracked_idleEnd (st : TrackerState) (now : Int) (i : Nat) (t : Int)
    (hInv : Inv st) (h : Tracked st i t) :
    Tracked (checkAndHandleIdleSessionEnd st now) i t := by
  unfold checkAndHandleIdleSessionEnd
  split
  · exact h
  · dsimp only
    split
    · exact tracked_endCurrent st now none i t hInv h
    · exact h

theorem tracked_projectChange (st : TrackerState) (now : Int)
    (proj : Option (String × String)) (i : Nat) (t : Int) (hInv : Inv st)
    (h : Tracked st i t) :
    Tracked (checkAndHandleProjectChange st now proj) i t := by
  cases hc : st.data.currentSession with
  | none =>
    simp only [checkAndHandleProjectChange, hc]
    exact h
  | some c =>
    simp only [checkAndHandleProjectChange, hc]
    cases proj with
    | none => exact tracked_endCurrent st now none i t hInv h
    | some pp =>
      obtain ⟨pn, ppth⟩ := pp
      dsimp only
      split
      · refine tracked_startOrResume _ now _ i t ?_ ?_ ?_
        · exact inv_endCurrentSession st now none hInv
        · exact endCurrent_currentSession_none st now none c hc
        · exact tracked_endCurrent st now none i t hInv h
      · exact h

theorem tracked_onActivity (st : TrackerState) (event : ActivityEvent)
    (now : Int) (proj : Option (String × String)) (i : Nat) (t : Int)
    (hInv : Inv st) (h : Tracked st i t) :
    Tracked (onActivity st event now proj) i t := by
  unfold onActivity
  by_cases hrun : (!st.isRunning) = true
  · rw [if_pos hrun]
    exact h
  · rw [if_neg hrun]
    cases htype : event.type with
    | sleep =>
      cases hc : st.data.currentSession with
      | none => exact h
      | some c =>
        dsimp only
        by_cases hp : (!st.isPaused) = true
        · rw [if_pos hp]
          by_cases hae : st.config.autoEndSessionAfterIdle = true
          · rw [if_pos hae]
            exact tracked_endCurrent st now (some event.timestamp) i t hInv h
          · rw [if_neg hae]
            refine tracked_replace_current st _ c
              { c with isActive := false, lastActivity := event.timestamp }
              hc ?_ ?_ ?_ ?_ i t h
            · rfl
            · rfl
            · rfl
            · exact le_refl _
        · rw [if_neg hp]
          exact h
    | wake =>
      cases hc : st.data.currentSession with
      | some c =>
        dsimp only
        by_cases hp : st.isPaused = true
        · rw [if_pos hp]
          refine tracked_replace_current st _ c
            { c with
              isActive := true
              lastActivity := event.timestamp
              lastActiveTime := event.timestamp }
            hc ?_ ?_ ?_ ?_ i t h
          · rfl
          · rfl
          · rfl
          · exact le_refl _
        · rw [if_neg hp]
          exact h
      | none =>
        dsimp only
        by_cases ha : st.config.autoStart = true
        · rw [if_pos ha]
          exact tracked_startOrResume st now proj i t hInv hc h
        · rw [if_neg ha]
          exact h
    | text_change =>
      dsimp only
      by_cases hp : st.isPaused = true
      · rw [if_pos hp]
        exact h
      · rw [if_neg hp]
        cases hc : st.data.currentSession with
        | some c =>
          dsimp only
          rw [if_neg (by simp)]
          refine tracked_replace_current st _ c
            { { c with textChanges := c.textChanges + 1 } with
              lastActiveTime := now, lastActivity := now }
            hc ?_ ?_ ?_ ?_ i t h
          · rfl
          · rfl
          · rfl
          · exact le_refl _
        | none =>
          dsimp only
          by_cases ha : st.config.autoStart = true
          · rw [if_pos (by simp [ha, hc])]
            exact tracked_startOrResume st now proj i t hInv hc h
          · rw [if_neg (by simp [ha, hc])]
            exact h
    | cursor_change =>
      dsimp only
      by_cases hp : st.isPaused = true
      · rw [if_pos hp]
        exact h
      · rw [if_neg hp]
        cases hc : st.data.currentSession with
        | some c =>
          dsimp only
          rw [if_neg (by simp)]
          refine tracked_replace_current st _ c
            { { c with cursorMovements := c.cursorMovements + 1 } with
              lastActiveTime := now, lastActivity := now }
            hc ?_ ?_ ?_ ?_ i t h
          · rfl
          · rfl
          · rfl
          · exact le_refl _
        | none =>
          dsimp only
          by_cases ha : st.config.autoStart = true
          · rw [if_pos (by simp [ha, hc])]
            exact tracked_startOrResume st now proj i t hInv hc h
          · rw [if_neg (by simp [ha, hc])]
            exact h
    | window_focus =>
      dsimp only
      by_cases hp : st.isPaused = true
      · rw [if_pos hp]
        exact h
      · rw [if_neg hp]
        cases hc : st.data.currentSession with
        | some c =>
          dsimp only
          rw [if_neg (by simp)]
          refine tracked_replace_current st _ c
            { c with lastActiveTime := now, lastActivity := now }
            hc ?_ ?_ ?_ ?_ i t h
          · rfl
          · rfl
          · rfl
          · exact le_refl _
        | none =>
          dsimp only
          by_cases ha : st.config.autoStart = true
          · rw [if_pos (by simp [ha, hc])]
            exact tracked_startOrResume st now proj i t hInv hc h
          · rw [if_neg (by simp [ha, hc])]
            exact h
    | window_blur =>
      dsimp only
      by_cases hp : st.isPaused = true
      · rw [if_pos hp]
        exact h
      · rw [if_neg hp]
        cases hc : st.data.currentSession with
        | some c =>
          dsimp only
          rw [if_neg (by simp)]
          refine tracked_replace_current st _ c
            { c with lastActiveTime := now, lastActivity := now }
            hc ?_ ?_ ?_ ?_ i t h
          · rfl
          · rfl
          · rfl
          · exact le_refl _
        | none =>
          dsimp only
          by_cases ha : st.config.autoStart = true
          · rw [if_pos (by simp [ha, hc])]
            exact tracked_startOrResume st now proj i t hInv hc h
          · rw [if_neg (by simp [ha, hc])]
            exact h

theorem tracked_recordActivity (st : TrackerState) (event : ActivityEvent)
    (now : Int) (proj : Option (String × String)) (i : Nat) (t : Int)
    (hInv : Inv st) (h : Tracked st i t) :
    Tracked (recordActivity st event now proj) i t := by
  unfold recordActivity
  dsimp only
  refine tracked_onActivity _ event now proj i t ?_ ?_
  · exact inv_of_eq_parts st _ hInv rfl (le_refl _) rfl
  · exact tracked_of_parts st _ rfl rfl i t h

theorem tracked_checkSleepWake (st : TrackerState) (now : Int)
    (proj : Option (String × String)) (i : Nat) (t : Int) (hInv : Inv st)
    (hclk : st.clock = now) (h : Tracked st i t) :
    Tracked (checkSleepWake st now proj) i t := by
  unfold checkSleepWake heartbeatEvents
  dsimp only
  split
  · dsimp only [List.foldl]
    have hInv1 : Inv (recordActivity st
        { type := EventType.sleep,
          timestamp := st.monitor.lastHeartbeat + HEARTBEAT_INTERVAL }
        now proj) :=
      inv_recordActivity st _ now proj hInv hclk (fun hx => by simp at hx)
    have h1 := tracked_recordActivity st
      { type := EventType.sleep,
        timestamp := st.monitor.lastHeartbeat + HEARTBEAT_INTERVAL }
      now proj i t hInv h
    have h2 := tracked_recordActivity _
      { type := EventType.wake, timestamp := now } now proj i t hInv1 h1
    exact tracked_of_parts _ _ rfl rfl i t h2
  · dsimp only [List.foldl]
    exact tracked_of_parts st _ rfl rfl i t h

theorem tracked_windowState (st : TrackerState) (focused : Bool) (now : Int)
    (proj : Option (String × String)) (i : Nat) (t : Int) (hInv : Inv st)
    (hclk : st.clock = now) (h : Tracked st i t) :
    Tracked (onWindowStateChange st focused now proj) i t := by
  unfold onWindowStateChange
  dsimp only
  have hInv0 : Inv { st with monitor :=
      { st.monitor with isWindowFocused := focused } } :=
    inv_of_eq_parts st _ hInv rfl (le_refl _) rfl
  have h0 : Tracked { st with monitor :=
      { st.monitor with isWindowFocused := focused } } i t :=
    tracked_of_parts st _ rfl rfl i t h
  split
  · split
    · refine tracked_recordActivity _ _ now proj i t ?_ ?_
      · exact inv_recordActivity _ _ now proj hInv0 hclk (fun _ => rfl)
      · exact tracked_recordActivity _ _ now proj i t hInv0 h0
    · exact tracked_recordActivity _ _ now proj i t hInv0 h0
  · exact h0

theorem tracked_pauseTracker (st : TrackerState) (i : Nat) (t : Int)
    (h : Tracked st i t) : Tracked (pauseTracker st) i t := by
  unfold pauseTracker
  split
  · exact h
  · dsimp only
    cases hc : st.data.currentSession with
    | some c =>
      refine tracked_replace_current st _ c { c with isActive := false }
        hc ?_ ?_ ?_ ?_ i t h
      · rfl
      · rfl
      · rfl
      · exact le_refl _
    | none => exact tracked_of_parts st _ rfl rfl i t h

theorem tracked_resumeTracker (st : TrackerState) (now : Int) (i : Nat)
    (t : Int) (h : Tracked st i t) : Tracked (resumeTracker st now) i t := by
  unfold resumeTracker
  split
  · exact h
  · dsimp only
    cases hc : st.data.currentSession with
    | some c =>
      refine tracked_replace_current st _ c
        { c with isActive := true, lastActivity := now }
        hc ?_ ?_ ?_ ?_ i t h
      · rfl
      · rfl
      · rfl
      · exact le_refl _
    | none => exact tracked_of_parts st _ rfl rfl i t h

theorem tracked_stopTracker (st : TrackerState) (now : Int) (i : Nat)
    (t : Int) (hInv : Inv st) (h : Tracked st i t) :
    Tracked (stopTracker st now) i t := by
  unfold stopTracker
  split
  · exact h
  · dsimp only
    refine tracked_of_parts _ _ rfl rfl i t ?_
    refine tracked_of_parts _ _ rfl rfl i t ?_
    exact tracked_endCurrent st now none i t hInv h

theorem tracked_autoSave (st : TrackerState) (now : Int) (i : Nat) (t : Int)
    (h : Tracked st i t) : Tracked (autoSave st now) i t := by
  unfold autoSave
  exact tracked_of_parts st _ rfl rfl i t h

theorem tracked_tick (st : TrackerState) (now : Int)
    (proj : Option (String × String)) (i : Nat) (t : Int) (hInv : Inv st)
    (hclk : st.clock = now) (h : Tracked st i t) :
    Tracked (tick st now proj) i t := by
  unfold tick
  dsimp only
  set st1 := (if st.data.currentSession.isSome && !st.isPaused then
    checkAndHandleMidnightCrossing st now else st) with hst1
  have hInv1 : Inv st1 := by
    rw [hst1]
    split
    · exact inv_checkMidnight st now hInv hclk
    · exact hInv
  have hclk1 : st1.clock = now := by
    rw [hst1]
    split
    · rw [(frame_checkMidnight st now).1]
      exact hclk
    · exact hclk
  have hday1 : st1.isPaused = false → ∀ c0,
      st1.data.currentSession = some c0 →
      dayIdx c0.startTime = dayIdx now := by
    by_cases hg : (st.data.currentSession.isSome && !st.isPaused) = true
    · rw [hst1, if_pos hg]
      intro _ c0 hc0
      exact checkMidnight_day st now hInv c0 hc0
    · rw [hst1, if_neg hg]
      intro hp c0 hc0
      exfalso
      simp [hc0, hp] at hg
  have h1 : Tracked st1 i t := by
    rw [hst1]
    split
    · exact tracked_checkMidnight st now i t hInv h
    · exact h
  set st2 := (if st1.config.autoEndSessionOnProjectChange &&
      st1.data.currentSession.isSome && !st1.isPaused then
    checkAndHandleProjectChange st1 now proj else st1) with hst2
  have hInv2 : Inv st2 := by
    rw [hst2]
    split
    · exact inv_projectChange st1 now proj hInv1 hclk1
    · exact hInv1
  have hclk2 : st2.clock = now := by
    rw [hst2]
    split
    · rw [(frame_projectChange st1 now proj).1]
      exact hclk1
    · exact hclk1
  have hday2 : st2.isPaused = false → ∀ c0,
      st2.data.currentSession = some c0 →
      dayIdx c0.startTime = dayIdx now := by
    by_cases hg : (st1.config.autoEndSessionOnProjectChange &&
        st1.data.currentSession.isSome && !st1.isPaused) = true
    · rw [hst2, if_pos hg]
      intro hp c0 hc0
      have hp1 : st1.isPaused = false := by
        rw [← (frame_projectChange st1 now proj).2.1]
        exact hp
      exact projectChange_day st1 now proj hInv1 hclk1 (hday1 hp1) c0 hc0
    · rw [hst2, if_neg hg]
      exact hday1
  have h2 : Tracked st2 i t := by
    rw [hst2]
    split
    · exact tracked_projectChange st1 now proj i t hInv1 h1
    · exact h1
  set st3 := (if st2.config.autoEndSessionAfterIdle &&
      st2.data.currentSession.isSome && !st2.isPaused then
    checkAndHandleIdleSessionEnd st2 now else st2) with hst3
  have hInv3 : Inv st3 := by
    rw [hst3]
    split
    · exact inv_idleEnd st2 now hInv2
    · exact hInv2
  have hclk3 : st3.clock = now := by
    rw [hst3]
    split
    · rw [(frame_idleEnd st2 now).1]
      exact hclk2
    · exact hclk2
  have hday3 : st3.isPaused = false → ∀ c0,
      st3.data.currentSession = some c0 →
      dayIdx c0.startTime = dayIdx now := by
    by_cases hg : (st2.config.autoEndSessionAfterIdle &&
        st2.data.currentSession.isSome && !st2.isPaused) = true
    · rw [hst3, if_pos hg]
      intro hp c0 hc0
      have hp2 : st2.isPaused = false := by
        rw [← (frame_idleEnd st2 now).2.1]
        exact hp
      exact idleEnd_day st2 now (hday2 hp2) c0 hc0
    · rw [hst3, if_neg hg]
      exact hday2
  have h3 : Tracked st3 i t := by
    rw [hst3]
    split
    · exact tracked_idleEnd st2 now i t hInv2 h2
    · exact h2
  set st4 := (match st3.data.currentSession with
    | some c =>
      if !st3.isPaused then
        if monitorIsActive st3.config st3.monitor now then
          { st3 with data := { st3.data with
              currentSession := some {
                (if safeTimeDifference now c.lastActiveTime 1 > 0 then
                  { c with totalTime :=
                    c.totalTime + safeTimeDifference now c.lastActiveTime 1 }
                else c) with
                lastActiveTime := now, lastActivity := now },
              lastActivity := now } }
        else st3
      else st3
    | none => st3) with hst4
  have hInv4 : Inv st4 := by
    rw [hst4]
    cases hc3 : st3.data.currentSession with
    | none => exact hInv3
    | some c =>
      dsimp only
      by_cases hp3 : (!st3.isPaused) = true
      · rw [if_pos hp3]
        by_cases hm : monitorIsActive st3.config st3.monitor now = true
        · rw [if_pos hm]
          obtain ⟨a1, a2, a3, a4, a5, a6⟩ := hInv3.1 c hc3
          have hdayc : dayIdx c.startTime = dayIdx now :=
            hday3 (by simpa using hp3) c hc3
          have hde : dayEndOf c.startTime = dayEndOf now := by
            unfold dayEndOf
            rw [dayStart_eq_of_dayIdx_eq hdayc]
          have hnle : now ≤ dayEndOf now := le_dayEndOf now
          rw [hclk3] at a3
          by_cases hdelta : safeTimeDifference now c.lastActiveTime 1 > 0
          · rw [if_pos hdelta]
            simp only [safeTimeDifference] at hdelta
            refine inv_update_current st3 _ c _ hInv3 hc3 rfl rfl rfl
              (le_refl _) rfl rfl a1 rfl ?_ ?_ ?_ ?_
            · show c.startTime ≤ now
              omega
            · show now ≤ st3.clock
              omega
            · show c.totalTime + safeTimeDifference now c.lastActiveTime 1 ≤
                min now (dayEndOf c.startTime) - c.startTime
              simp only [safeTimeDifference]
              rw [hde]
              rw [hde] at a4
              omega
            · show (0 : Int) ≤
                c.totalTime + safeTimeDifference now c.lastActiveTime 1
              simp only [safeTimeDifference]
              omega
          · rw [if_neg hdelta]
            refine inv_update_current st3 _ c _ hInv3 hc3 rfl rfl rfl
              (le_refl _) rfl rfl a1 rfl ?_ ?_ ?_ a5
            · show c.startTime ≤ now
              omega
            · show now ≤ st3.clock
              omega
            · show c.totalTime ≤ min now (dayEndOf c.startTime) - c.startTime
              omega
        · rw [if_neg hm]
          exact hInv3
      · rw [if_neg hp3]
        exact hInv3
  have h4 : Tracked st4 i t := by
    rw [hst4]
    cases hc3 : st3.data.currentSession with
    | none => exact h3
    | some c =>
      dsimp only
      by_cases hp3 : (!st3.isPaused) = true
      · rw [if_pos hp3]
        by_cases hm : monitorIsActive st3.config st3.monitor now = true
        · rw [if_pos hm]
          by_cases hdelta : safeTimeDifference now c.lastActiveTime 1 > 0
          · rw [if_pos hdelta]
            refine tracked_replace_current st3 _ c
              { { c with totalTime :=
                  c.totalTime + safeTimeDifference now c.lastActiveTime 1 } with
                lastActiveTime := now, lastActivity := now }
              hc3 ?_ ?_ ?_ ?_ i t h3
            · rfl
            · rfl
            · rfl
            · show c.totalTime ≤
                c.totalTime + safeTimeDifference now c.lastActiveTime 1
              simp only [safeTimeDifference]
              omega
          · rw [if_neg hdelta]
            refine tracked_replace_current st3 _ c
              { c with lastActiveTime := now, lastActivity := now }
              hc3 ?_ ?_ ?_ ?_ i t h3
            · rfl
            · rfl
            · rfl
            · exact le_refl _
        · rw [if_neg hm]
          exact h3
      · rw [if_neg hp3]
        exact h3
  split
  · next hg =>
    have hnone : st4.data.currentSession = none := by
      rcases h4x : st4.data.currentSession with _ | c4
      · rfl
      · rw [h4x] at hg
        simp at hg
    exact tracked_startOrResume st4 now proj i t hInv4 hnone h4
  · exact h4

theorem tracked_applyOp (st : TrackerState) (op : Op) (hInv : Inv st)
    (hmono : st.clock ≤ op.now) (hnr : ∀ n, op ≠ Op.resetCmd n)
    (i : Nat) (t : Int) (h : Tracked st i t) :
    Tracked (applyOp st op) i t := by
  cases op with
  | textChange n proj =>
    simp only [applyOp, Op.now]
    refine tracked_recordActivity _ _ n proj i t ?_ ?_
    · exact inv_clock_mono hInv hmono
    · exact tracked_of_parts st _ rfl rfl i t h
  | cursorChange n proj =>
    simp only [applyOp, Op.now]
    refine tracked_recordActivity _ _ n proj i t ?_ ?_
    · exact inv_clock_mono hInv hmono
    · exact tracked_of_parts st _ rfl rfl i t h
  | windowState f n proj =>
    simp only [applyOp, Op.now]
    refine tracked_windowState _ f n proj i t ?_ rfl ?_
    · exact inv_clock_mono hInv hmono
    · exact tracked_of_parts st _ rfl rfl i t h
  | heartbeat n proj =>
    simp only [applyOp, Op.now]
    refine tracked_checkSleepWake _ n proj i t ?_ rfl ?_
    · exact inv_clock_mono hInv hmono
    · exact tracked_of_parts st _ rfl rfl i t h
  | tickOp n proj =>
    simp only [applyOp, Op.now]
    refine tracked_tick _ n proj i t ?_ rfl ?_
    · exact inv_clock_mono hInv hmono
    · exact tracked_of_parts st _ rfl rfl i t h
  | pauseCmd n =>
    simp only [applyOp, Op.now]
    exact tracked_pauseTracker _ i t (tracked_of_parts st _ rfl rfl i t h)
  | resumeCmd n =>
    simp only [applyOp, Op.now]
    exact tracked_resumeTracker _ n i t (tracked_of_parts st _ rfl rfl i t h)
  | stopCmd n =>
    simp only [applyOp, Op.now]
    refine tracked_stopTracker _ n i t ?_ ?_
    · exact inv_clock_mono hInv hmono
    · exact tracked_of_parts st _ rfl rfl i t h
  | resetCmd n => exact absurd rfl (hnr n)
  | autoSaveOp n =>
    simp only [applyOp, Op.now]
    exact tracked_autoSave _ n i t (tracked_of_parts st _ rfl rfl i t h)

/-! ### Claim theorems -/

theorem filter_open_replicate (cur : Option TimeSession) (l : List Slot)
    (c : TimeSession) (hcur : cur = some c) (hcend : c.endTime = none)
    (hstored : ∀ s, Slot.stored s ∈ l → s.endTime.isSome = true) :
    (l.map (resolveSlot cur)).filter (fun s => s.endTime.isNone) =
      List.replicate (l.count Slot.live) c := by
  induction l with
  | nil => rfl
  | cons sl rest ih =>
    have ih2 := ih (fun s hs => hstored s (List.mem_cons_of_mem _ hs))
    cases sl with
    | live =>
      rw [List.map_cons, List.filter_cons]
      rw [show resolveSlot cur Slot.live = c from by rw [hcur]; rfl]
      rw [if_pos (by simp [hcend])]
      rw [List.count_cons_self, List.replicate_succ, ih2]
    | stored s =>
      have hsome := hstored s (List.mem_cons_self _ _)
      rw [List.map_cons, List.filter_cons]
      rw [show resolveSlot cur (Slot.stored s) = s from rfl]
      rw [if_neg (by
        rcases hs2 : s.endTime with _ | v
        · rw [hs2] at hsome
          simp at hsome
        · simp [hs2])]
      rw [List.count_cons_of_ne (by simp), ih2]

/-- C1 (corrected).  In every reachable state: (1) the open session's
`totalTime` is non-negative and bounded by `now - startTime`; (2) a session
ended without an explicit end time gets `endTime = now` and satisfies
`totalTime ≤ endTime - startTime`; (3) a session ended with an explicit
end time `t` satisfies that bound provided `t` is at least the session's
`lastActiveTime`; (4) the value closed by the midnight split satisfies
`totalTime ≤ endTime - startTime` whenever the split fires on a later day
than the session started. -/
theorem c1_totaltime_bound_amended (st : TrackerState) (now : Int)
    (hr : ReachableNoLoad st) (hclk : st.clock = now) :
    (∀ c, st.data.currentSession = some c →
      0 ≤ c.totalTime ∧ c.totalTime ≤ now - c.startTime) ∧
    (∀ c s', st.data.currentSession = some c →
      endedSessionValue st now none = some s' →
      s'.endTime = some now ∧ s'.totalTime ≤ now - s'.startTime) ∧
    (∀ c t s', st.data.currentSession = some c → c.lastActiveTime ≤ t →
      endedSessionValue st now (some t) = some s' →
      s'.endTime = some t ∧ s'.totalTime ≤ t - s'.startTime) ∧
    (∀ c s', st.data.currentSession = some c →
      dayIdx c.startTime ≠ dayIdx now →
      splitEndedValue st now = some s' →
      s'.endTime = some (dayStart now - 1) ∧
      s'.totalTime ≤ (dayStart now - 1) - s'.startTime) := by
  have hInv := inv_reachable st hr
  refine ⟨?_, ?_, ?_, ?_⟩
  · intro c hc
    obtain ⟨a1, a2, a3, a4, a5, a6⟩ := hInv.1 c hc
    rw [hclk] at a3
    refine ⟨a5, ?_⟩
    omega
  · intro c s' hc hev
    obtain ⟨a1, a2, a3, a4, a5, a6⟩ := hInv.1 c hc
    rw [hclk] at a3
    unfold endedSessionValue at hev
    rw [hc] at hev
    have hs' : s' = endedWith st now none c := by
      simpa using hev.symm
    subst hs'
    constructor
    · rw [endedWith_endTime, a1]
      rfl
    · have hle := endedWith_total_le st now none c
      rw [a1] at hle
      simp only [Option.getD_none] at hle
      rw [endedWith_startTime]
      omega
  · intro c t s' hc hlat hev
    obtain ⟨a1, a2, a3, a4, a5, a6⟩ := hInv.1 c hc
    unfold endedSessionValue at hev
    rw [hc] at hev
    have hs' : s' = endedWith st now (some t) c := by
      simpa using hev.symm
    subst hs'
    constructor
    · rw [endedWith_endTime]
      rfl
    · have hle := endedWith_total_le st now (some t) c
      simp only [Option.getD_some] at hle
      rw [endedWith_startTime]
      omega
  · intro c s' hc hday hev
    obtain ⟨a1, a2, a3, a4, a5, a6⟩ := hInv.1 c hc
    rw [hclk] at a3
    unfold splitEndedValue at hev
    rw [hc] at hev
    have hs' : s' = splitClosedWith st now c := by
      simpa using hev.symm
    subst hs'
    refine ⟨splitClosedWith_endTime st now c, ?_⟩
    have hteq := splitClosedWith_total_eq st now c
    have hbound : dayEndOf c.startTime ≤ dayStart now - 1 :=
      dayEndOf_le_dayStart_sub_one (by omega) hday
    rw [splitClosedWith_startTime]
    split at hteq
    · omega
    · omega

theorem c1_totaltime_bound_amended_witness :
    0 ≤ ((applyOp (initState cfgDefault 0 true wsW)
        (Op.textChange 0 projP)).data.currentSession.getD
          dummySession).totalTime ∧
    ((applyOp (initState cfgDefault 0 true wsW)
        (Op.textChange 0 projP)).data.currentSession.getD
          dummySession).totalTime ≤ 0 -
      ((applyOp (initState cfgDefault 0 true wsW)
        (Op.textChange 0 projP)).data.currentSession.getD
          dummySession).startTime :=
  (c1_totaltime_bound_amended
    (applyOp (initState cfgDefault 0 true wsW) (Op.textChange 0 projP)) 0
    (ReachableNoLoad.step (Op.textChange 0 projP)
      (ReachableNoLoad.init cfgDefault 0 true wsW) (by decide))
    (by decide)).1
    ((applyOp (initState cfgDefault 0 true wsW)
      (Op.textChange 0 projP)).data.currentSession.getD dummySession)
    (by decide)

/-- C2 (corrected).  When the current session's start day differs from the
tick day, the midnight check performs the split; the closed value gets
`endTime` one millisecond before the midnight of the *detection* day (which
equals 23:59:59.999 of the start day exactly when one boundary was
crossed), `isActive = false`, and the remaining active-time credit up to
that boundary; the closed value is stored in the owning project and a new
current session for the same project starts at `now` with zeroed
counters. -/
theorem c2_midnight_split_amended (st : TrackerState) (now : Int)
    (c : TimeSession) (hr : ReachableNoLoad st)
    (hc : st.data.currentSession = some c)
    (hday : dayIdx c.startTime ≠ dayIdx now) :
    checkAndHandleMidnightCrossing st now =
      { splitSessionAtMidnight st now with
        lastSessionDay := some (dayIdx now) } ∧
    (splitClosedWith st now c).endTime = some (dayStart now - 1) ∧
    (splitClosedWith st now c).isActive = false ∧
    (splitClosedWith st now c).totalTime = c.totalTime +
      (if monitorIsActive st.config st.monitor now = true ∧
          c.lastActiveTime < dayStart now - 1 then
        (dayStart now - 1) - c.lastActiveTime
      else 0) ∧
    (dayIdx now = dayIdx c.startTime + 1 →
      dayStart now - 1 = dayEndOf c.startTime) ∧
    (∃ e2 ∈ (splitSessionAtMidnight st now).data.projects,
      e2.1 = c.projectPath ∧
      Slot.stored (splitClosedWith st now c) ∈ e2.2.sessions) ∧
    (splitSessionAtMidnight st now).data.currentSession =
      some (freshSession st now c.projectName c.projectPath) ∧
    (freshSession st now c.projectName c.projectPath).startTime = now ∧
    (freshSession st now c.projectName c.projectPath).totalTime = 0 ∧
    (freshSession st now c.projectName c.projectPath).textChanges = 0 ∧
    (freshSession st now c.projectName c.projectPath).cursorMovements = 0 := by
  have hInv := inv_reachable st hr
  obtain ⟨a1, a2, a3, a4, a5, a6⟩ := hInv.1 c hc
  refine ⟨?_, splitClosedWith_endTime st now c,
    splitClosedWith_isActive st now c, splitClosedWith_total_eq st now c,
    ?_, split_member st now c hInv hc, split_currentSession st now c hc,
    rfl, rfl, rfl, rfl⟩
  · simp only [checkAndHandleMidnightCrossing, hc, a6]
    rw [if_pos hday]
  · intro h1
    unfold dayEndOf dayStart
    rw [h1]
    ring

theorem c2_midnight_split_amended_witness :
    (splitClosedWith
      (applyOp (initState cfgDefault 82800000 true wsW)
        (Op.textChange 82800000 projP)) 90000000
      ((applyOp (initState cfgDefault 82800000 true wsW)
        (Op.textChange 82800000 projP)).data.currentSession.getD
          dummySession)).endTime = some (dayStart 90000000 - 1) ∧
    (splitSessionAtMidnight
      (applyOp (initState cfgDefault 82800000 true wsW)
        (Op.textChange 82800000 projP)) 90000000).data.currentSession =
      some (freshSession
        (applyOp (initState cfgDefault 82800000 true wsW)
          (Op.textChange 82800000 projP)) 90000000
        ((applyOp (initState cfgDefault 82800000 true wsW)
          (Op.textChange 82800000 projP)).data.currentSession.getD
            dummySession).projectName
        ((applyOp (initState cfgDefault 82800000 true wsW)
          (Op.textChange 82800000 projP)).data.currentSession.getD
            dummySession).projectPath) := by
  have h := c2_midnight_split_amended
    (applyOp (initState cfgDefault 82800000 true wsW)
      (Op.textChange 82800000 projP)) 90000000
    ((applyOp (initState cfgDefault 82800000 true wsW)
      (Op.textChange 82800000 projP)).data.currentSession.getD dummySession)
    (ReachableNoLoad.step (Op.textChange 82800000 projP)
      (ReachableNoLoad.init cfgDefault 82800000 true wsW) (by decide))
    (by decide) (by decide)
  exact ⟨h.2.1, h.2.2.2.2.2.2.1⟩

/-- C3 (corrected).  Without a load of persisted data, at most one session
is current (a single optional field), and every project's list of
`endTime`-free resolved sessions is empty or exactly the current session —
so each project has at most one open session. -/
theorem c3_single_open_amended (st : TrackerState) (p : String)
    (hr : ReachableNoLoad st) :
    (openSessions st.data p).length ≤ 1 ∧
    (∀ s ∈ openSessions st.data p, st.data.currentSession = some s) ∧
    (st.data.currentSession = none → openSessions st.data p = []) := by
  have hInv := inv_reachable st hr
  cases hc : st.data.currentSession with
  | none =>
    have hopen : openSessions st.data p = [] := by
      unfold openSessions
      cases hlk : lookupProject st.data p with
      | none => rfl
      | some ps =>
        obtain ⟨e, hmem, _, hps⟩ := lookup_mem st.data p ps hlk
        show (ps.sessions.map (resolveSlot st.data.currentSession)).filter
          (fun s => s.endTime.isNone) = []
        rw [List.filter_eq_nil_iff]
        intro a ha
        rcases List.mem_map.mp ha with ⟨sl, hsl, heq⟩
        cases sl with
        | live =>
          exfalso
          refine noLive_of_inv_none hInv hc e hmem ?_
          rw [hps]
          exact hsl
        | stored s =>
          have hsome := (hInv.2.1 e hmem s (by rw [hps]; exact hsl)).1
          subst heq
          simp only [resolveSlot]
          rcases hs : s.endTime with _ | v
          · rw [hs] at hsome
            simp at hsome
          · simp [Option.isNone, hs]
    refine ⟨?_, ?_, ?_⟩
    · rw [hopen]
      simp
    · intro s hs
      rw [hopen] at hs
      simp at hs
    · intro _
      exact hopen
  | some c =>
    obtain ⟨a1, a2, a3, a4, a5, a6⟩ := hInv.1 c hc
    have h3 := hInv.2.2.1
    rw [hc] at h3
    obtain ⟨hplace, hany⟩ := h3
    have hchar : openSessions st.data p = [] ∨
        openSessions st.data p = [c] := by
      unfold openSessions
      cases hlk : lookupProject st.data p with
      | none => exact Or.inl rfl
      | some ps =>
        obtain ⟨e, hmem, hkey, hps⟩ := lookup_mem st.data p ps hlk
        have hstored : ∀ s, Slot.stored s ∈ ps.sessions →
            s.endTime.isSome = true := by
          intro s hs
          rw [← hps] at hs
          exact (hInv.2.1 e hmem s hs).1
        have hrep := filter_open_replicate st.data.currentSession
          ps.sessions c hc a1 hstored
        show (ps.sessions.map (resolveSlot st.data.currentSession)).filter
            (fun s => s.endTime.isNone) = [] ∨
          (ps.sessions.map (resolveSlot st.data.currentSession)).filter
            (fun s => s.endTime.isNone) = [c]
        rw [hrep]
        by_cases hkeyc : e.1 = c.projectPath
        · have hcount := (hplace e hmem).1 hkeyc
          rw [hps] at hcount
          rw [hcount]
          right
          rfl
        · have hnl : Slot.live ∉ ps.sessions := by
            rw [← hps]
            exact (hplace e hmem).2 hkeyc
          rw [List.count_eq_zero.mpr hnl]
          left
          rfl
    refine ⟨?_, ?_, ?_⟩
    · rcases hchar with h | h
      · rw [h]
        simp
      · rw [h]
        simp
    · intro s hs
      rcases hchar with h | h
      · rw [h] at hs
        simp at hs
      · rw [h] at hs
        simp at hs
        subst hs
        rfl
    · intro h0
      simp at h0

theorem c3_single_open_amended_witness :
    (openSessions (applyOp (initState cfgDefault 0 true wsW)
      (Op.textChange 0 projP)).data "/p").length ≤ 1 :=
  (c3_single_open_amended
    (applyOp (initState cfgDefault 0 true wsW) (Op.textChange 0 projP)) "/p"
    (ReachableNoLoad.step (Op.textChange 0 projP)
      (ReachableNoLoad.init cfgDefault 0 true wsW) (by decide))).1

/-- C4 (confirmed).  A heartbeat gap over 30 s synthesizes a sleep event
at `lastHeartbeat + 10000` immediately followed by a wake event at the
detection time; with an unpaused current session, handling the sleep event
ends the session at the sleep timestamp when auto-end-on-idle is enabled,
and otherwise only clears `isActive` and pauses, leaving `endTime`
untouched. -/
theorem c4_sleep_wake_synthesis (st : TrackerState) (now : Int)
    (proj : Option (String × String)) (c : TimeSession)
    (hgap : now - st.monitor.lastHeartbeat > SLEEP_THRESHOLD)
    (hc : st.data.currentSession = some c)
    (hrun : st.isRunning = true) (hp : st.isPaused = false) :
    heartbeatEvents st.monitor now =
      [{ type := EventType.sleep,
         timestamp := st.monitor.lastHeartbeat + HEARTBEAT_INTERVAL },
       { type := EventType.wake, timestamp := now }] ∧
    (st.config.autoEndSessionAfterIdle = true →
      onActivity st
        { type := EventType.sleep
          timestamp := st.monitor.lastHeartbeat + HEARTBEAT_INTERVAL }
        now proj =
        endCurrentSession st now
          (some (st.monitor.lastHeartbeat + HEARTBEAT_INTERVAL)) ∧
      (endedWith st now
          (some (st.monitor.lastHeartbeat + HEARTBEAT_INTERVAL)) c).endTime =
        some (st.monitor.lastHeartbeat + HEARTBEAT_INTERVAL)) ∧
    (st.config.autoEndSessionAfterIdle = false →
      (onActivity st
        { type := EventType.sleep
          timestamp := st.monitor.lastHeartbeat + HEARTBEAT_INTERVAL }
        now proj).data.currentSession =
        some { c with
          isActive := false
          lastActivity := st.monitor.lastHeartbeat + HEARTBEAT_INTERVAL } ∧
      (onActivity st
        { type := EventType.sleep
          timestamp := st.monitor.lastHeartbeat + HEARTBEAT_INTERVAL }
        now proj).isPaused = true ∧
      (onActivity st
        { type := EventType.sleep
          timestamp := st.monitor.lastHeartbeat + HEARTBEAT_INTERVAL }
        now proj).data.currentSession.map TimeSession.endTime =
        some c.endTime) := by
  refine ⟨?_, ?_, ?_⟩
  · unfold heartbeatEvents
    rw [if_pos hgap]
  · intro hae
    constructor
    · unfold onActivity
      rw [if_neg (by simp [hrun])]
      dsimp only
      simp only [hc]
      rw [if_pos (by simp [hp]), if_pos hae]
    · rw [endedWith_endTime]
      rfl
  · intro hae
    unfold onActivity
    rw [if_neg (by simp [hrun])]
    dsimp only
    simp only [hc]
    rw [if_pos (by simp [hp]), if_neg (by simp [hae])]
    exact ⟨rfl, rfl, rfl⟩

theorem c4_sleep_wake_synthesis_witness :
    heartbeatEvents (applyOp (applyOp (initState cfgDefault 0 true wsW)
        (Op.textChange 0 projP)) (Op.tickOp 25000 projP)).monitor 31000 =
      [{ type := EventType.sleep,
         timestamp := (applyOp (applyOp (initState cfgDefault 0 true wsW)
           (Op.textChange 0 projP))
           (Op.tickOp 25000 projP)).monitor.lastHeartbeat +
           HEARTBEAT_INTERVAL },
       { type := EventType.wake, timestamp := 31000 }] :=
  (c4_sleep_wake_synthesis
    (applyOp (applyOp (initState cfgDefault 0 true wsW)
      (Op.textChange 0 projP)) (Op.tickOp 25000 projP)) 31000 projP
    ((applyOp (applyOp (initState cfgDefault 0 true wsW)
      (Op.textChange 0 projP))
      (Op.tickOp 25000 projP)).data.currentSession.getD dummySession)
    (by decide) (by decide) (by decide) (by decide)).1

/-- C7 (confirmed).  Every session value in a reachable state has
non-negative `totalTime`, and any single further callback other than a
reset preserves the open session: a session with the same id and at least
the same `totalTime` exists afterwards. -/
theorem c7_totaltime_monotone_nonneg (st : TrackerState) (op : Op)
    (hr : ReachableNoLoad st) (hmono : st.clock ≤ op.now) :
    (∀ s ∈ allSessions st, 0 ≤ s.totalTime) ∧
    (∀ c, st.data.currentSession = some c → (∀ n, op ≠ Op.resetCmd n) →
      ∃ s' ∈ allSessions (applyOp st op), s'.id = c.id ∧
        c.totalTime ≤ s'.totalTime) := by
  have hInv := inv_reachable st hr
  constructor
  · intro s hs
    unfold allSessions at hs
    rcases List.mem_append.mp hs with hs | hs
    · cases hc : st.data.currentSession with
      | none =>
        rw [hc] at hs
        simp at hs
      | some c =>
        rw [hc] at hs
        simp at hs
        subst hs
        exact (hInv.1 s hc).2.2.2.2.1
    · rcases List.mem_flatMap.mp hs with ⟨e, he, hmem⟩
      rcases List.mem_map.mp hmem with ⟨sl, hsl, heq⟩
      cases sl with
      | stored s0 =>
        have h0 := (hInv.2.1 e he s0 hsl).2
        rw [← heq]
        exact h0
      | live =>
        rw [← heq]
        show (0 : Int) ≤
          (resolveSlot st.data.currentSession Slot.live).totalTime
        cases hc : st.data.currentSession with
        | some c =>
          exact (hInv.1 c hc).2.2.2.2.1
        | none =>
          exact le_refl 0
  · intro c hc hnr
    have htr : Tracked st c.id c.totalTime := Or.inl ⟨c, hc, rfl, le_refl _⟩
    have h2 := tracked_applyOp st op hInv hmono hnr c.id c.totalTime htr
    rcases h2 with ⟨c', hc', hid, ht⟩ | ⟨s', hs', hid, ht⟩
    · exact ⟨c', mem_allSessions_current _ c' hc', hid, ht⟩
    · exact ⟨s', mem_allSessions_stored _ s' hs', hid, ht⟩

theorem c7_totaltime_monotone_nonneg_witness :
    0 ≤ ((applyOp (initState cfgDefault 0 true wsW)
      (Op.textChange 0 projP)).data.currentSession.getD
        dummySession).totalTime :=
  (c7_totaltime_monotone_nonneg
    (applyOp (initState cfgDefault 0 true wsW) (Op.textChange 0 projP))
    (Op.stopCmd 5000)
    (ReachableNoLoad.step (Op.textChange 0 projP)
      (ReachableNoLoad.init cfgDefault 0 true wsW) (by decide))
    (by decide)).1
    ((applyOp (initState cfgDefault 0 true wsW)
      (Op.textChange 0 projP)).data.currentSession.getD dummySession)
    (by decide)

/-- C8 (corrected).  The export's projects array has one entry per stored
project, but its grand total is the stored `totalTimeTracked` field, which
no in-process operation ever updates: it stays 0 in every reachable state,
regardless of completed sessions. -/
theorem c8_export_amended (st : TrackerState) (now : Int)
    (hr : ReachableNoLoad st) :
    (exportData st.data now).projects.length = st.data.projects.length ∧
    (exportData st.data now).totalTimeTracked = 0 := by
  have hInv := inv_reachable st hr
  constructor
  · simp [exportData]
  · exact hInv.2.2.2.2

theorem c8_export_amended_witness :
    (exportData exportRun.data 7000).totalTimeTracked = 0 :=
  (c8_export_amended exportRun 7000
    (ReachableNoLoad.step (Op.stopCmd 6000)
      (ReachableNoLoad.step (Op.tickOp 5000 projP)
        (ReachableNoLoad.step (Op.textChange 0 projP)
          (ReachableNoLoad.init cfgDefault 0 true wsW) (by decide))
        (by decide))
      (by decide))).2

theorem c9_recalculate_is_full_recompute_witness :
    (recalculateProjectStats none psW).totalTime =
      ((((psW.sessions.map (resolveSlot none)).filter
        (fun s => s.endTime.isSome)).map (fun s => s.totalTime)).sum) ∧
    (recalculateProjectStats none psW).averageSessionDuration =
      ((recalculateProjectStats none psW).totalTime : Rat) /
        (((psW.sessions.map (resolveSlot none)).filter
          (fun s => s.endTime.isSome)).length : Rat) :=
  ⟨(c9_recalculate_is_full_recompute none psW).1,
   (c9_recalculate_is_full_recompute none psW).2.2.1 (by decide)⟩

end O3
